import Mathlib

/-! # Gold miner: hook state machine, collision detection, retraction physics, particles

A shallow embedding of `src/game.js`.

Conventions of the embedding.

* JavaScript numbers are modelled as exact rationals (`ℚ`); counters that only ever hold
  integers (`score`, `timeLeft`, `targetScore`, `level`) are `ℤ` or `ℕ`.
  The number of frames a shot or a retraction lasts depends on the rounding of binary64: for
  that, the section on the hook length in binary64 repeats the two cases of `Hook.update`
  with rounded arithmetic (`HookF64`).
* Objects mutated in place become explicit state passing.  A method of `Hook` that reaches
  for the global `window.game` takes the hook and the game and returns both.
* `Math.cos`, `Math.sin` and `Math.atan2` are parameters (`Trig`); `Math.random` reads the
  next value of a stream stored in the game; `Math.sqrt(q) < t` is decided exactly by
  `sqrtLt`.
* DOM writes and canvas drawing are not modelled, except the game-over modal, whose content
  is `Game.summary`; sound cues are logged in `Game.sounds`.  The frame loop and the
  one-second timer are not modelled: `update` is one frame.
-/

namespace GoldMiner

/-! ## Data model -/

/-- The value of the double `Math.PI`, as an exact rational. -/
def MathPI : ℚ := 884279719003555 / 281474976710656

/-- The object `this.config` of `GoldMinerGame`. -/
structure Config where
  hookSpeed : ℚ
  hookMaxLength : ℚ
  hookPullSpeed : ℚ
  gravity : ℚ
  rotationSpeed : ℚ
deriving DecidableEq

/-- The strings used as `Item.type`; `other` stands for any string that is none of the five. -/
inductive ItemType where
  | gold
  | diamond
  | goldBlock
  | smallStone
  | bigStone
  | other
deriving DecidableEq, Repr

/-- The class `Item` (fields set by the constructor; `weight` is `Item.weight` below). -/
structure Item where
  x : ℚ
  y : ℚ
  size : ℚ
  type : ItemType
  value : ℚ
  color : String
  rotation : ℚ
  rotationSpeed : ℚ
deriving DecidableEq

/-- The method `Item.calculateWeight`. -/
def Item.calculateWeight (it : Item) : ℚ :=
  match it.type with
  | ItemType.gold => 1
  | ItemType.diamond => 1 / 2
  | ItemType.goldBlock => 3 / 2
  | ItemType.smallStone => 3
  | ItemType.bigStone => 5
  | ItemType.other => 1

/-- The field `weight`: assigned once by the constructor as `this.calculateWeight()` and never
written again. -/
def Item.weight (it : Item) : ℚ := it.calculateWeight

/-- The classes `Particle` and `ScoreParticle`; `text` is `some` for a `ScoreParticle`. -/
structure Particle where
  x : ℚ
  y : ℚ
  vx : ℚ
  vy : ℚ
  color : String
  life : ℚ
  decay : ℚ
  text : Option String
deriving DecidableEq

/-- The constructor of `Particle`. -/
def Particle.new (x y vx vy : ℚ) (color : String) : Particle :=
  { x := x, y := y, vx := vx, vy := vy, color := color, life := 1, decay := 2 / 100,
    text := none }

/-- The constructor of `ScoreParticle`: `super(x, y, 0, -2, color)`, then text and decay. -/
def ScoreParticle.new (x y : ℚ) (text color : String) : Particle :=
  { Particle.new x y 0 (-2) color with text := some text, decay := 1 / 100 }

/-- The method `Particle.update` (inherited unchanged by `ScoreParticle`). -/
def Particle.update (p : Particle) : Particle :=
  let p := { p with x := p.x + p.vx }
  let p := { p with y := p.y + p.vy }
  let p := { p with vy := p.vy + 1 / 10 }
  { p with life := p.life - p.decay }

/-- The values of `Hook.state`. -/
inductive HookState where
  | idle
  | shooting
  | pulling
deriving DecidableEq, Repr

/-- The class `Hook`; its `config` is the game's config object and is read from the game. -/
structure Hook where
  x : ℚ
  y : ℚ
  angle : ℚ
  length : ℚ
  maxLength : ℚ
  state : HookState
  grabbedItem : Option Item
  rotationDirection : ℚ
deriving DecidableEq

/-- The constructor of `Hook`. -/
def Hook.new (x y : ℚ) (config : Config) : Hook :=
  { x := x, y := y, angle := 0, length := 0, maxLength := config.hookMaxLength,
    state := HookState.idle, grabbedItem := none, rotationDirection := 1 }

/-- The values of `GoldMinerGame.difficulty`. -/
inductive Difficulty where
  | easy
  | normal
  | hard
deriving DecidableEq, Repr

/-- What the game-over modal shows once `endGame` has filled it: the title chosen by `isWin`
and the score and level printed in the message. -/
structure Summary where
  won : Bool
  finalScore : ℤ
  finalLevel : ℕ
deriving DecidableEq

/-- The class `GoldMinerGame`, with the environment it talks to: the stream read by
`Math.random` (`rng`, `rngPos`), whether `window.soundManager` exists, the cues played, and
the game-over modal (`summary`, `none` while the modal is hidden). -/
structure Game where
  score : ℤ
  level : ℕ
  timeLeft : ℤ
  targetScore : ℤ
  isPlaying : Bool
  isPaused : Bool
  difficulty : Difficulty
  hook : Option Hook
  items : List Item
  particles : List Particle
  config : Config
  rng : ℕ → ℚ
  rngPos : ℕ
  soundManager : Bool
  sounds : List String
  summary : Option Summary

/-- The functions `Math.cos`, `Math.sin` and `Math.atan2`. -/
structure Trig where
  cos : ℚ → ℚ
  sin : ℚ → ℚ
  atan2 : ℚ → ℚ → ℚ

/-- The canvas width fixed by `resizeCanvas`. -/
def canvasWidth : ℚ := 800

/-- The canvas height fixed by `resizeCanvas`. -/
def canvasHeight : ℚ := 600

/-! ## Environment -/

/-- One call of `Math.random()`. -/
def Game.random (g : Game) : ℚ × Game :=
  (g.rng g.rngPos, { g with rngPos := g.rngPos + 1 })

/-- The statement `if (window.soundManager) window.soundManager.playSound(cue)`. -/
def Game.playSound (g : Game) (cue : String) : Game :=
  if g.soundManager then { g with sounds := g.sounds ++ [cue] } else g

/-- The test `Math.sqrt(q) < t` for `q ≥ 0`, decided without computing the root. -/
def sqrtLt (q t : ℚ) : Bool := decide (0 < t ∧ q < t * t)

/-! ## Scoring -/

/-- The method `GoldMinerGame.createScoreEffect`. -/
def Game.createScoreEffect (g : Game) (points : ℚ) : Game :=
  let text := "+" ++ toString (Rat.floor points)
  let particle := ScoreParticle.new (canvasWidth / 2) 100 text "#FFD700"
  { g with particles := g.particles ++ [particle] }

/-- The method `GoldMinerGame.addScore`. -/
def Game.addScore (g : Game) (points : ℚ) : Game :=
  let g := { g with score := g.score + Rat.floor points }
  g.createScoreEffect points

/-! ## Hook -/

/-- The method `Hook.getTipPosition`. -/
def Hook.getTipPosition (T : Trig) (h : Hook) : ℚ × ℚ :=
  (h.x + T.cos h.angle * h.length, h.y + T.sin h.angle * h.length)

/-- The loop of `Hook.createGrabEffect`: `n` particles are pushed, each reading two random
values, `vx` first. -/
def Hook.grabEffectLoop (tip : ℚ × ℚ) (color : String) : ℕ → Game → Game
  | 0, g => g
  | n + 1, g =>
    let (r1, g) := g.random
    let (r2, g) := g.random
    let particle := Particle.new tip.1 tip.2 ((r1 - 1 / 2) * 5) ((r2 - 1 / 2) * 5) color
    Hook.grabEffectLoop tip color n { g with particles := g.particles ++ [particle] }

/-- The method `Hook.createGrabEffect`. -/
def Hook.createGrabEffect (T : Trig) (h : Hook) (g : Game) : Game :=
  match h.grabbedItem with
  | none => g
  | some it => Hook.grabEffectLoop (h.getTipPosition T) it.color 10 g

/-- The method `Hook.handleGrabbedItem`. -/
def Hook.handleGrabbedItem (T : Trig) (h : Hook) (g : Game) : Hook × Game :=
  match h.grabbedItem with
  | none => (h, g)
  | some it =>
    let g := g.addScore it.value
    let g :=
      match it.type with
      | ItemType.gold => g.playSound "gold"
      | ItemType.goldBlock => g.playSound "gold"
      | ItemType.diamond => g.playSound "gold"
      | ItemType.smallStone => g.playSound "stone"
      | ItemType.bigStone => g.playSound "stone"
      | ItemType.other => g
    let g := h.createGrabEffect T g
    ({ h with grabbedItem := none }, g)

/-- The constant `pullSpeed` computed by the `pulling` case of `Hook.update`. -/
def Hook.pullSpeed (h : Hook) (g : Game) : ℚ :=
  match h.grabbedItem with
  | some it => g.config.hookPullSpeed * (1 / it.weight)
  | none => g.config.hookPullSpeed * 2

/-- The method `Hook.update`. -/
def Hook.update (T : Trig) (h : Hook) (g : Game) : Hook × Game :=
  match h.state with
  | HookState.idle =>
    let h := { h with angle := h.angle + g.config.rotationSpeed * h.rotationDirection }
    if |h.angle| > MathPI / 3 then
      ({ h with rotationDirection := h.rotationDirection * (-1) }, g)
    else (h, g)
  | HookState.shooting =>
    let h := { h with length := h.length + g.config.hookSpeed }
    if h.length ≥ h.maxLength then ({ h with state := HookState.pulling }, g) else (h, g)
  | HookState.pulling =>
    let pullSpeed := h.pullSpeed g
    let h := { h with length := h.length - pullSpeed }
    if h.length ≤ 0 then
      let h := { h with length := 0 }
      let h := { h with state := HookState.idle }
      if h.grabbedItem.isSome then h.handleGrabbedItem T g else (h, g)
    else (h, g)

/-- The method `Hook.shoot`. -/
def Hook.shoot (h : Hook) (angle : ℚ) : Hook :=
  { h with angle := angle, state := HookState.shooting, length := 0 }

/-- The method `Hook.grab`. -/
def Hook.grab (h : Hook) (item : Item) (g : Game) : Hook × Game :=
  ({ h with grabbedItem := some item, state := HookState.pulling }, g.playSound "grab")

/-! ## Collision detection -/

/-- The loop of `GoldMinerGame.checkCollisions`, entered with `i + 1` items still to visit:
the item at index `i` is tested next; a hit grabs it, splices it out and breaks. -/
def Game.checkCollisionsLoop (hookTip : ℚ × ℚ) (h : Hook) : ℕ → Game → Hook × Game
  | 0, g => (h, g)
  | i + 1, g =>
    match g.items[i]? with
    | none => (h, g)
    | some item =>
      let dx := |hookTip.1 - item.x|
      let dy := |hookTip.2 - item.y|
      if dx < item.size + 20 ∧ dy < item.size + 20 then
        if sqrtLt (dx * dx + dy * dy) (item.size / 2 + 5) then
          let (h, g) := h.grab item g
          (h, { g with items := g.items.eraseIdx i })
        else Game.checkCollisionsLoop hookTip h i g
      else Game.checkCollisionsLoop hookTip h i g

/-- The method `GoldMinerGame.checkCollisions`; `none` is the `TypeError` of reading
`this.hook.state` while `this.hook` is `null`. -/
def Game.checkCollisions (T : Trig) (g : Game) : Option Game :=
  match g.hook with
  | none => none
  | some h =>
    if h.state ≠ HookState.shooting ∧ h.state ≠ HookState.pulling then some g
    else
      let hookTip := h.getTipPosition T
      let (h, g) := Game.checkCollisionsLoop hookTip h g.items.length g
      some { g with hook := some h }

/-! ## Particles -/

/-- The constant `maxParticles` of `GoldMinerGame.updateParticles`. -/
def maxParticles : ℕ := 50

/-- The loop of `GoldMinerGame.updateParticles`, entered with `i + 1` particles still to
visit: the particle at index `i` is updated in place and spliced out when its life is spent. -/
def updateParticlesLoop : ℕ → List Particle → List Particle
  | 0, ps => ps
  | i + 1, ps =>
    match ps[i]? with
    | none => ps
    | some particle =>
      let particle := particle.update
      let ps := ps.set i particle
      if particle.life ≤ 0 then updateParticlesLoop i (ps.eraseIdx i)
      else updateParticlesLoop i ps

/-- The method `GoldMinerGame.updateParticles`; `slice(-maxParticles)` keeps the last
`maxParticles` elements. -/
def Game.updateParticles (g : Game) : Game :=
  let ps := updateParticlesLoop g.particles.length g.particles
  if ps.length > maxParticles then
    { g with particles := ps.drop (ps.length - maxParticles) }
  else { g with particles := ps }

/-! ## Runs of the hook -/

/-- What can happen to a hook between two frames: a tick (`Hook.update`), a fire command
(`Hook.shoot`, issued by `handleCanvasClick` only while the hook is idle) and a grab
(`Hook.grab`, issued by `checkCollisions`). -/
inductive HookEvent where
  | tick
  | fire (angle : ℚ)
  | grab (item : Item)

/-- The effect of one event on the hook and the game. -/
def HookEvent.apply (T : Trig) (e : HookEvent) (s : Hook × Game) : Hook × Game :=
  match e with
  | HookEvent.tick => s.1.update T s.2
  | HookEvent.fire angle =>
    if s.1.state = HookState.idle then (s.1.shoot angle, s.2) else s
  | HookEvent.grab item => s.1.grab item s.2

/-- The effect of a sequence of events, first event first. -/
def runEvents (T : Trig) (es : List HookEvent) (s : Hook × Game) : Hook × Game :=
  es.foldl (fun s e => e.apply T s) s

/-- The hook after `n` consecutive ticks. -/
def ticks (T : Trig) : ℕ → Hook × Game → Hook × Game
  | 0, s => s
  | n + 1, s => ticks T n (s.1.update T s.2)

/-! ## The hit test, named -/

/-- The two nested conditions of the loop body of `checkCollisions` (the pre-filter on `dx`
and `dy`, then the distance test), as one test. -/
def Game.hitTest (hookTip : ℚ × ℚ) (item : Item) : Bool :=
  let dx := |hookTip.1 - item.x|
  let dy := |hookTip.2 - item.y|
  if dx < item.size + 20 ∧ dy < item.size + 20 then
    sqrtLt (dx * dx + dy * dy) (item.size / 2 + 5)
  else false

/-- The hit test in the words of the specification, over the reals: both axis distances are
below `size + 20` and the Euclidean distance from the tip to the item is below
`size / 2 + 5`. -/
def hitSpec (hookTip : ℚ × ℚ) (item : Item) : Prop :=
  |(hookTip.1 : ℝ) - item.x| < item.size + 20 ∧
    |(hookTip.2 : ℝ) - item.y| < item.size + 20 ∧
    Real.sqrt (((hookTip.1 : ℝ) - item.x) ^ 2 + ((hookTip.2 : ℝ) - item.y) ^ 2)
      < item.size / 2 + 5

/-! ## Item field generation -/

/-- The five local variables `goldChance` ... `bigStoneChance` of `generateItems`. -/
structure ItemChances where
  gold : ℚ
  diamond : ℚ
  goldBlock : ℚ
  smallStone : ℚ
  bigStone : ℚ
deriving DecidableEq

/-- The `switch (this.difficulty)` of `generateItems`. -/
def baseChances (d : Difficulty) : ItemChances :=
  match d with
  | Difficulty.easy =>
    { gold := 40 / 100, diamond := 25 / 100, goldBlock := 20 / 100, smallStone := 10 / 100,
      bigStone := 5 / 100 }
  | Difficulty.normal =>
    { gold := 35 / 100, diamond := 22 / 100, goldBlock := 18 / 100, smallStone := 13 / 100,
      bigStone := 12 / 100 }
  | Difficulty.hard =>
    { gold := 20 / 100, diamond := 15 / 100, goldBlock := 15 / 100, smallStone := 25 / 100,
      bigStone := 25 / 100 }

/-- The constant `levelMultiplier` of `generateItems`. -/
def levelMultiplier (level : ℕ) : ℚ := 1 + ((level : ℚ) - 1) * (5 / 100)

/-- The chances after `smallStoneChance *= levelMultiplier; bigStoneChance *= levelMultiplier`. -/
def itemChances (d : Difficulty) (level : ℕ) : ItemChances :=
  let c := baseChances d
  let c := { c with smallStone := c.smallStone * levelMultiplier level }
  { c with bigStone := c.bigStone * levelMultiplier level }

/-- The constructor of `Item`: it reads one random value for `rotationSpeed`. -/
def Item.new (x y size : ℚ) (type : ItemType) (value : ℚ) (color : String) (g : Game) :
    Item × Game :=
  let (r, g) := g.random
  ({ x := x, y := y, size := size, type := type, value := value, color := color,
     rotation := 0, rotationSpeed := (r - 1 / 2) * (5 / 100) }, g)

/-- The body of the `for` loop of `generateItems` up to the constructor call: position,
sample `rand`, then the chain of comparisons that fixes type, value, size and colour. -/
def Game.generateItem (c : ItemChances) (g : Game) : Item × Game :=
  let (r, g) := g.random
  let x := r * (canvasWidth - 100) + 50
  let (r, g) := g.random
  let y := r * (canvasHeight - 250) + 250
  let (rand, g) := g.random
  if rand < c.gold then
    let (r, g) := g.random
    let value := 50 + r * 100
    let (r, g) := g.random
    let size := 20 + r * 20
    Item.new x y size ItemType.gold value "#FFD700" g
  else if rand < c.gold + c.diamond then
    let (r, g) := g.random
    let value := 100 + r * 200
    let (r, g) := g.random
    let size := 15 + r * 15
    Item.new x y size ItemType.diamond value "#00CED1" g
  else if rand < c.gold + c.diamond + c.goldBlock then
    let (r, g) := g.random
    let value := 30 + r * 50
    let (r, g) := g.random
    let size := 25 + r * 25
    Item.new x y size ItemType.goldBlock value "#FFA500" g
  else if rand < c.gold + c.diamond + c.goldBlock + c.smallStone then
    let (r, g) := g.random
    let size := 20 + r * 10
    Item.new x y size ItemType.smallStone 5 "#808080" g
  else
    let (r, g) := g.random
    let size := 35 + r * 15
    Item.new x y size ItemType.bigStone 2 "#696969" g

/-- The `for` loop of `generateItems`, with `n` items still to create. -/
def Game.generateItemsLoop (c : ItemChances) : ℕ → Game → Game
  | 0, g => g
  | n + 1, g =>
    let (item, g) := g.generateItem c
    Game.generateItemsLoop c n { g with items := g.items ++ [item] }

/-- The method `GoldMinerGame.generateItems`. -/
def Game.generateItems (g : Game) : Game :=
  let g := { g with items := [] }
  let itemCount := 8 + g.level * 2
  Game.generateItemsLoop (itemChances g.difficulty g.level) itemCount g

/-- The type that the chain of comparisons of `generateItems` gives to the sample `rand`. -/
def selectType (c : ItemChances) (rand : ℚ) : ItemType :=
  if rand < c.gold then ItemType.gold
  else if rand < c.gold + c.diamond then ItemType.diamond
  else if rand < c.gold + c.diamond + c.goldBlock then ItemType.goldBlock
  else if rand < c.gold + c.diamond + c.goldBlock + c.smallStone then ItemType.smallStone
  else ItemType.bigStone

/-- The two stone types. -/
def ItemType.isStone (t : ItemType) : Bool :=
  match t with
  | ItemType.smallStone => true
  | ItemType.bigStone => true
  | _ => false

/-! ## Session controller -/

/-- The method `GoldMinerGame.applyDifficultySettings`. -/
def Game.applyDifficultySettings (g : Game) : Game :=
  match g.difficulty with
  | Difficulty.easy =>
    { g with
      timeLeft := 90
      targetScore := 300
      config := { g.config with hookSpeed := 4, hookPullSpeed := 3, rotationSpeed := 3 / 100 } }
  | Difficulty.normal =>
    { g with
      timeLeft := 75
      targetScore := 400
      config := { g.config with
        hookSpeed := 32 / 10, hookPullSpeed := 23 / 10, rotationSpeed := 25 / 1000 } }
  | Difficulty.hard =>
    { g with
      timeLeft := 45
      targetScore := 800
      config := { g.config with
        hookSpeed := 25 / 10, hookPullSpeed := 15 / 10, rotationSpeed := 15 / 1000 } }

/-- The method `GoldMinerGame.initializeGameObjects`. -/
def Game.initializeGameObjects (g : Game) : Game :=
  let g := { g with hook := some (Hook.new (canvasWidth / 2) 150 g.config) }
  g.generateItems

/-- The method `GoldMinerGame.startGame`. -/
def Game.startGame (g : Game) : Game :=
  let g := { g with isPlaying := true, isPaused := false, score := 0, level := 1 }
  let g := g.applyDifficultySettings
  g.initializeGameObjects

/-- The method `GoldMinerGame.setDifficulty`. -/
def Game.setDifficulty (g : Game) (difficulty : Difficulty) : Game :=
  { g with difficulty := difficulty }

/-- The method `GoldMinerGame.togglePause`. -/
def Game.togglePause (g : Game) : Game :=
  { g with isPaused := !g.isPaused }

/-- The method `GoldMinerGame.restartGame`. -/
def Game.restartGame (g : Game) : Game :=
  { g with
    isPlaying := false
    isPaused := false
    score := 0
    level := 1
    timeLeft := 60
    targetScore := 500
    hook := none
    items := []
    particles := []
    summary := none }

/-- The method `GoldMinerGame.endGame`. -/
def Game.endGame (g : Game) (isWin : Bool) : Game :=
  if !g.isPlaying && !isWin then g
  else
    let g := { g with isPlaying := false }
    let g := g.playSound "gameover"
    { g with summary := some { won := isWin, finalScore := g.score, finalLevel := g.level } }

/-- The loop of `createLevelUpEffect`: `n` particles are collected, each reading two random
values, `vx` first. -/
def Game.levelUpEffectLoop : ℕ → List Particle → Game → List Particle × Game
  | 0, particles, g => (particles, g)
  | n + 1, particles, g =>
    let (r1, g) := g.random
    let (r2, g) := g.random
    let particle := Particle.new (canvasWidth / 2) (canvasHeight / 2)
      ((r1 - 1 / 2) * 10) ((r2 - 1 / 2) * 10) "#FFD700"
    Game.levelUpEffectLoop n (particles ++ [particle]) g

/-- The method `GoldMinerGame.createLevelUpEffect`. -/
def Game.createLevelUpEffect (g : Game) : Game :=
  let (particles, g) := Game.levelUpEffectLoop 20 [] g
  let g := { g with particles := g.particles ++ particles }
  g.playSound "levelup"

/-- The `switch (this.difficulty)` of `nextLevel`: `timeBonus`. -/
def timeBonus (d : Difficulty) : ℤ :=
  match d with
  | Difficulty.easy => 15
  | Difficulty.normal => 10
  | Difficulty.hard => 5

/-- The `switch (this.difficulty)` of `nextLevel`: `targetIncrease`. -/
def targetIncrease (d : Difficulty) : ℤ :=
  match d with
  | Difficulty.easy => 150
  | Difficulty.normal => 200
  | Difficulty.hard => 250

/-- The `switch (this.difficulty)` of `nextLevel`: `speedIncrease`. -/
def speedIncrease (d : Difficulty) : ℚ :=
  match d with
  | Difficulty.easy => 6 / 10
  | Difficulty.normal => 5 / 10
  | Difficulty.hard => 3 / 10

/-- The method `GoldMinerGame.nextLevel`. -/
def Game.nextLevel (g : Game) : Game :=
  let g := { g with level := g.level + 1 }
  let g := { g with timeLeft := g.timeLeft + timeBonus g.difficulty }
  let g := { g with targetScore := g.targetScore + targetIncrease g.difficulty }
  let g := { g with
    config := { g.config with hookSpeed := g.config.hookSpeed + speedIncrease g.difficulty } }
  let g := g.generateItems
  g.createLevelUpEffect

/-- The method `GoldMinerGame.checkGameStatus`; `none` is the `TypeError` of reading
`this.hook.state` while `this.hook` is `null`. -/
def Game.checkGameStatus (g : Game) : Option Game :=
  let g := if g.timeLeft ≤ 0 then g.endGame false else g
  let g := if g.score ≥ g.targetScore then g.nextLevel else g
  if g.items.length = 0 then
    match g.hook with
    | none => none
    | some h => if h.state = HookState.idle then some g.generateItems else some g
  else some g

/-- A click on the canvas: the event's `clientX`, `clientY` and the `left`, `top` of the
canvas rectangle read by `getBoundingClientRect`. -/
structure Click where
  clientX : ℚ
  clientY : ℚ
  rectLeft : ℚ
  rectTop : ℚ

/-- The method `GoldMinerGame.handleCanvasClick`; `none` is the `TypeError` of reading
`this.hook.state` while `this.hook` is `null`. -/
def Game.handleCanvasClick (T : Trig) (g : Game) (e : Click) : Option Game :=
  if !g.isPlaying || g.isPaused then some g
  else
    let x := e.clientX - e.rectLeft
    let y := e.clientY - e.rectTop
    let centerX := canvasWidth / 2
    let centerY := 150
    let angle := T.atan2 (y - centerY) (x - centerX)
    match g.hook with
    | none => none
    | some h =>
      if h.state = HookState.idle then
        let g := { g with hook := some (h.shoot angle) }
        some (g.playSound "shoot")
      else some g

/-- The method `GoldMinerGame.update`: one frame. -/
def Game.update (T : Trig) (g : Game) : Option Game :=
  match g.hook with
  | none => none
  | some h =>
    let (h, g) := h.update T g
    let g := { g with hook := some h }
    let afterCollisions :=
      if h.state = HookState.shooting ∨ h.state = HookState.pulling then g.checkCollisions T
      else some g
    match afterCollisions with
    | none => none
    | some g => g.updateParticles.checkGameStatus

/-- The particle after `n` calls of `Particle.update`. -/
def Particle.updateN : ℕ → Particle → Particle
  | 0, p => p
  | n + 1, p => Particle.updateN n p.update

/-! ## Collision detection without the pre-filter -/

/-- The loop of `checkCollisions` with the pre-filter on `dx` and `dy` removed: only the
distance test decides a hit.  It is the reference against which the code's loop is compared. -/
def Game.checkCollisionsLoopNarrow (hookTip : ℚ × ℚ) (h : Hook) : ℕ → Game → Hook × Game
  | 0, g => (h, g)
  | i + 1, g =>
    match g.items[i]? with
    | none => (h, g)
    | some item =>
      let dx := |hookTip.1 - item.x|
      let dy := |hookTip.2 - item.y|
      if sqrtLt (dx * dx + dy * dy) (item.size / 2 + 5) then
        let (h, g) := h.grab item g
        (h, { g with items := g.items.eraseIdx i })
      else Game.checkCollisionsLoopNarrow hookTip h i g

/-- The method `checkCollisions` with the pre-filter removed. -/
def Game.checkCollisionsNarrow (T : Trig) (g : Game) : Option Game :=
  match g.hook with
  | none => none
  | some h =>
    if h.state ≠ HookState.shooting ∧ h.state ≠ HookState.pulling then some g
    else
      let hookTip := h.getTipPosition T
      let (h, g) := Game.checkCollisionsLoopNarrow hookTip h g.items.length g
      some { g with hook := some h }

/-! ## The hook length in binary64

The definitions above compute with exact rationals.  The program computes with binary64
numbers, and the number of frames a shot or a retraction lasts depends on how the sums
`length += hookSpeed` and the differences `length -= pullSpeed` round.  This section repeats
the `shooting` and `pulling` cases of `Hook.update`, on the fields they read and write, with
the arithmetic of binary64: 53 significant bits, round to nearest, ties to even.

A binary64 value `v ≥ 0` that is a multiple of `2 ^ (-60)` is represented by the natural number
`v * 2 ^ 60`.  Every length, speed and weight used below is such a value, and sums and
differences of such values are such values again. -/

/-- The number of units in `1`: the natural number `n` stands for the value `n / 2 ^ 60`. -/
def f64Scale : ℕ := 2 ^ 60

/-- The value that the natural number `n` stands for. -/
def f64Val (n : ℕ) : ℚ := (n : ℚ) / f64Scale

/-- The number of binary digits of `n`, by repeated halving, at most `fuel` of them. -/
def bitLengthAux : ℕ → ℕ → ℕ
  | 0, _ => 0
  | fuel + 1, n => if n = 0 then 0 else bitLengthAux fuel (n / 2) + 1

/-- The number of binary digits of `n`, for `n < 2 ^ 256`. -/
def bitLength (n : ℕ) : ℕ := bitLengthAux 256 n

/-- The quotient `a / b` rounded to 53 significant bits, to nearest, ties to the even
significand.  On a quotient of at least `2 ^ 52` units this is the rounding of binary64; a
smaller quotient is rounded to the nearest natural number, where a natural number with fewer
than 54 digits is left as it is. -/
def roundDiv53 (a b : ℕ) : ℕ :=
  let unit := 2 ^ (bitLength (a / b) - 53)
  let q := a / (b * unit)
  let r := a % (b * unit)
  if 2 * r < b * unit then q * unit
  else if b * unit < 2 * r then (q + 1) * unit
  else if q % 2 = 0 then q * unit else (q + 1) * unit

/-- The binary64 sum `x + y`. -/
def f64Add (x y : ℕ) : ℕ := roundDiv53 (x + y) 1

/-- The binary64 difference `x - y`, for `y ≤ x`. -/
def f64Sub (x y : ℕ) : ℕ := roundDiv53 (x - y) 1

/-- The binary64 product `x * y`. -/
def f64Mul (x y : ℕ) : ℕ := roundDiv53 (x * y) f64Scale

/-- The binary64 quotient `x / y`. -/
def f64Div (x y : ℕ) : ℕ := roundDiv53 (x * f64Scale) y

/-- The binary64 value of a decimal literal worth `n / d`, such as `f64Lit 32 10` for `3.2`. -/
def f64Lit (n d : ℕ) : ℕ := roundDiv53 (n * f64Scale) d

/-- The fields of a `Hook` that the `shooting` and `pulling` cases of `Hook.update` read and
write, in binary64; `weight` is the weight of `grabbedItem`, when there is one. -/
structure HookF64 where
  state : HookState
  length : ℕ
  maxLength : ℕ
  weight : Option ℕ
deriving DecidableEq

/-- The constant `pullSpeed` computed by the `pulling` case of `Hook.update`, in binary64:
`hookPullSpeed * (1 / weight)` is a division followed by a multiplication, each rounded. -/
def HookF64.pullSpeed (h : HookF64) (hookPullSpeed : ℕ) : ℕ :=
  match h.weight with
  | some weight => f64Mul hookPullSpeed (f64Div f64Scale weight)
  | none => f64Mul hookPullSpeed (2 * f64Scale)

/-- The method `Hook.update` in binary64, on state, length and attachment.  The `idle` case
writes `angle` and `rotationDirection` only.  In the `pulling` case the rounded difference
`length - pullSpeed` is `≤ 0` exactly when `length ≤ pullSpeed`, and `handleGrabbedItem` clears
the attachment. -/
def HookF64.update (hookSpeed hookPullSpeed : ℕ) (h : HookF64) : HookF64 :=
  match h.state with
  | HookState.idle => h
  | HookState.shooting =>
    let h := { h with length := f64Add h.length hookSpeed }
    if h.length ≥ h.maxLength then { h with state := HookState.pulling } else h
  | HookState.pulling =>
    let pullSpeed := h.pullSpeed hookPullSpeed
    if h.length ≤ pullSpeed then
      { h with
        length := 0
        state := HookState.idle
        weight := none }
    else { h with length := f64Sub h.length pullSpeed }

/-- The method `Hook.shoot` in binary64. -/
def HookF64.shoot (h : HookF64) : HookF64 :=
  { h with
    state := HookState.shooting
    length := 0 }

/-- The hook after `n` frames in which it meets no item and no click arrives. -/
def HookF64.ticks (hookSpeed hookPullSpeed : ℕ) : ℕ → HookF64 → HookF64
  | 0, h => h
  | n + 1, h => HookF64.ticks hookSpeed hookPullSpeed n (h.update hookSpeed hookPullSpeed)

/-! ## Sample values -/

/-- The config object built by the constructor of `GoldMinerGame`. -/
def defaultConfig : Config :=
  { hookSpeed := 3, hookMaxLength := 400, hookPullSpeed := 2, gravity := 1 / 10,
    rotationSpeed := 2 / 100 }

/-- The fields of a `GoldMinerGame` right after its constructor, for a given random stream. -/
def Game.new (rng : ℕ → ℚ) (soundManager : Bool) : Game :=
  { score := 0, level := 1, timeLeft := 60, targetScore := 500, isPlaying := false,
    isPaused := false, difficulty := Difficulty.normal, hook := none, items := [],
    particles := [], config := defaultConfig, rng := rng, rngPos := 0,
    soundManager := soundManager, sounds := [], summary := none }

/-- A stand-in for `Math.cos`, `Math.sin` and `Math.atan2` that is exact at angle `0`. -/
def trigZero : Trig := { cos := fun _ => 1, sin := fun _ => 0, atan2 := fun _ _ => 0 }

/-- A gold item lying where the tip of `sampleHook` is. -/
def sampleItem : Item :=
  { x := 500, y := 150, size := 20, type := ItemType.gold, value := 75, color := "#FFD700",
    rotation := 0, rotationSpeed := 0 }

/-- A hook shooting at angle `0` that has reached length `100`. -/
def sampleHook : Hook :=
  { Hook.new 400 150 defaultConfig with state := HookState.shooting, length := 100 }

/-- A big stone far from the tip of `sampleHook`. -/
def sampleStone : Item :=
  { sampleItem with
    x := 100
    y := 500
    size := 40
    type := ItemType.bigStone
    value := 2
    color := "#696969" }

/-- A diamond. -/
def sampleDiamond : Item :=
  { sampleItem with
    size := 15
    type := ItemType.diamond
    value := 301 / 2
    color := "#00CED1" }

/-- A session in play whose field holds `sampleStone` and `sampleItem`. -/
def sampleGame : Game :=
  { Game.new (fun _ => 0) false with
    isPlaying := true
    hook := some sampleHook
    items := [sampleStone, sampleItem] }

/-- A hook of length `1` pulling `sampleStone`. -/
def samplePulling : Hook :=
  { Hook.new 400 150 defaultConfig with
    state := HookState.pulling
    length := 1
    grabbedItem := some sampleStone }

/-- A hook pulling `sampleStone` that the next tick brings home. -/
def sampleResolving : Hook := { samplePulling with length := 2 / 5 }

/-- A session in play with a sound manager, its hook idle. -/
def samplePlaying : Game :=
  { Game.new (fun _ => 0) true with
    isPlaying := true
    hook := some (Hook.new 400 150 defaultConfig)
    items := [sampleStone, sampleItem] }

/-- A click on the canvas, 100 to the right of the miner and level with it. -/
def sampleClick : Click := { clientX := 510, clientY := 170, rectLeft := 10, rectTop := 20 }

/-- A session in play whose hook is pulling `sampleDiamond` with its tip on `sampleItem`. -/
def sampleRegrab : Game :=
  { sampleGame with
    hook := some { sampleHook with
      state := HookState.pulling
      grabbedItem := some sampleDiamond } }

/-- An idle hook left at angle `1.5` by a shot fired there. -/
def sampleStuck : Hook := { Hook.new 400 150 defaultConfig with angle := 3 / 2 }

/-- An idle binary64 hook with the constructor's `maxLength` of 400. -/
def sampleHookF64 : HookF64 :=
  { state := HookState.idle, length := 0, maxLength := 400 * f64Scale, weight := none }

/-- A binary64 hook of length 400 pulling a gold nugget (weight 1). -/
def sampleGoldF64 : HookF64 :=
  { state := HookState.pulling, length := 400 * f64Scale, maxLength := 400 * f64Scale,
    weight := some f64Scale }

/-- A binary64 hook of length 108 pulling a big stone (weight 5). -/
def sampleBigStoneF64 : HookF64 :=
  { state := HookState.pulling, length := 108 * f64Scale, maxLength := 400 * f64Scale,
    weight := some (5 * f64Scale) }


/-- A session whose particle list holds 51 particles just created: a score particle, the
oldest, followed by 50 basic particles. -/
def sampleCrowded : Game :=
  { sampleGame with
    particles := ScoreParticle.new 400 100 "+50" "#FFD700" ::
      List.replicate 50 (Particle.new 0 0 0 0 "#FFD700") }

/-- A session whose particle list holds one score particle that has been updated 99 times. -/
def sampleOldScore : Game :=
  { sampleGame with
    particles := [Particle.updateN 99 (ScoreParticle.new 400 100 "+50" "#FFD700")] }

/-! ## Basic facts about the environment and the hook step -/

theorem Item.weight_pos (it : Item) : 0 < it.weight := by
  unfold Item.weight Item.calculateWeight
  cases it.type <;> norm_num

theorem Game.playSound_config (g : Game) (cue : String) : (g.playSound cue).config = g.config := by
  unfold Game.playSound
  split <;> rfl

theorem Game.playSound_score (g : Game) (cue : String) : (g.playSound cue).score = g.score := by
  unfold Game.playSound
  split <;> rfl

theorem Game.playSound_items (g : Game) (cue : String) : (g.playSound cue).items = g.items := by
  unfold Game.playSound
  split <;> rfl

theorem Game.playSound_hook (g : Game) (cue : String) : (g.playSound cue).hook = g.hook := by
  unfold Game.playSound
  split <;> rfl

theorem Game.addScore_config (g : Game) (v : ℚ) : (g.addScore v).config = g.config := rfl

theorem Game.addScore_score (g : Game) (v : ℚ) : (g.addScore v).score = g.score + Rat.floor v := rfl

theorem Hook.grabEffectLoop_config (tip : ℚ × ℚ) (c : String) (n : ℕ) (g : Game) :
    (Hook.grabEffectLoop tip c n g).config = g.config := by
  induction n generalizing g with
  | zero => rfl
  | succ n ih => simp only [Hook.grabEffectLoop, Game.random]; rw [ih]

theorem Hook.grabEffectLoop_score (tip : ℚ × ℚ) (c : String) (n : ℕ) (g : Game) :
    (Hook.grabEffectLoop tip c n g).score = g.score := by
  induction n generalizing g with
  | zero => rfl
  | succ n ih => simp only [Hook.grabEffectLoop, Game.random]; rw [ih]

theorem Hook.update_idle (T : Trig) (h : Hook) (g : Game) (hs : h.state = HookState.idle) :
    h.update T g =
      (if |h.angle + g.config.rotationSpeed * h.rotationDirection| > MathPI / 3 then
        { h with angle := h.angle + g.config.rotationSpeed * h.rotationDirection,
                 rotationDirection := h.rotationDirection * (-1) }
       else { h with angle := h.angle + g.config.rotationSpeed * h.rotationDirection }, g) := by
  unfold Hook.update
  simp only [hs]
  split <;> rfl

theorem Hook.update_shooting (T : Trig) (h : Hook) (g : Game)
    (hs : h.state = HookState.shooting) :
    h.update T g =
      (if h.length + g.config.hookSpeed ≥ h.maxLength then
        { h with length := h.length + g.config.hookSpeed, state := HookState.pulling }
       else { h with length := h.length + g.config.hookSpeed }, g) := by
  unfold Hook.update
  simp only [hs]
  split <;> rfl

theorem Hook.update_pulling_pos (T : Trig) (h : Hook) (g : Game)
    (hs : h.state = HookState.pulling) (hpos : 0 < h.length - h.pullSpeed g) :
    h.update T g = ({ h with length := h.length - h.pullSpeed g }, g) := by
  unfold Hook.update
  simp only [hs]
  rw [if_neg (not_le.mpr hpos)]

theorem Hook.update_pulling_done (T : Trig) (h : Hook) (g : Game)
    (hs : h.state = HookState.pulling) (hle : h.length - h.pullSpeed g ≤ 0) :
    h.update T g =
      match h.grabbedItem with
      | none => ({ h with length := 0, state := HookState.idle }, g)
      | some it =>
        ({ h with length := 0, state := HookState.idle, grabbedItem := none },
          ({ h with length := 0, state := HookState.idle } : Hook).createGrabEffect T
            (match it.type with
              | ItemType.gold => (g.addScore it.value).playSound "gold"
              | ItemType.goldBlock => (g.addScore it.value).playSound "gold"
              | ItemType.diamond => (g.addScore it.value).playSound "gold"
              | ItemType.smallStone => (g.addScore it.value).playSound "stone"
              | ItemType.bigStone => (g.addScore it.value).playSound "stone"
              | ItemType.other => g.addScore it.value)) := by
  unfold Hook.update
  simp only [hs]
  rw [if_pos hle]
  cases hg : h.grabbedItem with
  | none => simp
  | some it => simp [Hook.handleGrabbedItem, hg]

theorem Hook.pullSpeed_pos (h : Hook) (g : Game) (hp : 0 < g.config.hookPullSpeed) :
    0 < h.pullSpeed g := by
  unfold Hook.pullSpeed
  cases h.grabbedItem with
  | none => simp only; linarith
  | some it =>
    simp only
    have hw := it.weight_pos
    positivity

theorem Hook.createGrabEffect_config (T : Trig) (h : Hook) (g : Game) :
    (h.createGrabEffect T g).config = g.config := by
  unfold Hook.createGrabEffect
  cases h.grabbedItem with
  | none => rfl
  | some it => exact Hook.grabEffectLoop_config _ _ _ _

theorem Hook.createGrabEffect_score (T : Trig) (h : Hook) (g : Game) :
    (h.createGrabEffect T g).score = g.score := by
  unfold Hook.createGrabEffect
  cases h.grabbedItem with
  | none => rfl
  | some it => exact Hook.grabEffectLoop_score _ _ _ _

theorem Hook.update_config (T : Trig) (h : Hook) (g : Game) :
    (h.update T g).2.config = g.config := by
  cases hs : h.state with
  | idle => rw [Hook.update_idle T h g hs]
  | shooting => rw [Hook.update_shooting T h g hs]
  | pulling =>
    by_cases hpos : 0 < h.length - h.pullSpeed g
    · rw [Hook.update_pulling_pos T h g hs hpos]
    · rw [Hook.update_pulling_done T h g hs (not_lt.mp hpos)]
      cases h.grabbedItem with
      | none => rfl
      | some it =>
        simp only [Hook.createGrabEffect_config]
        cases it.type <;> simp [Game.playSound_config, Game.addScore_config]

theorem Hook.update_maxLength (T : Trig) (h : Hook) (g : Game) :
    (h.update T g).1.maxLength = h.maxLength := by
  cases hs : h.state with
  | idle => rw [Hook.update_idle T h g hs]; split <;> rfl
  | shooting => rw [Hook.update_shooting T h g hs]; split <;> rfl
  | pulling =>
    by_cases hpos : 0 < h.length - h.pullSpeed g
    · rw [Hook.update_pulling_pos T h g hs hpos]
    · rw [Hook.update_pulling_done T h g hs (not_lt.mp hpos)]
      cases h.grabbedItem <;> rfl

/-- One tick keeps the length within `[0, maxLength + hookSpeed)`, and below `maxLength`
unless the hook is pulling. -/
theorem Hook.update_length_inv (T : Trig) (h : Hook) (g : Game)
    (hspd : 0 < g.config.hookSpeed) (hp : 0 < g.config.hookPullSpeed)
    (h0 : 0 ≤ h.length) (h1 : h.state ≠ HookState.pulling → h.length < h.maxLength)
    (h2 : h.length < h.maxLength + g.config.hookSpeed) (hM : 0 < h.maxLength) :
    0 ≤ (h.update T g).1.length ∧
      ((h.update T g).1.state ≠ HookState.pulling →
        (h.update T g).1.length < (h.update T g).1.maxLength) ∧
      (h.update T g).1.length < (h.update T g).1.maxLength + g.config.hookSpeed := by
  cases hs : h.state with
  | idle =>
    have hl := h1 (by rw [hs]; decide)
    rw [Hook.update_idle T h g hs]
    split <;> exact ⟨h0, fun _ => hl, h2⟩
  | shooting =>
    have hl := h1 (by rw [hs]; decide)
    rw [Hook.update_shooting T h g hs]
    split
    · refine ⟨?_, fun hne => absurd rfl hne, ?_⟩
      · show 0 ≤ h.length + g.config.hookSpeed
        linarith
      · show h.length + g.config.hookSpeed < h.maxLength + g.config.hookSpeed
        linarith
    · rename_i hlt
      have hlt2 : h.length + g.config.hookSpeed < h.maxLength := not_le.mp hlt
      refine ⟨?_, fun _ => hlt2, ?_⟩
      · show 0 ≤ h.length + g.config.hookSpeed
        linarith
      · show h.length + g.config.hookSpeed < h.maxLength + g.config.hookSpeed
        linarith
  | pulling =>
    have hv := h.pullSpeed_pos g hp
    by_cases hpos : 0 < h.length - h.pullSpeed g
    · rw [Hook.update_pulling_pos T h g hs hpos]
      refine ⟨le_of_lt hpos, fun hne => absurd hs hne, ?_⟩
      show h.length - h.pullSpeed g < h.maxLength + g.config.hookSpeed
      linarith
    · rw [Hook.update_pulling_done T h g hs (not_lt.mp hpos)]
      cases h.grabbedItem with
      | none =>
        refine ⟨le_refl _, fun _ => hM, ?_⟩
        show (0 : ℚ) < h.maxLength + g.config.hookSpeed
        linarith
      | some it =>
        refine ⟨le_refl _, fun _ => hM, ?_⟩
        show (0 : ℚ) < h.maxLength + g.config.hookSpeed
        linarith

/-! ## Runs: ticks and events -/

theorem ticks_succ_last (T : Trig) (n : ℕ) (s : Hook × Game) :
    ticks T (n + 1) s = (ticks T n s).1.update T (ticks T n s).2 := by
  induction n generalizing s with
  | zero => rfl
  | succ n ih =>
    show ticks T (n + 1) (s.1.update T s.2) = _
    rw [ih]
    rfl

theorem runEvents_replicate_tick (T : Trig) (n : ℕ) (s : Hook × Game) :
    runEvents T (List.replicate n HookEvent.tick) s = ticks T n s := by
  induction n generalizing s with
  | zero => rfl
  | succ n ih =>
    show runEvents T (List.replicate n HookEvent.tick) (HookEvent.tick.apply T s) = _
    rw [ih]
    rfl

theorem runEvents_cons (T : Trig) (e : HookEvent) (es : List HookEvent) (s : Hook × Game) :
    runEvents T (e :: es) s = runEvents T es (e.apply T s) := rfl

theorem ticks_config (T : Trig) (n : ℕ) (s : Hook × Game) :
    (ticks T n s).2.config = s.2.config := by
  induction n generalizing s with
  | zero => rfl
  | succ n ih =>
    show (ticks T n (s.1.update T s.2)).2.config = _
    rw [ih, Hook.update_config]

/-- While the target length stays below `maxLength`, `n` shooting ticks add `n * hookSpeed`
and change nothing else. -/
theorem ticks_shooting (T : Trig) (n : ℕ) (h : Hook) (g : Game)
    (hs : h.state = HookState.shooting) (hspd : 0 ≤ g.config.hookSpeed)
    (hlt : h.length + n * g.config.hookSpeed < h.maxLength) :
    ticks T n (h, g) = ({ h with length := h.length + n * g.config.hookSpeed }, g) := by
  induction n generalizing h with
  | zero => simp [ticks]
  | succ n ih =>
    have hn : (0 : ℚ) ≤ n := Nat.cast_nonneg n
    have hmul : 0 ≤ (n : ℚ) * g.config.hookSpeed := mul_nonneg hn hspd
    push_cast at hlt
    have h1 : ¬ (h.length + g.config.hookSpeed ≥ h.maxLength) := by
      intro hge
      nlinarith
    show ticks T n (h.update T g) = _
    rw [Hook.update_shooting T h g hs, if_neg h1]
    rw [ih { h with length := h.length + g.config.hookSpeed } hs (by show h.length + g.config.hookSpeed + n * g.config.hookSpeed < h.maxLength; linarith)]
    congr 2
    push_cast
    ring

/-- While the target length stays positive, `n` pulling ticks subtract `n * pullSpeed` and
change nothing else. -/
theorem ticks_pulling (T : Trig) (n : ℕ) (h : Hook) (g : Game)
    (hs : h.state = HookState.pulling) (hv : 0 ≤ h.pullSpeed g)
    (hpos : 0 < h.length - n * h.pullSpeed g) :
    ticks T n (h, g) = ({ h with length := h.length - n * h.pullSpeed g }, g) := by
  induction n generalizing h with
  | zero => simp [ticks]
  | succ n ih =>
    have hn : (0 : ℚ) ≤ n := Nat.cast_nonneg n
    have hmul : 0 ≤ (n : ℚ) * h.pullSpeed g := mul_nonneg hn hv
    push_cast at hpos
    have h1 : 0 < h.length - h.pullSpeed g := by nlinarith
    show ticks T n (h.update T g) = _
    rw [Hook.update_pulling_pos T h g hs h1]
    have hps : ({ h with length := h.length - h.pullSpeed g } : Hook).pullSpeed g
        = h.pullSpeed g := rfl
    rw [ih { h with length := h.length - h.pullSpeed g } hs (by rw [hps]; exact hv)
      (by rw [hps]; show 0 < h.length - h.pullSpeed g - n * h.pullSpeed g; linarith)]
    rw [hps]
    congr 2
    push_cast
    ring

/-- Every event keeps the game's config, the hook's `maxLength` and the length bounds. -/
theorem HookEvent.apply_length_inv (T : Trig) (cfg : Config) (e : HookEvent) (s : Hook × Game)
    (hspd : 0 < cfg.hookSpeed) (hp : 0 < cfg.hookPullSpeed) (hM : 0 < cfg.hookMaxLength)
    (hc : s.2.config = cfg) (hm : s.1.maxLength = cfg.hookMaxLength)
    (h0 : 0 ≤ s.1.length)
    (h1 : s.1.state ≠ HookState.pulling → s.1.length < cfg.hookMaxLength)
    (h2 : s.1.length < cfg.hookMaxLength + cfg.hookSpeed) :
    (e.apply T s).2.config = cfg ∧ (e.apply T s).1.maxLength = cfg.hookMaxLength ∧
      0 ≤ (e.apply T s).1.length ∧
      ((e.apply T s).1.state ≠ HookState.pulling →
        (e.apply T s).1.length < cfg.hookMaxLength) ∧
      (e.apply T s).1.length < cfg.hookMaxLength + cfg.hookSpeed := by
  obtain ⟨h, g⟩ := s
  simp only at hc hm h0 h1 h2
  cases e with
  | tick =>
    have key := Hook.update_length_inv T h g (by rw [hc]; exact hspd) (by rw [hc]; exact hp)
      h0 (by rw [hm]; exact h1) (by rw [hm, hc]; exact h2) (by rw [hm]; exact hM)
    have hmx : (h.update T g).1.maxLength = cfg.hookMaxLength := by
      rw [Hook.update_maxLength, hm]
    rw [hmx, hc] at key
    exact ⟨by show (h.update T g).2.config = cfg; rw [Hook.update_config, hc], hmx, key⟩
  | fire angle =>
    by_cases hi : h.state = HookState.idle
    · simp only [HookEvent.apply, hi, if_true]
      exact ⟨hc, hm, le_refl _, fun _ => hM, by show (0 : ℚ) < _; linarith⟩
    · simp only [HookEvent.apply, hi, if_false]
      exact ⟨hc, hm, h0, h1, h2⟩
  | grab item =>
    refine ⟨?_, hm, h0, fun hne => absurd rfl hne, h2⟩
    show (g.playSound "grab").config = cfg
    rw [Game.playSound_config, hc]

/-- Every run from a fresh hook keeps the config, `maxLength` and the length bounds. -/
theorem runEvents_length_inv (T : Trig) (cfg : Config) (es : List HookEvent) (s : Hook × Game)
    (hspd : 0 < cfg.hookSpeed) (hp : 0 < cfg.hookPullSpeed) (hM : 0 < cfg.hookMaxLength)
    (hc : s.2.config = cfg) (hm : s.1.maxLength = cfg.hookMaxLength)
    (h0 : 0 ≤ s.1.length)
    (h1 : s.1.state ≠ HookState.pulling → s.1.length < cfg.hookMaxLength)
    (h2 : s.1.length < cfg.hookMaxLength + cfg.hookSpeed) :
    0 ≤ (runEvents T es s).1.length ∧
      ((runEvents T es s).1.state ≠ HookState.pulling →
        (runEvents T es s).1.length < cfg.hookMaxLength) ∧
      (runEvents T es s).1.length < cfg.hookMaxLength + cfg.hookSpeed := by
  induction es generalizing s with
  | nil => exact ⟨h0, h1, h2⟩
  | cons e es ih =>
    rw [runEvents_cons]
    obtain ⟨a, b, c, d, f⟩ := HookEvent.apply_length_inv T cfg e s hspd hp hM hc hm h0 h1 h2
    exact ih _ a b c d f

/-! ## C1: bounds on the hook length -/

/-- With the constructor's config a shot at any angle that meets nothing is pulling with length
`402` after 134 ticks. -/
theorem ticks_default_miss (a : ℚ) :
    ticks trigZero 134 ((Hook.new 400 150 defaultConfig).shoot a, Game.new (fun _ => 0) false) =
      ({ (Hook.new 400 150 defaultConfig).shoot a with
          length := 402, state := HookState.pulling }, Game.new (fun _ => 0) false) := by
  have hcfg : (Game.new (fun _ => 0) false).config.hookSpeed = 3 := rfl
  rw [ticks_succ_last,
    ticks_shooting trigZero 133 _ _ rfl (by rw [hcfg]; norm_num)
      (by rw [hcfg]; norm_num [Hook.shoot, Hook.new, defaultConfig])]
  rw [Hook.update_shooting _ _ _ rfl]
  simp only [hcfg]
  norm_num [Hook.shoot, Hook.new, defaultConfig]

theorem apply_fire_fresh (T : Trig) (a x y : ℚ) (cfg : Config) (g : Game) :
    HookEvent.apply T (HookEvent.fire a) (Hook.new x y cfg, g) =
      ((Hook.new x y cfg).shoot a, g) := by
  simp [HookEvent.apply, Hook.new]

/-- C1, as stated, fails: with the constructor's config (`hookSpeed = 3`, `maxLength = 400`) a
shot that meets nothing has length `402 > maxLength` after its 134th tick. -/
theorem hook_length_exceeds_maxLength_on_miss :
    (runEvents trigZero (HookEvent.fire 0 :: List.replicate 134 HookEvent.tick)
        (Hook.new 400 150 defaultConfig, Game.new (fun _ => 0) false)).1.length = 402 ∧
      (runEvents trigZero (HookEvent.fire 0 :: List.replicate 134 HookEvent.tick)
        (Hook.new 400 150 defaultConfig, Game.new (fun _ => 0) false)).1.maxLength = 400 ∧
      ¬ ((runEvents trigZero (HookEvent.fire 0 :: List.replicate 134 HookEvent.tick)
        (Hook.new 400 150 defaultConfig, Game.new (fun _ => 0) false)).1.length ≤
        (runEvents trigZero (HookEvent.fire 0 :: List.replicate 134 HookEvent.tick)
        (Hook.new 400 150 defaultConfig, Game.new (fun _ => 0) false)).1.maxLength) := by
  rw [runEvents_cons, runEvents_replicate_tick, apply_fire_fresh, ticks_default_miss]
  refine ⟨rfl, rfl, ?_⟩
  show ¬ ((402 : ℚ) ≤ defaultConfig.hookMaxLength)
  norm_num [defaultConfig]

/-- C1 (amended): from a freshly constructed hook with `hookSpeed > 0`, `hookPullSpeed > 0` and
`maxLength > 0`, after every sequence of ticks, fire commands and grabs the length satisfies
`0 ≤ length < maxLength + hookSpeed`, and `length < maxLength` unless the hook is pulling. -/
theorem hook_length_bounded_with_overshoot (T : Trig) (g : Game) (x y : ℚ)
    (es : List HookEvent) (hspd : 0 < g.config.hookSpeed) (hp : 0 < g.config.hookPullSpeed)
    (hM : 0 < g.config.hookMaxLength) :
    0 ≤ (runEvents T es (Hook.new x y g.config, g)).1.length ∧
      (runEvents T es (Hook.new x y g.config, g)).1.length <
        g.config.hookMaxLength + g.config.hookSpeed ∧
      ((runEvents T es (Hook.new x y g.config, g)).1.state ≠ HookState.pulling →
        (runEvents T es (Hook.new x y g.config, g)).1.length < g.config.hookMaxLength) := by
  obtain ⟨a, b, c⟩ := runEvents_length_inv T g.config es (Hook.new x y g.config, g) hspd hp hM
    rfl rfl (le_refl _) (fun _ => hM) (by show (0 : ℚ) < _; linarith)
  exact ⟨a, c, b⟩

/-- Witness for C1 (amended): the constructor's config, a fire and two ticks. -/
theorem hook_length_bounded_with_overshoot_witness :
    0 ≤ (runEvents trigZero [HookEvent.fire 0, HookEvent.tick, HookEvent.tick]
        (Hook.new 400 150 (Game.new (fun _ => 0) false).config,
          Game.new (fun _ => 0) false)).1.length ∧
      (runEvents trigZero [HookEvent.fire 0, HookEvent.tick, HookEvent.tick]
        (Hook.new 400 150 (Game.new (fun _ => 0) false).config,
          Game.new (fun _ => 0) false)).1.length <
        (Game.new (fun _ => 0) false).config.hookMaxLength +
          (Game.new (fun _ => 0) false).config.hookSpeed ∧
      ((runEvents trigZero [HookEvent.fire 0, HookEvent.tick, HookEvent.tick]
        (Hook.new 400 150 (Game.new (fun _ => 0) false).config,
          Game.new (fun _ => 0) false)).1.state ≠ HookState.pulling →
        (runEvents trigZero [HookEvent.fire 0, HookEvent.tick, HookEvent.tick]
        (Hook.new 400 150 (Game.new (fun _ => 0) false).config,
          Game.new (fun _ => 0) false)).1.length <
          (Game.new (fun _ => 0) false).config.hookMaxLength) :=
  hook_length_bounded_with_overshoot trigZero (Game.new (fun _ => 0) false) 400 150
    [HookEvent.fire 0, HookEvent.tick, HookEvent.tick]
    (by norm_num [Game.new, defaultConfig]) (by norm_num [Game.new, defaultConfig])
    (by norm_num [Game.new, defaultConfig])

/-! ## C2: the idle sweep -/

theorem MathPI_third_pos : 0 < MathPI / 3 := by
  norm_num [MathPI]

theorem ticks_add (T : Trig) (m n : ℕ) (s : Hook × Game) :
    ticks T (m + n) s = ticks T n (ticks T m s) := by
  induction m generalizing s with
  | zero => simp [ticks]
  | succ m ih =>
    rw [Nat.add_right_comm]
    show ticks T (m + n) (s.1.update T s.2) = ticks T n (ticks T m (s.1.update T s.2))
    exact ih _

theorem Hook.update_angle_of_not_idle (T : Trig) (h : Hook) (g : Game)
    (hs : h.state ≠ HookState.idle) :
    (h.update T g).1.angle = h.angle ∧
      (h.update T g).1.rotationDirection = h.rotationDirection := by
  cases hst : h.state with
  | idle => exact absurd hst hs
  | shooting => rw [Hook.update_shooting T h g hst]; split <;> exact ⟨rfl, rfl⟩
  | pulling =>
    by_cases hpos : 0 < h.length - h.pullSpeed g
    · rw [Hook.update_pulling_pos T h g hst hpos]
      exact ⟨rfl, rfl⟩
    · rw [Hook.update_pulling_done T h g hst (not_lt.mp hpos)]
      cases h.grabbedItem <;> exact ⟨rfl, rfl⟩

/-- While the sweep moves up and stays within the bound, `n` idle ticks add
`n * rotationSpeed` to the angle and change nothing else. -/
theorem ticks_idle_up (T : Trig) (n : ℕ) (h : Hook) (g : Game)
    (hs : h.state = HookState.idle) (hd : h.rotationDirection = 1)
    (hrs : 0 ≤ g.config.rotationSpeed) (hlo : -(MathPI / 3) ≤ h.angle)
    (hhi : h.angle + n * g.config.rotationSpeed ≤ MathPI / 3) :
    ticks T n (h, g) = ({ h with angle := h.angle + n * g.config.rotationSpeed }, g) := by
  induction n generalizing h with
  | zero => simp [ticks]
  | succ n ih =>
    have hn : (0 : ℚ) ≤ n := Nat.cast_nonneg n
    have hmul : 0 ≤ (n : ℚ) * g.config.rotationSpeed := mul_nonneg hn hrs
    push_cast at hhi
    have h1 : ¬ (|h.angle + g.config.rotationSpeed * h.rotationDirection| > MathPI / 3) := by
      rw [hd, mul_one, not_lt, abs_le]
      constructor <;> nlinarith
    show ticks T n (h.update T g) = _
    rw [Hook.update_idle T h g hs, if_neg h1]
    rw [ih { h with angle := h.angle + g.config.rotationSpeed * h.rotationDirection } hs hd
      (by show -(MathPI / 3) ≤ h.angle + g.config.rotationSpeed * h.rotationDirection
          rw [hd]; linarith)
      (by show h.angle + g.config.rotationSpeed * h.rotationDirection
            + n * g.config.rotationSpeed ≤ MathPI / 3
          rw [hd]; linarith)]
    congr 2
    show h.angle + g.config.rotationSpeed * h.rotationDirection + n * g.config.rotationSpeed
      = h.angle + ((n + 1 : ℕ) : ℚ) * g.config.rotationSpeed
    rw [hd]
    push_cast
    ring

/-- Every event keeps the config and the facts that bound the sweep, provided a fire command
aims within the sweep range. -/
theorem HookEvent.apply_angle_inv (T : Trig) (cfg : Config) (e : HookEvent) (s : Hook × Game)
    (hrs : 0 ≤ cfg.rotationSpeed)
    (hfire : ∀ a, e = HookEvent.fire a → |a| ≤ MathPI / 3)
    (hc : s.2.config = cfg)
    (hd : s.1.rotationDirection = 1 ∨ s.1.rotationDirection = -1)
    (hub : |s.1.angle| ≤ MathPI / 3 + cfg.rotationSpeed)
    (hhi : MathPI / 3 < s.1.angle → s.1.rotationDirection = -1)
    (hlo : s.1.angle < -(MathPI / 3) → s.1.rotationDirection = 1) :
    (e.apply T s).2.config = cfg ∧
      ((e.apply T s).1.rotationDirection = 1 ∨ (e.apply T s).1.rotationDirection = -1) ∧
      |(e.apply T s).1.angle| ≤ MathPI / 3 + cfg.rotationSpeed ∧
      (MathPI / 3 < (e.apply T s).1.angle → (e.apply T s).1.rotationDirection = -1) ∧
      ((e.apply T s).1.angle < -(MathPI / 3) → (e.apply T s).1.rotationDirection = 1) := by
  obtain ⟨h, g⟩ := s
  simp only at hc hd hub hhi hlo
  have hB := MathPI_third_pos
  cases e with
  | tick =>
    refine ⟨by show (h.update T g).2.config = cfg; rw [Hook.update_config, hc], ?_⟩
    show ((h.update T g).1.rotationDirection = 1 ∨ (h.update T g).1.rotationDirection = -1) ∧
      |(h.update T g).1.angle| ≤ MathPI / 3 + cfg.rotationSpeed ∧
      (MathPI / 3 < (h.update T g).1.angle → (h.update T g).1.rotationDirection = -1) ∧
      ((h.update T g).1.angle < -(MathPI / 3) → (h.update T g).1.rotationDirection = 1)
    by_cases hst : h.state = HookState.idle
    · rw [Hook.update_idle T h g hst, hc]
      rw [abs_le] at hub
      rcases hd with hd | hd
      · have ha : h.angle ≤ MathPI / 3 := by
          by_contra hcon
          have := hhi (not_le.mp hcon)
          rw [hd] at this
          norm_num at this
        rw [hd, mul_one]
        split
        · rename_i hgt
          rw [gt_iff_lt, lt_abs] at hgt
          refine ⟨Or.inr (by show (1 : ℚ) * (-1) = -1; norm_num), ?_, ?_, ?_⟩
          · show |h.angle + cfg.rotationSpeed| ≤ _
            rw [abs_le]; constructor <;> linarith
          · intro _; show (1 : ℚ) * (-1) = -1; norm_num
          · intro hlt
            have hlt2 : h.angle + cfg.rotationSpeed < -(MathPI / 3) := hlt
            rcases hgt with hgt | hgt <;> linarith
        · rename_i hngt
          rw [gt_iff_lt, not_lt, abs_le] at hngt
          refine ⟨Or.inl rfl, ?_, ?_, ?_⟩
          · show |h.angle + cfg.rotationSpeed| ≤ _
            rw [abs_le]; constructor <;> linarith
          · intro hlt
            have hlt2 : MathPI / 3 < h.angle + cfg.rotationSpeed := hlt
            linarith
          · intro hlt
            have hlt2 : h.angle + cfg.rotationSpeed < -(MathPI / 3) := hlt
            linarith
      · have ha : -(MathPI / 3) ≤ h.angle := by
          by_contra hcon
          have := hlo (not_le.mp hcon)
          rw [hd] at this
          norm_num at this
        rw [hd]
        split
        · rename_i hgt
          rw [gt_iff_lt, lt_abs] at hgt
          refine ⟨Or.inl (by show (-1 : ℚ) * (-1) = 1; norm_num), ?_, ?_, ?_⟩
          · show |h.angle + cfg.rotationSpeed * -1| ≤ _
            rw [abs_le]; constructor <;> linarith
          · intro hlt
            have hlt2 : MathPI / 3 < h.angle + cfg.rotationSpeed * -1 := hlt
            rcases hgt with hgt | hgt <;> linarith
          · intro _; show (-1 : ℚ) * (-1) = 1; norm_num
        · rename_i hngt
          rw [gt_iff_lt, not_lt, abs_le] at hngt
          refine ⟨Or.inr rfl, ?_, ?_, ?_⟩
          · show |h.angle + cfg.rotationSpeed * -1| ≤ _
            rw [abs_le]; constructor <;> linarith
          · intro hlt
            have hlt2 : MathPI / 3 < h.angle + cfg.rotationSpeed * -1 := hlt
            linarith
          · intro hlt
            have hlt2 : h.angle + cfg.rotationSpeed * -1 < -(MathPI / 3) := hlt
            linarith
    · obtain ⟨ea, ed⟩ := Hook.update_angle_of_not_idle T h g hst
      rw [ea, ed]
      exact ⟨hd, hub, hhi, hlo⟩
  | fire angle =>
    have hfa := hfire angle rfl
    by_cases hi : h.state = HookState.idle
    · simp only [HookEvent.apply, hi, if_true]
      rw [abs_le] at hfa
      refine ⟨hc, hd, ?_, ?_, ?_⟩
      · show |angle| ≤ _
        rw [abs_le]; constructor <;> linarith
      · intro hlt
        have hlt2 : MathPI / 3 < angle := hlt
        linarith
      · intro hlt
        have hlt2 : angle < -(MathPI / 3) := hlt
        linarith
    · simp only [HookEvent.apply, hi, if_false]
      exact ⟨hc, hd, hub, hhi, hlo⟩
  | grab item =>
    refine ⟨?_, hd, hub, hhi, hlo⟩
    show (g.playSound "grab").config = cfg
    rw [Game.playSound_config, hc]

theorem runEvents_angle_inv (T : Trig) (cfg : Config) (es : List HookEvent) (s : Hook × Game)
    (hrs : 0 ≤ cfg.rotationSpeed)
    (hfire : ∀ a, HookEvent.fire a ∈ es → |a| ≤ MathPI / 3)
    (hc : s.2.config = cfg)
    (hd : s.1.rotationDirection = 1 ∨ s.1.rotationDirection = -1)
    (hub : |s.1.angle| ≤ MathPI / 3 + cfg.rotationSpeed)
    (hhi : MathPI / 3 < s.1.angle → s.1.rotationDirection = -1)
    (hlo : s.1.angle < -(MathPI / 3) → s.1.rotationDirection = 1) :
    (runEvents T es s).2.config = cfg ∧
      ((runEvents T es s).1.rotationDirection = 1 ∨
        (runEvents T es s).1.rotationDirection = -1) ∧
      |(runEvents T es s).1.angle| ≤ MathPI / 3 + cfg.rotationSpeed := by
  induction es generalizing s with
  | nil => exact ⟨hc, hd, hub⟩
  | cons e es ih =>
    rw [runEvents_cons]
    obtain ⟨a, b, c, d, f⟩ := HookEvent.apply_angle_inv T cfg e s hrs
      (fun a ha => hfire a (by rw [ha]; exact List.mem_cons_self _ _)) hc hd hub hhi hlo
    exact ih _ (fun a ha => hfire a (List.mem_cons_of_mem _ ha)) a b c d f

/-- With the constructor's config a pulling hook of length `402` that holds nothing is idle,
at its unchanged angle, after 101 ticks. -/
theorem ticks_default_retract (a : ℚ) :
    ticks trigZero 101 ({ (Hook.new 400 150 defaultConfig).shoot a with
        length := 402, state := HookState.pulling }, Game.new (fun _ => 0) false) =
      ({ (Hook.new 400 150 defaultConfig).shoot a with
          length := 0, state := HookState.idle }, Game.new (fun _ => 0) false) := by
  have hv : ∀ l : ℚ, ({ (Hook.new 400 150 defaultConfig).shoot a with
      length := l, state := HookState.pulling } : Hook).pullSpeed
        (Game.new (fun _ => 0) false) = 4 := by
    intro l
    norm_num [Hook.pullSpeed, Hook.shoot, Hook.new, Game.new, defaultConfig]
  rw [ticks_succ_last,
    ticks_pulling trigZero 100 _ _ rfl (by rw [hv]; norm_num) (by rw [hv]; norm_num)]
  rw [Hook.update_pulling_done _ _ _ rfl (by rw [hv, hv]; norm_num)]
  rfl

/-- C2, as stated, fails twice over.  With the constructor's config (`rotationSpeed = 0.02`)
the fresh hook is idle at angle `1.06 > π/3` after 53 ticks; and a shot fired at angle `1.5`
that meets nothing leaves the hook idle at angle `1.5 > π/3` after 235 ticks. -/
theorem idle_angle_exceeds_bound :
    ((runEvents trigZero (List.replicate 53 HookEvent.tick)
        (Hook.new 400 150 defaultConfig, Game.new (fun _ => 0) false)).1.state
        = HookState.idle ∧
      (runEvents trigZero (List.replicate 53 HookEvent.tick)
        (Hook.new 400 150 defaultConfig, Game.new (fun _ => 0) false)).1.angle = 53 / 50 ∧
      ¬ (|(runEvents trigZero (List.replicate 53 HookEvent.tick)
        (Hook.new 400 150 defaultConfig, Game.new (fun _ => 0) false)).1.angle|
        ≤ MathPI / 3)) ∧
    ((runEvents trigZero (HookEvent.fire (3 / 2) :: List.replicate 235 HookEvent.tick)
        (Hook.new 400 150 defaultConfig, Game.new (fun _ => 0) false)).1.state
        = HookState.idle ∧
      (runEvents trigZero (HookEvent.fire (3 / 2) :: List.replicate 235 HookEvent.tick)
        (Hook.new 400 150 defaultConfig, Game.new (fun _ => 0) false)).1.angle = 3 / 2 ∧
      ¬ (|(runEvents trigZero (HookEvent.fire (3 / 2) :: List.replicate 235 HookEvent.tick)
        (Hook.new 400 150 defaultConfig, Game.new (fun _ => 0) false)).1.angle|
        ≤ MathPI / 3)) := by
  constructor
  · have hrs : (Game.new (fun _ => 0) false).config.rotationSpeed = 2 / 100 := rfl
    have key : runEvents trigZero (List.replicate 53 HookEvent.tick)
        (Hook.new 400 150 defaultConfig, Game.new (fun _ => 0) false) =
        ({ Hook.new 400 150 defaultConfig with angle := 53 / 50, rotationDirection := -1 },
          Game.new (fun _ => 0) false) := by
      rw [runEvents_replicate_tick, ticks_succ_last,
        ticks_idle_up trigZero 52 _ _ rfl rfl (by rw [hrs]; norm_num)
          (by norm_num [Hook.new, MathPI]) (by rw [hrs]; norm_num [Hook.new, MathPI])]
      rw [Hook.update_idle _ _ _ rfl]
      simp only [hrs]
      rw [if_pos (by norm_num [Hook.new, MathPI, abs_of_pos])]
      norm_num [Hook.new]
    rw [key]
    refine ⟨rfl, rfl, ?_⟩
    show ¬ (|(53 / 50 : ℚ)| ≤ MathPI / 3)
    norm_num [MathPI, abs_of_pos]
  · have key : runEvents trigZero (HookEvent.fire (3 / 2) :: List.replicate 235 HookEvent.tick)
        (Hook.new 400 150 defaultConfig, Game.new (fun _ => 0) false) =
        ({ (Hook.new 400 150 defaultConfig).shoot (3 / 2) with
            length := 0, state := HookState.idle }, Game.new (fun _ => 0) false) := by
      rw [runEvents_cons, runEvents_replicate_tick, apply_fire_fresh,
        show (235 : ℕ) = 134 + 101 from rfl, ticks_add, ticks_default_miss,
        ticks_default_retract]
    rw [key]
    refine ⟨rfl, rfl, ?_⟩
    show ¬ (|(3 / 2 : ℚ)| ≤ MathPI / 3)
    norm_num [MathPI, abs_of_pos]

/-- C2 (amended): from a freshly constructed hook with `rotationSpeed > 0`, after every sequence
of ticks, grabs and fire commands whose target angles lie within `[-π/3, π/3]`, the angle lies
within `[-π/3 - rotationSpeed, π/3 + rotationSpeed]`; and an idle tick reverses the rotation
direction exactly when the angle it has just produced is strictly beyond `±π/3`. -/
theorem idle_angle_bounded_with_overshoot (T : Trig) (g : Game) (x y : ℚ)
    (es : List HookEvent) (hrs : 0 < g.config.rotationSpeed)
    (hfire : ∀ a, HookEvent.fire a ∈ es → |a| ≤ MathPI / 3) :
    |(runEvents T es (Hook.new x y g.config, g)).1.angle|
        ≤ MathPI / 3 + g.config.rotationSpeed ∧
      ((runEvents T es (Hook.new x y g.config, g)).1.state = HookState.idle →
        (((runEvents T es (Hook.new x y g.config, g)).1.update T
            (runEvents T es (Hook.new x y g.config, g)).2).1.rotationDirection =
              -(runEvents T es (Hook.new x y g.config, g)).1.rotationDirection ↔
          MathPI / 3 < |((runEvents T es (Hook.new x y g.config, g)).1.update T
            (runEvents T es (Hook.new x y g.config, g)).2).1.angle|)) := by
  have hB := MathPI_third_pos
  obtain ⟨hc, hd, hub⟩ := runEvents_angle_inv T g.config es (Hook.new x y g.config, g)
    (le_of_lt hrs) hfire rfl (Or.inl rfl)
    (by show |(0 : ℚ)| ≤ _; rw [abs_zero]; linarith)
    (fun hlt => absurd (show MathPI / 3 < (0 : ℚ) from hlt) (not_lt.mpr (le_of_lt hB)))
    (fun hlt => absurd (show (0 : ℚ) < -(MathPI / 3) from hlt) (by linarith))
  refine ⟨hub, fun hst => ?_⟩
  generalize runEvents T es (Hook.new x y g.config, g) = s at hc hd hub hst
  obtain ⟨h, g2⟩ := s
  simp only at hc hd hub hst
  show (h.update T g2).1.rotationDirection = -h.rotationDirection ↔
    MathPI / 3 < |(h.update T g2).1.angle|
  rw [Hook.update_idle T h g2 hst]
  split
  · rename_i hgt
    constructor
    · intro _; exact hgt
    · intro _; show h.rotationDirection * (-1) = -h.rotationDirection; ring
  · rename_i hngt
    constructor
    · intro heq
      have heq2 : h.rotationDirection = -h.rotationDirection := heq
      rcases hd with hd | hd <;> rw [hd] at heq2 <;> norm_num at heq2
    · intro hlt
      exact absurd hlt hngt

/-- Witness for C2 (amended): the constructor's config, a fire at angle `1` and two ticks. -/
theorem idle_angle_bounded_with_overshoot_witness :
    |(runEvents trigZero [HookEvent.fire 1, HookEvent.tick, HookEvent.tick]
        (Hook.new 400 150 (Game.new (fun _ => 0) false).config,
          Game.new (fun _ => 0) false)).1.angle|
        ≤ MathPI / 3 + (Game.new (fun _ => 0) false).config.rotationSpeed ∧
      ((runEvents trigZero [HookEvent.fire 1, HookEvent.tick, HookEvent.tick]
        (Hook.new 400 150 (Game.new (fun _ => 0) false).config,
          Game.new (fun _ => 0) false)).1.state = HookState.idle →
        (((runEvents trigZero [HookEvent.fire 1, HookEvent.tick, HookEvent.tick]
        (Hook.new 400 150 (Game.new (fun _ => 0) false).config,
          Game.new (fun _ => 0) false)).1.update trigZero
            (runEvents trigZero [HookEvent.fire 1, HookEvent.tick, HookEvent.tick]
        (Hook.new 400 150 (Game.new (fun _ => 0) false).config,
          Game.new (fun _ => 0) false)).2).1.rotationDirection =
              -(runEvents trigZero [HookEvent.fire 1, HookEvent.tick, HookEvent.tick]
        (Hook.new 400 150 (Game.new (fun _ => 0) false).config,
          Game.new (fun _ => 0) false)).1.rotationDirection ↔
          MathPI / 3 < |((runEvents trigZero [HookEvent.fire 1, HookEvent.tick, HookEvent.tick]
        (Hook.new 400 150 (Game.new (fun _ => 0) false).config,
          Game.new (fun _ => 0) false)).1.update trigZero
            (runEvents trigZero [HookEvent.fire 1, HookEvent.tick, HookEvent.tick]
        (Hook.new 400 150 (Game.new (fun _ => 0) false).config,
          Game.new (fun _ => 0) false)).2).1.angle|)) :=
  idle_angle_bounded_with_overshoot trigZero (Game.new (fun _ => 0) false) 400 150
    [HookEvent.fire 1, HookEvent.tick, HookEvent.tick]
    (by norm_num [Game.new, defaultConfig])
    (by
      intro a ha
      simp only [List.mem_cons, HookEvent.fire.injEq, List.mem_singleton, reduceCtorEq,
        or_false, List.mem_nil_iff] at ha
      rw [ha]
      norm_num [MathPI, abs_of_pos])

/-! ## C3, C4: collision detection -/

/-- The rational test `sqrtLt` decides the real comparison `√q < t`. -/
theorem sqrtLt_iff_real (q t : ℚ) : sqrtLt q t = true ↔ Real.sqrt (q : ℝ) < (t : ℝ) := by
  unfold sqrtLt
  rw [decide_eq_true_iff]
  constructor
  · rintro ⟨ht, hq⟩
    have ht2 : (0 : ℝ) < (t : ℝ) := by exact_mod_cast ht
    rw [Real.sqrt_lt' ht2]
    have : ((q : ℝ)) < (t : ℝ) * (t : ℝ) := by exact_mod_cast hq
    nlinarith
  · intro hlt
    have ht2 : (0 : ℝ) < (t : ℝ) := lt_of_le_of_lt (Real.sqrt_nonneg _) hlt
    rw [Real.sqrt_lt' ht2] at hlt
    refine ⟨by exact_mod_cast ht2, ?_⟩
    have : ((q : ℝ)) < (t : ℝ) * (t : ℝ) := by nlinarith
    exact_mod_cast this

/-- The test of the code is the hit test of the specification. -/
theorem Game.hitTest_iff_hitSpec (hookTip : ℚ × ℚ) (item : Item) :
    Game.hitTest hookTip item = true ↔ hitSpec hookTip item := by
  unfold Game.hitTest hitSpec
  have hx : |(hookTip.1 : ℝ) - item.x| < item.size + 20 ↔
      |hookTip.1 - item.x| < item.size + 20 := by
    constructor
    · intro hr
      have : ((|hookTip.1 - item.x| : ℚ) : ℝ) < ((item.size + 20 : ℚ) : ℝ) := by
        push_cast; exact hr
      exact_mod_cast this
    · intro hq
      have : ((|hookTip.1 - item.x| : ℚ) : ℝ) < ((item.size + 20 : ℚ) : ℝ) :=
        Rat.cast_lt.mpr hq
      push_cast at this
      exact this
  have hy : |(hookTip.2 : ℝ) - item.y| < item.size + 20 ↔
      |hookTip.2 - item.y| < item.size + 20 := by
    constructor
    · intro hr
      have : ((|hookTip.2 - item.y| : ℚ) : ℝ) < ((item.size + 20 : ℚ) : ℝ) := by
        push_cast; exact hr
      exact_mod_cast this
    · intro hq
      have : ((|hookTip.2 - item.y| : ℚ) : ℝ) < ((item.size + 20 : ℚ) : ℝ) :=
        Rat.cast_lt.mpr hq
      push_cast at this
      exact this
  have hsq : Real.sqrt (((hookTip.1 : ℝ) - item.x) ^ 2 + ((hookTip.2 : ℝ) - item.y) ^ 2)
      < item.size / 2 + 5 ↔
      sqrtLt (|hookTip.1 - item.x| * |hookTip.1 - item.x| +
        |hookTip.2 - item.y| * |hookTip.2 - item.y|) (item.size / 2 + 5) = true := by
    rw [sqrtLt_iff_real, abs_mul_abs_self, abs_mul_abs_self]
    push_cast
    rw [← pow_two, ← pow_two]
  rw [hx, hy, hsq]
  simp only
  split
  · rename_i hc
    constructor
    · intro hs; exact ⟨hc.1, hc.2, hs⟩
    · intro hs; exact hs.2.2
  · rename_i hc
    constructor
    · intro hf; exact absurd hf (by decide)
    · intro hs; exact absurd ⟨hs.1, hs.2.1⟩ hc

/-- One step of the collision loop, in terms of `hitTest`. -/
theorem Game.checkCollisionsLoop_succ (hookTip : ℚ × ℚ) (h : Hook) (i : ℕ) (g : Game)
    (item : Item) (hi : g.items[i]? = some item) :
    Game.checkCollisionsLoop hookTip h (i + 1) g =
      if Game.hitTest hookTip item = true then
        ({ h with grabbedItem := some item, state := HookState.pulling },
          { g.playSound "grab" with items := g.items.eraseIdx i })
      else Game.checkCollisionsLoop hookTip h i g := by
  rw [Game.checkCollisionsLoop]
  simp only [hi, Game.hitTest]
  by_cases hc : |hookTip.1 - item.x| < item.size + 20 ∧ |hookTip.2 - item.y| < item.size + 20
  · simp only [hc, and_self, if_true]
    split
    · simp only [Hook.grab, Game.playSound_items]
    · rfl
  · rw [if_neg hc, if_neg hc]
    simp

/-- What the collision loop does: it stops at the highest index below `n` whose item passes
the hit test, grabs that item and removes it; with no such index it changes nothing. -/
theorem Game.checkCollisionsLoop_spec (hookTip : ℚ × ℚ) (h : Hook) (n : ℕ) (g : Game)
    (hn : n ≤ g.items.length) :
    ((∀ j item, j < n → g.items[j]? = some item → Game.hitTest hookTip item = false) ∧
        Game.checkCollisionsLoop hookTip h n g = (h, g)) ∨
      (∃ i item, i < n ∧ g.items[i]? = some item ∧ Game.hitTest hookTip item = true ∧
        (∀ j item2, i < j → j < n → g.items[j]? = some item2 →
          Game.hitTest hookTip item2 = false) ∧
        Game.checkCollisionsLoop hookTip h n g =
          ({ h with grabbedItem := some item, state := HookState.pulling },
            { g.playSound "grab" with items := g.items.eraseIdx i })) := by
  induction n with
  | zero =>
    left
    exact ⟨fun j _ hj => absurd hj (Nat.not_lt_zero _), rfl⟩
  | succ n ih =>
    have hlt : n < g.items.length := hn
    have hget : g.items[n]? = some (g.items[n]) := List.getElem?_eq_getElem hlt
    rw [Game.checkCollisionsLoop_succ hookTip h n g _ hget]
    by_cases hhit : Game.hitTest hookTip g.items[n] = true
    · right
      refine ⟨n, g.items[n], Nat.lt_succ_self n, hget, hhit, ?_, by rw [if_pos hhit]⟩
      intro j _ hj1 hj2
      omega
    · rw [if_neg hhit]
      rcases ih (Nat.le_of_lt hlt) with ⟨hall, heq⟩ | ⟨i, item, hi, hgi, hh, hafter, heq⟩
      · left
        refine ⟨?_, heq⟩
        intro j item hj hgj
        rcases Nat.lt_succ_iff_lt_or_eq.mp hj with hj2 | hj2
        · exact hall j item hj2 hgj
        · subst hj2
          rw [hget] at hgj
          cases hgj
          simpa using hhit
      · right
        refine ⟨i, item, Nat.lt_succ_of_lt hi, hgi, hh, ?_, heq⟩
        intro j item2 hij hj hgj
        rcases Nat.lt_succ_iff_lt_or_eq.mp hj with hj2 | hj2
        · exact hafter j item2 hij hj2 hgj
        · subst hj2
          rw [hget] at hgj
          cases hgj
          simpa using hhit

theorem Game.checkCollisions_idle (T : Trig) (g : Game) (h : Hook) (hh : g.hook = some h)
    (hst : h.state = HookState.idle) : g.checkCollisions T = some g := by
  unfold Game.checkCollisions
  simp [hh, hst]

theorem Game.checkCollisions_active (T : Trig) (g : Game) (h : Hook) (hh : g.hook = some h)
    (hst : h.state = HookState.shooting ∨ h.state = HookState.pulling) :
    g.checkCollisions T =
      some { (Game.checkCollisionsLoop (h.getTipPosition T) h g.items.length g).2 with
        hook := some (Game.checkCollisionsLoop (h.getTipPosition T) h g.items.length g).1 } := by
  unfold Game.checkCollisions
  have hne : ¬ (h.state ≠ HookState.shooting ∧ h.state ≠ HookState.pulling) := by
    rcases hst with hst | hst <;> rw [hst] <;> decide
  simp only [hh, hne, if_false]

/-- The result of `checkCollisions` in full: unchanged game, or the highest hit grabbed. -/
theorem Game.checkCollisions_cases (T : Trig) (g : Game) (h : Hook) (hh : g.hook = some h) :
    ((h.state = HookState.idle ∨
        ∀ (j : ℕ) (item : Item), g.items[j]? = some item →
          Game.hitTest (h.getTipPosition T) item = false) ∧
        g.checkCollisions T = some g) ∨
      ((h.state = HookState.shooting ∨ h.state = HookState.pulling) ∧
        ∃ i item, i < g.items.length ∧ g.items[i]? = some item ∧
          Game.hitTest (h.getTipPosition T) item = true ∧
          (∀ (j : ℕ) (item2 : Item), i < j → g.items[j]? = some item2 →
            Game.hitTest (h.getTipPosition T) item2 = false) ∧
          g.checkCollisions T = some { g.playSound "grab" with
            hook := some { h with grabbedItem := some item, state := HookState.pulling },
            items := g.items.eraseIdx i }) := by
  cases hst : h.state with
  | idle => exact Or.inl ⟨Or.inl rfl, Game.checkCollisions_idle T g h hh hst⟩
  | shooting =>
    have hact : h.state = HookState.shooting ∨ h.state = HookState.pulling := Or.inl hst
    rcases Game.checkCollisionsLoop_spec (h.getTipPosition T) h g.items.length g (le_refl _)
      with ⟨hall, heq⟩ | ⟨i, item, hi, hgi, hhit, hafter, heq⟩
    · left
      refine ⟨Or.inr fun j item hj => ?_, ?_⟩
      · have hjl : j < g.items.length := by
          by_contra hcon
          rw [List.getElem?_eq_none (not_lt.mp hcon)] at hj
          cases hj
        exact hall j item hjl hj
      · rw [Game.checkCollisions_active T g h hh hact, heq]
        simp only [← hh]
    · right
      refine ⟨Or.inl rfl, i, item, hi, hgi, hhit, ?_, ?_⟩
      · intro j item2 hij hj
        have hjl : j < g.items.length := by
          by_contra hcon
          rw [List.getElem?_eq_none (not_lt.mp hcon)] at hj
          cases hj
        exact hafter j item2 hij hjl hj
      · rw [Game.checkCollisions_active T g h hh hact, heq]
  | pulling =>
    have hact : h.state = HookState.shooting ∨ h.state = HookState.pulling := Or.inr hst
    rcases Game.checkCollisionsLoop_spec (h.getTipPosition T) h g.items.length g (le_refl _)
      with ⟨hall, heq⟩ | ⟨i, item, hi, hgi, hhit, hafter, heq⟩
    · left
      refine ⟨Or.inr fun j item hj => ?_, ?_⟩
      · have hjl : j < g.items.length := by
          by_contra hcon
          rw [List.getElem?_eq_none (not_lt.mp hcon)] at hj
          cases hj
        exact hall j item hjl hj
      · rw [Game.checkCollisions_active T g h hh hact, heq]
        simp only [← hh]
    · right
      refine ⟨Or.inr rfl, i, item, hi, hgi, hhit, ?_, ?_⟩
      · intro j item2 hij hj
        have hjl : j < g.items.length := by
          by_contra hcon
          rw [List.getElem?_eq_none (not_lt.mp hcon)] at hj
          cases hj
        exact hafter j item2 hij hjl hj
      · rw [Game.checkCollisions_active T g h hh hact, heq]

/-- C3: one call of `checkCollisions` either leaves the game unchanged (nothing is attached
and the field is the same) or attaches exactly one item: the item at some index `i` of the
field becomes the grabbed item, the new field is the old one with index `i` erased, so its
length is smaller by exactly 1 and the remaining items keep their relative order; when the
field has no duplicates the attached item is no longer in it. -/
theorem checkCollisions_frame (T : Trig) (g : Game) (h : Hook) (hh : g.hook = some h) :
    ∃ g2, g.checkCollisions T = some g2 ∧
      (g2 = g ∨
        ∃ (i : ℕ) (item : Item), g.items[i]? = some item ∧
          g2.hook = some { h with grabbedItem := some item, state := HookState.pulling } ∧
          g2.items = g.items.eraseIdx i ∧
          g2.items.length + 1 = g.items.length ∧
          g2.items.Sublist g.items ∧
          (g.items.Nodup → item ∉ g2.items)) := by
  rcases Game.checkCollisions_cases T g h hh with ⟨_, heq⟩ | ⟨_, i, item, hi, hgi, _, _, heq⟩
  · exact ⟨g, heq, Or.inl rfl⟩
  · refine ⟨_, heq, Or.inr ⟨i, item, hgi, rfl, rfl, ?_, ?_, ?_⟩⟩
    · exact List.length_eraseIdx_add_one hi
    · exact List.eraseIdx_sublist _ _
    · intro hnd
      show item ∉ g.items.eraseIdx i
      have hitem : item = g.items[i] := by
        rw [List.getElem?_eq_getElem hi] at hgi
        exact (Option.some.inj hgi).symm
      rw [hitem, ← List.Nodup.erase_getElem hnd i hi]
      exact List.Nodup.not_mem_erase hnd

/-- Witness for C3: a shooting hook whose tip lies on the last item of a two-item field. -/
theorem checkCollisions_frame_witness :
    ∃ g2, sampleGame.checkCollisions trigZero = some g2 ∧
      (g2 = sampleGame ∨
        ∃ (i : ℕ) (item : Item), sampleGame.items[i]? = some item ∧
          g2.hook = some { sampleHook with grabbedItem := some item, state := HookState.pulling } ∧
          g2.items = sampleGame.items.eraseIdx i ∧
          g2.items.length + 1 = sampleGame.items.length ∧
          g2.items.Sublist sampleGame.items ∧
          (sampleGame.items.Nodup → item ∉ g2.items)) :=
  checkCollisions_frame trigZero sampleGame sampleHook rfl

/-- C4: `checkCollisions` changes nothing while the hook is idle, and nothing while it is
shooting or pulling and no field item passes the hit test; while the hook is shooting or
pulling and some field item passes the hit test, it attaches the item of highest index among
those passing the test, removes it from the field and leaves the hook pulling, whatever its
length. -/
theorem checkCollisions_attaches_highest_hit (T : Trig) (g : Game) (h : Hook)
    (hh : g.hook = some h) :
    (h.state = HookState.idle → g.checkCollisions T = some g) ∧
      ((h.state = HookState.shooting ∨ h.state = HookState.pulling) →
        (¬ ∃ (j : ℕ) (item : Item), g.items[j]? = some item ∧
          hitSpec (h.getTipPosition T) item) →
        g.checkCollisions T = some g) ∧
      ((h.state = HookState.shooting ∨ h.state = HookState.pulling) →
        (∃ (j : ℕ) (item : Item), g.items[j]? = some item ∧
          hitSpec (h.getTipPosition T) item) →
        ∃ (i : ℕ) (item : Item), g.items[i]? = some item ∧
          hitSpec (h.getTipPosition T) item ∧
          (∀ (j : ℕ) (item2 : Item), i < j → g.items[j]? = some item2 →
            ¬ hitSpec (h.getTipPosition T) item2) ∧
          g.checkCollisions T = some { g.playSound "grab" with
            hook := some { h with grabbedItem := some item, state := HookState.pulling },
            items := g.items.eraseIdx i }) := by
  refine ⟨fun hst => Game.checkCollisions_idle T g h hh hst, fun hact hno => ?_,
    fun hact hex => ?_⟩
  · rcases Game.checkCollisions_cases T g h hh with ⟨_, heq⟩ | ⟨_, i, item, _, hgi, hhit, _, _⟩
    · exact heq
    · exact absurd ⟨i, item, hgi, (Game.hitTest_iff_hitSpec _ _).mp hhit⟩ hno
  · rcases Game.checkCollisions_cases T g h hh with
      ⟨hnone, _⟩ | ⟨_, i, item, _, hgi, hhit, hafter, heq⟩
    · obtain ⟨j, item, hj, hs⟩ := hex
      rcases hnone with hidle | hall
      · rcases hact with hact | hact <;> rw [hidle] at hact <;> cases hact
      · have := hall j item hj
        rw [(Game.hitTest_iff_hitSpec _ _).mpr hs] at this
        cases this
    · refine ⟨i, item, hgi, (Game.hitTest_iff_hitSpec _ _).mp hhit, ?_, heq⟩
      intro j item2 hij hj hs
      have := hafter j item2 hij hj
      rw [(Game.hitTest_iff_hitSpec _ _).mpr hs] at this
      cases this

/-- Witness for C4: a shooting hook whose tip lies on the last item of a two-item field. -/
theorem checkCollisions_attaches_highest_hit_witness :
    (sampleHook.state = HookState.idle → sampleGame.checkCollisions trigZero = some sampleGame) ∧
      ((sampleHook.state = HookState.shooting ∨ sampleHook.state = HookState.pulling) →
        (¬ ∃ (j : ℕ) (item : Item), sampleGame.items[j]? = some item ∧
          hitSpec (sampleHook.getTipPosition trigZero) item) →
        sampleGame.checkCollisions trigZero = some sampleGame) ∧
      ((sampleHook.state = HookState.shooting ∨ sampleHook.state = HookState.pulling) →
        (∃ (j : ℕ) (item : Item), sampleGame.items[j]? = some item ∧
          hitSpec (sampleHook.getTipPosition trigZero) item) →
        ∃ (i : ℕ) (item : Item), sampleGame.items[i]? = some item ∧
          hitSpec (sampleHook.getTipPosition trigZero) item ∧
          (∀ (j : ℕ) (item2 : Item), i < j → sampleGame.items[j]? = some item2 →
            ¬ hitSpec (sampleHook.getTipPosition trigZero) item2) ∧
          sampleGame.checkCollisions trigZero = some { sampleGame.playSound "grab" with
            hook := some { sampleHook with grabbedItem := some item, state := HookState.pulling },
            items := sampleGame.items.eraseIdx i }) :=
  checkCollisions_attaches_highest_hit trigZero sampleGame sampleHook rfl

/-! ## C5: scoring at the end of a retraction -/

theorem Hook.update_idle_game (T : Trig) (h : Hook) (g : Game)
    (hs : h.state = HookState.idle) : (h.update T g).2 = g := by
  rw [Hook.update_idle T h g hs]

/-- C5: when a pulling tick brings the length to a value `≤ 0`, the length becomes exactly `0`,
the state idle and the attachment is cleared; the score grows by exactly `⌊item.value⌋` when an
item was attached and is unchanged when none was, and the next tick adds nothing more.  A
pulling tick that does not reach `0` leaves the score unchanged. -/
theorem pulling_tick_score (T : Trig) (h : Hook) (g : Game)
    (hs : h.state = HookState.pulling) :
    (h.length - h.pullSpeed g ≤ 0 →
        (h.update T g).1.length = 0 ∧
        (h.update T g).1.state = HookState.idle ∧
        (h.update T g).1.grabbedItem = none ∧
        (∀ it, h.grabbedItem = some it →
          (h.update T g).2.score = g.score + ⌊it.value⌋) ∧
        (h.grabbedItem = none → (h.update T g).2.score = g.score) ∧
        (((h.update T g).1.update T (h.update T g).2).2.score =
          (h.update T g).2.score)) ∧
      (0 < h.length - h.pullSpeed g → (h.update T g).2.score = g.score) := by
  constructor
  · intro hle
    have hupd := Hook.update_pulling_done T h g hs hle
    cases hg : h.grabbedItem with
    | none =>
      rw [hg] at hupd
      simp only at hupd
      rw [hupd]
      refine ⟨rfl, rfl, rfl, ?_, fun _ => rfl, ?_⟩
      · intro it hit
        cases hit
      · rw [Hook.update_idle_game T _ g rfl]
    | some it0 =>
      rw [hg] at hupd
      simp only at hupd
      rw [hupd]
      refine ⟨rfl, rfl, rfl, ?_, ?_, ?_⟩
      · intro it hit
        cases hit
        show (Hook.createGrabEffect T _ _).score = _
        rw [Hook.createGrabEffect_score]
        cases it0.type <;>
          simp only [Game.playSound_score, Game.addScore_score] <;> rfl
      · intro hn
        cases hn
      · rw [Hook.update_idle_game T _ _ rfl]
  · intro hpos
    rw [Hook.update_pulling_pos T h g hs hpos]

/-- Witness for C5: a hook of length `0.4` pulling a big stone at `0.4` per tick. -/
theorem pulling_tick_score_witness :
    (sampleResolving.length - sampleResolving.pullSpeed sampleGame ≤ 0 →
        (sampleResolving.update trigZero sampleGame).1.length = 0 ∧
        (sampleResolving.update trigZero sampleGame).1.state = HookState.idle ∧
        (sampleResolving.update trigZero sampleGame).1.grabbedItem = none ∧
        (∀ it, sampleResolving.grabbedItem = some it →
          (sampleResolving.update trigZero sampleGame).2.score = sampleGame.score + ⌊it.value⌋) ∧
        (sampleResolving.grabbedItem = none → (sampleResolving.update trigZero sampleGame).2.score = sampleGame.score) ∧
        (((sampleResolving.update trigZero sampleGame).1.update trigZero (sampleResolving.update trigZero sampleGame).2).2.score =
          (sampleResolving.update trigZero sampleGame).2.score)) ∧
      (0 < sampleResolving.length - sampleResolving.pullSpeed sampleGame → (sampleResolving.update trigZero sampleGame).2.score = sampleGame.score) :=
  pulling_tick_score trigZero sampleResolving sampleGame rfl

/-! ## C6, C7: retraction speed -/

theorem Hook.pullSpeed_none (h : Hook) (g : Game) (hg : h.grabbedItem = none) :
    h.pullSpeed g = g.config.hookPullSpeed * 2 := by
  unfold Hook.pullSpeed
  rw [hg]

theorem Hook.pullSpeed_some (h : Hook) (g : Game) (it : Item) (hg : h.grabbedItem = some it) :
    h.pullSpeed g = g.config.hookPullSpeed / it.weight := by
  unfold Hook.pullSpeed
  rw [hg]
  simp only
  rw [mul_one_div]

/-- With the constructor's config a pulling hook of length `402` that holds nothing is still
pulling, with length `2`, after 100 ticks. -/
theorem ticks_default_retract_partial (a : ℚ) :
    ticks trigZero 100 ({ (Hook.new 400 150 defaultConfig).shoot a with
        length := 402, state := HookState.pulling }, Game.new (fun _ => 0) false) =
      ({ (Hook.new 400 150 defaultConfig).shoot a with
          length := 2, state := HookState.pulling }, Game.new (fun _ => 0) false) := by
  have hv : ∀ l : ℚ, ({ (Hook.new 400 150 defaultConfig).shoot a with
      length := l, state := HookState.pulling } : Hook).pullSpeed
        (Game.new (fun _ => 0) false) = 4 := by
    intro l
    norm_num [Hook.pullSpeed, Hook.shoot, Hook.new, Game.new, defaultConfig]
  rw [ticks_pulling trigZero 100 _ _ rfl (by rw [hv]; norm_num) (by rw [hv]; norm_num), hv]
  norm_num

/-- C6, as stated, fails on the tick that completes a retraction: with the constructor's
config (`hookPullSpeed = 2`) a missed shot is pulling with nothing attached and length `2`
after 234 ticks, and the next tick takes the length to `0`, a decrease of `2`, not of
`hookPullSpeed * 2 = 4`. -/
theorem final_pulling_tick_decrease_differs :
    (ticks trigZero 234 ((Hook.new 400 150 defaultConfig).shoot 0,
        Game.new (fun _ => 0) false)).1.state = HookState.pulling ∧
      (ticks trigZero 234 ((Hook.new 400 150 defaultConfig).shoot 0,
        Game.new (fun _ => 0) false)).1.grabbedItem = none ∧
      (ticks trigZero 234 ((Hook.new 400 150 defaultConfig).shoot 0,
        Game.new (fun _ => 0) false)).1.length = 2 ∧
      (ticks trigZero 235 ((Hook.new 400 150 defaultConfig).shoot 0,
        Game.new (fun _ => 0) false)).1.length = 0 ∧
      (ticks trigZero 234 ((Hook.new 400 150 defaultConfig).shoot 0,
        Game.new (fun _ => 0) false)).1.length -
        (ticks trigZero 235 ((Hook.new 400 150 defaultConfig).shoot 0,
          Game.new (fun _ => 0) false)).1.length ≠
        (ticks trigZero 234 ((Hook.new 400 150 defaultConfig).shoot 0,
          Game.new (fun _ => 0) false)).2.config.hookPullSpeed * 2 := by
  have h234 : ticks trigZero 234 ((Hook.new 400 150 defaultConfig).shoot 0,
      Game.new (fun _ => 0) false) =
      ({ (Hook.new 400 150 defaultConfig).shoot 0 with
          length := 2, state := HookState.pulling }, Game.new (fun _ => 0) false) := by
    rw [show (234 : ℕ) = 134 + 100 from rfl, ticks_add, ticks_default_miss,
      ticks_default_retract_partial]
  have h235 : ticks trigZero 235 ((Hook.new 400 150 defaultConfig).shoot 0,
      Game.new (fun _ => 0) false) =
      ({ (Hook.new 400 150 defaultConfig).shoot 0 with
          length := 0, state := HookState.idle }, Game.new (fun _ => 0) false) := by
    rw [show (235 : ℕ) = 134 + 101 from rfl, ticks_add, ticks_default_miss,
      ticks_default_retract]
  rw [h234, h235]
  refine ⟨rfl, rfl, rfl, rfl, ?_⟩
  norm_num [Game.new, defaultConfig]

/-- C6 (amended): a pulling tick subtracts `pullSpeed` from the length and clamps the result
at `0`, where `pullSpeed` is `hookPullSpeed / grabbedItem.weight` when an item is attached and
`hookPullSpeed * 2` when none is; so the length decreases by exactly `pullSpeed` on every
pulling tick that starts with `length ≥ pullSpeed`.  Empty retraction is exactly twice as fast
as retraction with an item of weight 1, and an item of weight 5 with `hookPullSpeed = 2`
retracts at exactly `0.4` per tick. -/
theorem pulling_tick_length (T : Trig) (h : Hook) (g : Game)
    (hs : h.state = HookState.pulling) :
    (h.update T g).1.length = max 0 (h.length - h.pullSpeed g) ∧
      (h.pullSpeed g ≤ h.length →
        h.length - (h.update T g).1.length = h.pullSpeed g) ∧
      (∀ it, h.grabbedItem = some it →
        h.pullSpeed g = g.config.hookPullSpeed / it.weight) ∧
      (h.grabbedItem = none → h.pullSpeed g = g.config.hookPullSpeed * 2) ∧
      (∀ it : Item, it.weight = 1 →
        ({ h with grabbedItem := none } : Hook).pullSpeed g =
          2 * ({ h with grabbedItem := some it } : Hook).pullSpeed g) ∧
      (∀ it : Item, it.weight = 5 → g.config.hookPullSpeed = 2 →
        ({ h with grabbedItem := some it } : Hook).pullSpeed g = 2 / 5) := by
  have hnew : (h.update T g).1.length = max 0 (h.length - h.pullSpeed g) := by
    by_cases hpos : 0 < h.length - h.pullSpeed g
    · rw [Hook.update_pulling_pos T h g hs hpos, max_eq_right (le_of_lt hpos)]
    · rw [Hook.update_pulling_done T h g hs (not_lt.mp hpos), max_eq_left (not_lt.mp hpos)]
      cases h.grabbedItem <;> rfl
  refine ⟨hnew, ?_, fun it hit => Hook.pullSpeed_some h g it hit,
    fun hn => Hook.pullSpeed_none h g hn, ?_, ?_⟩
  · intro hle
    rw [hnew, max_eq_right (by linarith)]
    ring
  · intro it hw
    rw [Hook.pullSpeed_none _ g rfl, Hook.pullSpeed_some _ g it rfl, hw]
    ring
  · intro it hw hp
    rw [Hook.pullSpeed_some _ g it rfl, hw, hp]

/-- Witness for C6 (amended): a hook of length `1` pulling a big stone. -/
theorem pulling_tick_length_witness :
    (samplePulling.update trigZero sampleGame).1.length = max 0 (samplePulling.length - samplePulling.pullSpeed sampleGame) ∧
      (samplePulling.pullSpeed sampleGame ≤ samplePulling.length →
        samplePulling.length - (samplePulling.update trigZero sampleGame).1.length = samplePulling.pullSpeed sampleGame) ∧
      (∀ it, samplePulling.grabbedItem = some it →
        samplePulling.pullSpeed sampleGame = sampleGame.config.hookPullSpeed / it.weight) ∧
      (samplePulling.grabbedItem = none → samplePulling.pullSpeed sampleGame = sampleGame.config.hookPullSpeed * 2) ∧
      (∀ it : Item, it.weight = 1 →
        ({ samplePulling with grabbedItem := none } : Hook).pullSpeed sampleGame =
          2 * ({ samplePulling with grabbedItem := some it } : Hook).pullSpeed sampleGame) ∧
      (∀ it : Item, it.weight = 5 → sampleGame.config.hookPullSpeed = 2 →
        ({ samplePulling with grabbedItem := some it } : Hook).pullSpeed sampleGame = 2 / 5) :=
  pulling_tick_length trigZero samplePulling sampleGame rfl

/-- C7, as stated, fails: the diamond has the least weight of the five item types, and with the
constructor's config the pull speed with nothing attached (`4`) is not twice the pull speed with
a diamond attached (`4`). -/
theorem empty_pull_not_twice_lightest :
    (∀ it : Item, it.type ≠ ItemType.other → sampleDiamond.weight ≤ it.weight) ∧
      ({ samplePulling with grabbedItem := none } : Hook).pullSpeed sampleGame = 4 ∧
      ({ samplePulling with grabbedItem := some sampleDiamond } : Hook).pullSpeed sampleGame
        = 4 ∧
      ({ samplePulling with grabbedItem := none } : Hook).pullSpeed sampleGame ≠
        2 * ({ samplePulling with grabbedItem := some sampleDiamond } : Hook).pullSpeed
          sampleGame := by
  have h1 : ({ samplePulling with grabbedItem := none } : Hook).pullSpeed sampleGame = 4 := by
    rw [Hook.pullSpeed_none _ _ rfl]
    norm_num [sampleGame, Game.new, defaultConfig]
  have h2 : ({ samplePulling with grabbedItem := some sampleDiamond } : Hook).pullSpeed
      sampleGame = 4 := by
    rw [Hook.pullSpeed_some _ _ sampleDiamond rfl]
    norm_num [sampleGame, Game.new, defaultConfig, Item.weight, Item.calculateWeight,
      sampleDiamond]
  refine ⟨?_, h1, h2, ?_⟩
  · intro it hne
    have hd : sampleDiamond.weight = 1 / 2 := rfl
    rw [hd]
    unfold Item.weight Item.calculateWeight
    cases hit : it.type <;> first | exact absurd hit hne | norm_num
  · rw [h1, h2]
    norm_num

/-- C7 (amended): for an item of minimum weight among gold, diamond, goldBlock, smallStone and
bigStone (a diamond, weight `0.5`), the per-tick pull speed with no item attached equals the
pull speed with that item attached; it is 2 times the pull speed with an item of weight 1
(gold) attached. -/
theorem empty_pull_equals_lightest (h : Hook) (g : Game) (it : Item)
    (hty : it.type ≠ ItemType.other)
    (hmin : ∀ it2 : Item, it2.type ≠ ItemType.other → it.weight ≤ it2.weight) :
    ({ h with grabbedItem := none } : Hook).pullSpeed g =
        ({ h with grabbedItem := some it } : Hook).pullSpeed g ∧
      ∀ gold : Item, gold.weight = 1 →
        ({ h with grabbedItem := none } : Hook).pullSpeed g =
          2 * ({ h with grabbedItem := some gold } : Hook).pullSpeed g := by
  have hw : it.weight = 1 / 2 := by
    have hd := hmin sampleDiamond (by decide)
    have hdw : sampleDiamond.weight = 1 / 2 := rfl
    rw [hdw] at hd
    revert hd
    unfold Item.weight Item.calculateWeight
    cases hit : it.type <;> first | exact absurd hit hty | norm_num
  constructor
  · rw [Hook.pullSpeed_none _ g rfl, Hook.pullSpeed_some _ g it rfl, hw]
    ring
  · intro gold hg
    rw [Hook.pullSpeed_none _ g rfl, Hook.pullSpeed_some _ g gold rfl, hg]
    ring

/-- Witness for C7 (amended): a diamond on a sample hook. -/
theorem empty_pull_equals_lightest_witness :
    ({ samplePulling with grabbedItem := none } : Hook).pullSpeed sampleGame =
        ({ samplePulling with grabbedItem := some sampleDiamond } : Hook).pullSpeed sampleGame ∧
      ∀ gold : Item, gold.weight = 1 →
        ({ samplePulling with grabbedItem := none } : Hook).pullSpeed sampleGame =
          2 * ({ samplePulling with grabbedItem := some gold } : Hook).pullSpeed sampleGame :=
  empty_pull_equals_lightest samplePulling sampleGame sampleDiamond (by decide)
    (by
      intro it2 hne
      have hd : sampleDiamond.weight = 1 / 2 := rfl
      rw [hd]
      unfold Item.weight Item.calculateWeight
      cases hit : it2.type <;> first | exact absurd hit hne | norm_num)

/-! ## Facts about the hook length in binary64 -/

theorem HookF64.ticks_f64_succ_last (s p n : ℕ) (h : HookF64) :
    HookF64.ticks s p (n + 1) h = (HookF64.ticks s p n h).update s p := by
  induction n generalizing h with
  | zero => rfl
  | succ n ih =>
    show HookF64.ticks s p (n + 1) (h.update s p) = _
    rw [ih]
    rfl


theorem f64Scale_pos : 0 < f64Scale := by
  unfold f64Scale
  positivity

theorem f64Val_div (a b : ℕ) : f64Val a / f64Val b = (a : ℚ) / b := by
  unfold f64Val
  have hS : ((f64Scale : ℕ) : ℚ) ≠ 0 := by exact_mod_cast f64Scale_pos.ne.symm
  by_cases hb : (b : ℚ) = 0
  · rw [hb]
    simp
  · field_simp

theorem f64_lt_ceil (k a b : ℕ) (hb : 0 < b) :
    k < ⌈f64Val a / f64Val b⌉₊ ↔ k * b < a := by
  have hb2 : (0 : ℚ) < b := by exact_mod_cast hb
  rw [f64Val_div, Nat.lt_ceil, lt_div_iff₀ hb2]
  exact_mod_cast Iff.rfl

theorem f64_ceil_pos (a b : ℕ) (ha : 0 < a) (hb : 0 < b) : 0 < ⌈f64Val a / f64Val b⌉₊ := by
  rw [f64_lt_ceil 0 a b hb]
  simpa using ha

theorem f64_le_ceil (a b : ℕ) (hb : 0 < b) : a ≤ ⌈f64Val a / f64Val b⌉₊ * b := by
  by_contra hlt
  have h1 : ⌈f64Val a / f64Val b⌉₊ < ⌈f64Val a / f64Val b⌉₊ :=
    (f64_lt_ceil _ a b hb).mpr (by omega)
  exact lt_irrefl _ h1

theorem HookF64.update_f64_shooting (s p : ℕ) (h : HookF64) (hs : h.state = HookState.shooting) :
    h.update s p =
      if f64Add h.length s ≥ h.maxLength then
        { h with
          length := f64Add h.length s
          state := HookState.pulling }
      else { h with length := f64Add h.length s } := by
  unfold HookF64.update
  simp only [hs]

theorem HookF64.update_f64_pulling (s p : ℕ) (h : HookF64) (hs : h.state = HookState.pulling) :
    h.update s p =
      if h.length ≤ h.pullSpeed p then
        { h with
          length := 0
          state := HookState.idle
          weight := none }
      else { h with length := f64Sub h.length (h.pullSpeed p) } := by
  unfold HookF64.update
  simp only [hs]

/-- While the rounded sums are exact and stay below `maxLength`, a shooting hook that starts at
length `0` has length `n * hookSpeed` after `n` ticks. -/
theorem HookF64.ticks_f64_shooting (s p : ℕ) (h : HookF64) (hs : h.state = HookState.shooting)
    (hl : h.length = 0) (n : ℕ)
    (hexact : ∀ k : ℕ, k < n → f64Add (k * s) s = (k + 1) * s)
    (hlt : ∀ k : ℕ, k < n → (k + 1) * s < h.maxLength) :
    HookF64.ticks s p n h = { h with length := n * s } := by
  induction n with
  | zero =>
    show h = _
    cases h
    simp at hl ⊢
    exact hl
  | succ n ih =>
    rw [HookF64.ticks_f64_succ_last,
      ih (fun k hk => hexact k (by omega)) (fun k hk => hlt k (by omega))]
    rw [HookF64.update_f64_shooting s p { h with length := n * s } hs]
    show (if f64Add (n * s) s ≥ h.maxLength then _ else _) = _
    rw [hexact n (by omega)]
    have h1 := hlt n (by omega)
    rw [if_neg (by simpa using h1)]

/-- While the rounded differences are exact and stay positive, a pulling hook of length `L` and
pull speed `v` has length `L - n * v` after `n` ticks. -/
theorem HookF64.ticks_f64_pulling (s p : ℕ) (h : HookF64) (hs : h.state = HookState.pulling)
    (n : ℕ)
    (hexact : ∀ k : ℕ, k < n →
      f64Sub (h.length - k * h.pullSpeed p) (h.pullSpeed p) = h.length - (k + 1) * h.pullSpeed p)
    (hlt : ∀ k : ℕ, k < n → (k + 1) * h.pullSpeed p < h.length) :
    HookF64.ticks s p n h = { h with length := h.length - n * h.pullSpeed p } := by
  induction n with
  | zero =>
    show h = _
    cases h
    simp
  | succ n ih =>
    rw [HookF64.ticks_f64_succ_last,
      ih (fun k hk => hexact k (by omega)) (fun k hk => hlt k (by omega))]
    rw [HookF64.update_f64_pulling s p { h with length := h.length - n * h.pullSpeed p } hs]
    show (if h.length - n * h.pullSpeed p ≤ h.pullSpeed p then _ else _) = _
    have h1 := hlt n (by omega)
    have h2 : ¬ (h.length - n * h.pullSpeed p ≤ h.pullSpeed p) := by
      have : (n + 1) * h.pullSpeed p = n * h.pullSpeed p + h.pullSpeed p := by ring
      omega
    rw [if_neg h2]
    show ({ h with length := f64Sub (h.length - n * h.pullSpeed p) (h.pullSpeed p) } : HookF64)
      = _
    rw [hexact n (by omega)]

/-- A pulling hook of length `L > 0` and pull speed `v > 0` whose rounded differences are exact
is pulling after each of its first `⌈L / v⌉ - 1` ticks and idle after tick `⌈L / v⌉`. -/
theorem HookF64.ticks_f64_retract (s p : ℕ) (h : HookF64) (hs : h.state = HookState.pulling)
    (hL : 0 < h.length) (hv : 0 < h.pullSpeed p)
    (hexact : ∀ k : ℕ, (k + 1) * h.pullSpeed p < h.length →
      f64Sub (h.length - k * h.pullSpeed p) (h.pullSpeed p) = h.length - (k + 1) * h.pullSpeed p) :
    (∀ k : ℕ, k < ⌈f64Val h.length / f64Val (h.pullSpeed p)⌉₊ →
        (HookF64.ticks s p k h).state = HookState.pulling) ∧
      (HookF64.ticks s p ⌈f64Val h.length / f64Val (h.pullSpeed p)⌉₊ h).state
        = HookState.idle := by
  have hmono : ∀ n k : ℕ, k < n → n * h.pullSpeed p < h.length →
      (k + 1) * h.pullSpeed p < h.length := by
    intro n k hk hn
    have : (k + 1) * h.pullSpeed p ≤ n * h.pullSpeed p := Nat.mul_le_mul_right _ (by omega)
    omega
  have hrun : ∀ n : ℕ, n * h.pullSpeed p < h.length →
      HookF64.ticks s p n h = { h with length := h.length - n * h.pullSpeed p } := by
    intro n hn
    exact HookF64.ticks_f64_pulling s p h hs n
      (fun k hk => hexact k (hmono n k hk hn)) (fun k hk => hmono n k hk hn)
  constructor
  · intro k hk
    rw [f64_lt_ceil k _ _ hv] at hk
    rw [hrun k hk]
    exact hs
  · have hnpos := f64_ceil_pos h.length (h.pullSpeed p) hL hv
    have hge := f64_le_ceil h.length (h.pullSpeed p) hv
    obtain ⟨m, hm⟩ : ∃ m : ℕ, ⌈f64Val h.length / f64Val (h.pullSpeed p)⌉₊ = m + 1 :=
      ⟨_, (Nat.succ_pred_eq_of_pos hnpos).symm⟩
    have hmlt : m * h.pullSpeed p < h.length :=
      (f64_lt_ceil m _ _ hv).mp (by omega)
    rw [hm] at hge
    rw [hm, HookF64.ticks_f64_succ_last, hrun m hmlt,
      HookF64.update_f64_pulling s p { h with length := h.length - m * h.pullSpeed p } hs]
    show (if h.length - m * h.pullSpeed p ≤ h.pullSpeed p then _ else _ : HookF64).state = _
    have h2 : h.length - m * h.pullSpeed p ≤ h.pullSpeed p := by
      have : (m + 1) * h.pullSpeed p = m * h.pullSpeed p + h.pullSpeed p := by ring
      omega
    rw [if_pos h2]


theorem f64Val_le (a b : ℕ) : f64Val a ≤ f64Val b ↔ a ≤ b := by
  have hS : (0 : ℚ) < (f64Scale : ℕ) := by exact_mod_cast f64Scale_pos
  unfold f64Val
  rw [div_le_div_iff_of_pos_right hS]
  exact Nat.cast_le

theorem f64Val_add (a b : ℕ) : f64Val (a + b) = f64Val a + f64Val b := by
  unfold f64Val
  push_cast
  ring

theorem f64Val_sub (a b : ℕ) (h : b ≤ a) : f64Val (a - b) = f64Val a - f64Val b := by
  unfold f64Val
  rw [Nat.cast_sub h]
  ring

/-- Where nothing is rounded the binary64 step is the step of `Hook.update`: when a hook and a
binary64 hook agree in state, length, `maxLength` and pull speed, and the sum or difference of
this tick is exact, they agree in state and length after the tick. -/
theorem HookF64.update_agrees (T : Trig) (h : Hook) (g : Game) (hf : HookF64) (s p : ℕ)
    (hst : h.state = hf.state) (hlen : h.length = f64Val hf.length)
    (hmax : h.maxLength = f64Val hf.maxLength) (hspd : g.config.hookSpeed = f64Val s)
    (hpull : h.pullSpeed g = f64Val (hf.pullSpeed p))
    (hadd : hf.state = HookState.shooting → f64Add hf.length s = hf.length + s)
    (hsub : hf.state = HookState.pulling → hf.pullSpeed p < hf.length →
      f64Sub hf.length (hf.pullSpeed p) = hf.length - hf.pullSpeed p) :
    (h.update T g).1.state = (hf.update s p).state ∧
      (h.update T g).1.length = f64Val (hf.update s p).length := by
  cases hfs : hf.state with
  | idle =>
    rw [hfs] at hst
    have hfu : hf.update s p = hf := by
      unfold HookF64.update
      simp only [hfs]
    rw [hfu, Hook.update_idle T h g hst, hfs, ← hlen]
    split <;> exact ⟨hst, rfl⟩
  | shooting =>
    rw [hfs] at hst
    rw [Hook.update_shooting T h g hst, HookF64.update_f64_shooting s p hf hfs, hadd hfs,
      hlen, hmax, hspd, ← f64Val_add]
    by_cases hc : hf.length + s ≥ hf.maxLength
    · rw [if_pos hc, if_pos ((f64Val_le _ _).mpr hc)]
      exact ⟨rfl, rfl⟩
    · rw [if_neg hc, if_neg (fun hq => hc ((f64Val_le _ _).mp hq))]
      exact ⟨hst.trans hfs.symm, rfl⟩
  | pulling =>
    rw [hfs] at hst
    rw [HookF64.update_f64_pulling s p hf hfs]
    by_cases hc : hf.length ≤ hf.pullSpeed p
    · have hle : h.length - h.pullSpeed g ≤ 0 := by
        rw [hlen, hpull, sub_nonpos]
        exact (f64Val_le _ _).mpr hc
      rw [if_pos hc, Hook.update_pulling_done T h g hst hle]
      have hz : f64Val 0 = 0 := by simp [f64Val]
      cases h.grabbedItem <;> exact ⟨rfl, hz.symm⟩
    · have hpos : 0 < h.length - h.pullSpeed g := by
        rw [hlen, hpull, sub_pos]
        exact lt_of_not_le (fun hq => hc ((f64Val_le _ _).mp hq))
      rw [if_neg hc, Hook.update_pulling_pos T h g hst hpos, hsub hfs (by omega),
        f64Val_sub _ _ (by omega), ← hlen, ← hpull]
      exact ⟨hst.trans hfs.symm, rfl⟩

/-! ## C8: the tick on which a missed shot turns round -/

set_option maxRecDepth 100000 in
/-- C8 fails with rounding: at the preset `normal` (`hookSpeed = 3.2`, `maxLength = 400`)
`⌈M / s⌉ = 125`, but the binary64 sum of 125 steps is `399.9999999999991`, so the hook is still
shooting after tick 125 and turns round on tick 126. -/
theorem miss_transition_tick_rounded_late :
    ⌈f64Val sampleHookF64.maxLength / f64Val (f64Lit 32 10)⌉₊ = 125 ∧
      (HookF64.ticks (f64Lit 32 10) 0 125 sampleHookF64.shoot).state = HookState.shooting ∧
      (HookF64.ticks (f64Lit 32 10) 0 125 sampleHookF64.shoot).length
        < sampleHookF64.maxLength ∧
      (HookF64.ticks (f64Lit 32 10) 0 126 sampleHookF64.shoot).state = HookState.pulling := by
  refine ⟨?_, by decide, by decide, by decide⟩
  have hs : f64Lit 32 10 = 3689348814741910528 := by decide
  rw [hs, Nat.ceil_eq_iff (by decide)]
  norm_num [f64Val, sampleHookF64, f64Scale]

/-- C8 (amended): for `hookSpeed = s > 0` and `maxLength = M > 0` such that the sums
`s, 2 s, …, ⌈M / s⌉ s` are computed without rounding, a hook fired that meets no item is
shooting, with length `k * s < M`, after each of its first `⌈M / s⌉ - 1` ticks, and is pulling,
with length `≥ M`, after tick number `⌈M / s⌉`. -/
theorem miss_transition_tick_unrounded (s p : ℕ) (h : HookF64) (hs : 0 < s)
    (hM : 0 < h.maxLength)
    (hexact : ∀ k : ℕ, k < ⌈f64Val h.maxLength / f64Val s⌉₊ →
      f64Add (k * s) s = (k + 1) * s) :
    (∀ k : ℕ, k < ⌈f64Val h.maxLength / f64Val s⌉₊ →
        (HookF64.ticks s p k h.shoot).state = HookState.shooting ∧
        (HookF64.ticks s p k h.shoot).length = k * s ∧
        (HookF64.ticks s p k h.shoot).length < h.maxLength) ∧
      0 < ⌈f64Val h.maxLength / f64Val s⌉₊ ∧
      (HookF64.ticks s p ⌈f64Val h.maxLength / f64Val s⌉₊ h.shoot).state
        = HookState.pulling ∧
      h.maxLength ≤ (HookF64.ticks s p ⌈f64Val h.maxLength / f64Val s⌉₊ h.shoot).length := by
  have hmono : ∀ n k : ℕ, k < n → n * s < h.maxLength → (k + 1) * s < h.maxLength := by
    intro n k hk hn
    have : (k + 1) * s ≤ n * s := Nat.mul_le_mul_right _ (by omega)
    omega
  have hrun : ∀ n : ℕ, n < ⌈f64Val h.maxLength / f64Val s⌉₊ →
      HookF64.ticks s p n h.shoot = { h.shoot with length := n * s } := by
    intro n hn
    have hn2 := (f64_lt_ceil n _ _ hs).mp hn
    exact HookF64.ticks_f64_shooting s p h.shoot rfl rfl n
      (fun k hk => hexact k (by omega)) (fun k hk => hmono n k hk hn2)
  have hnpos := f64_ceil_pos h.maxLength s hM hs
  refine ⟨?_, hnpos, ?_⟩
  · intro k hk
    rw [hrun k hk]
    exact ⟨rfl, rfl, (f64_lt_ceil k _ _ hs).mp hk⟩
  · have hge := f64_le_ceil h.maxLength s hs
    obtain ⟨m, hm⟩ : ∃ m : ℕ, ⌈f64Val h.maxLength / f64Val s⌉₊ = m + 1 :=
      ⟨_, (Nat.succ_pred_eq_of_pos hnpos).symm⟩
    have hmlt : m < ⌈f64Val h.maxLength / f64Val s⌉₊ := by omega
    have hex := hexact m hmlt
    rw [hm] at hge
    rw [hm, HookF64.ticks_f64_succ_last, hrun m hmlt,
      HookF64.update_f64_shooting s p { h.shoot with length := m * s } rfl]
    show (if f64Add (m * s) s ≥ h.maxLength then _ else _ : HookF64).state = _ ∧
      h.maxLength ≤ (if f64Add (m * s) s ≥ h.maxLength then _ else _ : HookF64).length
    rw [hex]
    have hge2 : (m + 1) * s ≥ h.maxLength := hge
    rw [if_pos hge2]
    exact ⟨rfl, hge2⟩

set_option maxRecDepth 100000 in
/-- Witness for C8 (amended): with `hookSpeed = 3` and `maxLength = 400` no sum is rounded; the
hook is shooting after each of the first 133 ticks and pulling after tick 134. -/
theorem miss_transition_tick_unrounded_witness :
    (∀ k : ℕ, k < 134 →
        (HookF64.ticks (3 * f64Scale) (2 * f64Scale) k sampleHookF64.shoot).state
          = HookState.shooting) ∧
      (HookF64.ticks (3 * f64Scale) (2 * f64Scale) 134 sampleHookF64.shoot).state
        = HookState.pulling := by
  have hceil : ⌈f64Val sampleHookF64.maxLength / f64Val (3 * f64Scale)⌉₊ = 134 := by
    rw [Nat.ceil_eq_iff (by decide)]
    norm_num [f64Val, sampleHookF64, f64Scale]
  have hex : ∀ k : ℕ, k < 134 →
      f64Add (k * (3 * f64Scale)) (3 * f64Scale) = (k + 1) * (3 * f64Scale) := by decide
  have key := miss_transition_tick_unrounded (3 * f64Scale) (2 * f64Scale) sampleHookF64
    (by decide) (by decide) (by rw [hceil]; exact hex)
  rw [hceil] at key
  exact ⟨fun k hk => (key.1 k hk).1, key.2.2.1⟩

/-! ## C9: the duration of a retraction -/

set_option maxRecDepth 100000 in
/-- C9 fails with rounding: at the preset `easy` (`hookPullSpeed = 3`) a big stone (weight 5) is
pulled at `3 * (1 / 5) = 0.6000000000000001`; from length 108 the count `⌈L * w / p⌉` is 180,
but the hook is still pulling after tick 180 and comes home on tick 181. -/
theorem retraction_duration_rounded_late :
    sampleBigStoneF64.weight = some (5 * f64Scale) ∧
      ⌈f64Val sampleBigStoneF64.length * f64Val (5 * f64Scale) / f64Val (3 * f64Scale)⌉₊
        = 180 ∧
      (HookF64.ticks 0 (3 * f64Scale) 180 sampleBigStoneF64).state = HookState.pulling ∧
      0 < (HookF64.ticks 0 (3 * f64Scale) 180 sampleBigStoneF64).length ∧
      (HookF64.ticks 0 (3 * f64Scale) 181 sampleBigStoneF64).state = HookState.idle := by
  refine ⟨rfl, ?_, by decide, by decide, by decide⟩
  rw [Nat.ceil_eq_iff (by decide)]
  norm_num [f64Val, sampleBigStoneF64, f64Scale]

/-- C9 (amended): a pulling hook of length `L > 0` with base pull speed `p > 0` that meets no
further item and whose differences `L - k * pullSpeed` are computed without rounding is pulling
after each of its first `n - 1` ticks and idle after tick number `n`, where `n = ⌈L * w / p⌉`
when an item of weight `w` is attached and the pull speed `p * (1 / w)` is computed without
rounding, and `n = ⌈L / (2 p)⌉` when none is and `p * 2` is computed without rounding. -/
theorem retraction_duration_unrounded (s p : ℕ) (h : HookF64)
    (hs : h.state = HookState.pulling) (hL : 0 < h.length) (hp : 0 < p)
    (hexact : ∀ k : ℕ, (k + 1) * h.pullSpeed p < h.length →
      f64Sub (h.length - k * h.pullSpeed p) (h.pullSpeed p) = h.length - (k + 1) * h.pullSpeed p) :
    (∀ w : ℕ, h.weight = some w → 0 < w → f64Val (h.pullSpeed p) = f64Val p * (1 / f64Val w) →
        (∀ k : ℕ, k < ⌈f64Val h.length * f64Val w / f64Val p⌉₊ →
          (HookF64.ticks s p k h).state = HookState.pulling) ∧
        (HookF64.ticks s p ⌈f64Val h.length * f64Val w / f64Val p⌉₊ h).state
          = HookState.idle) ∧
      (h.weight = none → f64Val (h.pullSpeed p) = f64Val p * 2 →
        (∀ k : ℕ, k < ⌈f64Val h.length / (2 * f64Val p)⌉₊ →
          (HookF64.ticks s p k h).state = HookState.pulling) ∧
        (HookF64.ticks s p ⌈f64Val h.length / (2 * f64Val p)⌉₊ h).state
          = HookState.idle) := by
  have hS : (0 : ℚ) < (f64Scale : ℕ) := by exact_mod_cast f64Scale_pos
  have hpv : 0 < f64Val p := div_pos (by exact_mod_cast hp) hS
  have hpos : ∀ v : ℕ, 0 < f64Val v → 0 < v := by
    intro v hv
    by_contra h0
    have : v = 0 := by omega
    rw [this] at hv
    simp [f64Val] at hv
  constructor
  · intro w _ hw hv
    have hwv : 0 < f64Val w := div_pos (by exact_mod_cast hw) hS
    have hvpos : 0 < h.pullSpeed p := hpos _ (by rw [hv]; positivity)
    have key := HookF64.ticks_f64_retract s p h hs hL hvpos hexact
    have hrw : f64Val h.length / f64Val (h.pullSpeed p)
        = f64Val h.length * f64Val w / f64Val p := by
      rw [hv]
      field_simp
    rw [hrw] at key
    exact key
  · intro _ hv
    have hvpos : 0 < h.pullSpeed p := hpos _ (by rw [hv]; positivity)
    have key := HookF64.ticks_f64_retract s p h hs hL hvpos hexact
    have hrw : f64Val h.length / f64Val (h.pullSpeed p) = f64Val h.length / (2 * f64Val p) := by
      rw [hv, mul_comm]
    rw [hrw] at key
    exact key

set_option maxRecDepth 100000 in
/-- Witness for C9 (amended): a hook of length 400 pulling a gold nugget (weight 1) at base
speed 3 rounds nothing; it is pulling after each of the first 133 ticks and idle after tick
134. -/
theorem retraction_duration_unrounded_witness :
    (∀ k : ℕ, k < 134 →
        (HookF64.ticks (4 * f64Scale) (3 * f64Scale) k sampleGoldF64).state
          = HookState.pulling) ∧
      (HookF64.ticks (4 * f64Scale) (3 * f64Scale) 134 sampleGoldF64).state
        = HookState.idle := by
  have hv : sampleGoldF64.pullSpeed (3 * f64Scale) = 3 * f64Scale := by decide
  have hceil : ⌈f64Val sampleGoldF64.length * f64Val f64Scale / f64Val (3 * f64Scale)⌉₊
      = 134 := by
    rw [Nat.ceil_eq_iff (by decide)]
    norm_num [f64Val, sampleGoldF64, f64Scale]
  have hex : ∀ k : ℕ, k < 134 →
      f64Sub (400 * f64Scale - k * (3 * f64Scale)) (3 * f64Scale)
        = 400 * f64Scale - (k + 1) * (3 * f64Scale) := by decide
  have key := (retraction_duration_unrounded (4 * f64Scale) (3 * f64Scale) sampleGoldF64
    rfl (by decide) (by decide) (by
      rw [hv]
      intro k hk
      have hk2 : k < 134 := by
        have h1 : sampleGoldF64.length = 400 * f64Scale := rfl
        rw [h1] at hk
        unfold f64Scale at hk
        omega
      exact hex k hk2)).1 f64Scale rfl (by decide) (by
        rw [hv]
        have hS : ((f64Scale : ℕ) : ℚ) ≠ 0 := by exact_mod_cast f64Scale_pos.ne.symm
        unfold f64Val
        push_cast
        field_simp)
  rw [hceil] at key
  exact key

/-! ## C10: ageing and pruning of particles -/

/-- The backward loop visits the first `pre.length` particles: each is updated once and kept
exactly when its life is still positive; the particles behind them are left alone. -/
theorem updateParticlesLoop_append (pre suf : List Particle) :
    updateParticlesLoop pre.length (pre ++ suf) =
      (pre.map Particle.update).filter (fun p => decide (0 < p.life)) ++ suf := by
  induction pre using List.reverseRecOn generalizing suf with
  | nil => simp [updateParticlesLoop]
  | append_singleton pre p ih =>
    have hlen : (pre ++ [p]).length = pre.length + 1 := by simp
    have hget : (pre ++ [p] ++ suf)[pre.length]? = some p := by
      rw [List.append_assoc, List.getElem?_append_right (le_refl _)]
      simp
    rw [hlen, updateParticlesLoop]
    simp only [hget]
    have hset : (pre ++ [p] ++ suf).set pre.length p.update = pre ++ p.update :: suf := by
      simp
    rw [hset]
    have herase : (pre ++ p.update :: suf).eraseIdx pre.length = pre ++ suf := by
      rw [List.eraseIdx_append_of_length_le (le_refl _)]
      simp
    split
    · rename_i hle
      rw [herase, ih]
      simp [List.filter_cons, not_lt.mpr hle]
    · rename_i hnle
      rw [ih]
      simp [List.filter_cons, not_le.mp hnle]

theorem updateParticlesLoop_eq (ps : List Particle) :
    updateParticlesLoop ps.length ps =
      (ps.map Particle.update).filter (fun p => decide (0 < p.life)) := by
  have := updateParticlesLoop_append ps []
  simpa using this

/-- C10: after `updateParticles` the list holds at most 50 particles, none of them with
`life ≤ 0`; when more than 50 particles survive ageing it is exactly the last 50 survivors in
their original order (the oldest are dropped), and otherwise it is all the survivors. -/
theorem updateParticles_cap (g : Game) :
    g.updateParticles.particles.length ≤ 50 ∧
      (∀ p ∈ g.updateParticles.particles, ¬ p.life ≤ 0) ∧
      (50 < ((g.particles.map Particle.update).filter (fun p => decide (0 < p.life))).length →
        g.updateParticles.particles =
          ((g.particles.map Particle.update).filter (fun p => decide (0 < p.life))).drop
            (((g.particles.map Particle.update).filter (fun p => decide (0 < p.life))).length - 50) ∧
        g.updateParticles.particles.length = 50) ∧
      (((g.particles.map Particle.update).filter (fun p => decide (0 < p.life))).length ≤ 50 →
        g.updateParticles.particles =
          ((g.particles.map Particle.update).filter (fun p => decide (0 < p.life)))) := by
  have hloop := updateParticlesLoop_eq g.particles
  have hpos : ∀ p ∈ ((g.particles.map Particle.update).filter (fun p => decide (0 < p.life))), ¬ p.life ≤ 0 := by
    intro p hp
    rw [List.mem_filter, decide_eq_true_iff] at hp
    exact not_le.mpr hp.2
  by_cases hbig : 50 < ((g.particles.map Particle.update).filter (fun p => decide (0 < p.life))).length
  · have hres : g.updateParticles.particles =
        ((g.particles.map Particle.update).filter (fun p => decide (0 < p.life))).drop
          (((g.particles.map Particle.update).filter (fun p => decide (0 < p.life))).length - 50) := by
      unfold Game.updateParticles
      simp only [hloop, maxParticles]
      rw [if_pos hbig]
    have hlen : g.updateParticles.particles.length = 50 := by
      rw [hres, List.length_drop]
      omega
    refine ⟨le_of_eq hlen, ?_, fun _ => ⟨hres, hlen⟩, fun hle => absurd hbig (not_lt.mpr hle)⟩
    intro p hp
    rw [hres] at hp
    exact hpos p (List.mem_of_mem_drop hp)
  · have hres : g.updateParticles.particles =
        ((g.particles.map Particle.update).filter (fun p => decide (0 < p.life))) := by
      unfold Game.updateParticles
      simp only [hloop, maxParticles]
      rw [if_neg hbig]
    refine ⟨?_, ?_, fun hlt => absurd hlt hbig, fun _ => hres⟩
    · rw [hres]
      exact not_lt.mp hbig
    · intro p hp
      rw [hres] at hp
      exact hpos p hp

/-! ## Facts about field generation -/

/-- Creating one item only advances the random stream. -/
theorem Game.generateItem_frame (c : ItemChances) (g : Game) :
    ∃ R, (g.generateItem c).2 = { g with rngPos := R } := by
  unfold Game.generateItem
  simp only [Game.random, Item.new]
  split_ifs <;> exact ⟨_, rfl⟩

/-- The type of a created item is the type that the chain of comparisons gives to its sample,
the third random value read. -/
theorem Game.generateItem_type (c : ItemChances) (g : Game) :
    (g.generateItem c).1.type = selectType c (g.rng (g.rngPos + 1 + 1)) := by
  unfold Game.generateItem selectType
  simp only [Game.random, Item.new]
  split_ifs <;> rfl

/-- The loop appends `n` items, each typed by the chain of comparisons, and otherwise only
advances the random stream. -/
theorem Game.generateItemsLoop_spec (c : ItemChances) (n : ℕ) (g : Game) :
    ∃ R its, Game.generateItemsLoop c n g = { g with rngPos := R, items := g.items ++ its } ∧
      its.length = n ∧ ∀ it ∈ its, ∃ i, it.type = selectType c (g.rng i) := by
  induction n generalizing g with
  | zero =>
    refine ⟨g.rngPos, [], ?_, rfl, ?_⟩
    · simp [Game.generateItemsLoop]
    · intro it hit
      cases hit
  | succ n ih =>
    obtain ⟨R1, h1⟩ := Game.generateItem_frame c g
    have hty := Game.generateItem_type c g
    rw [Game.generateItemsLoop]
    simp only
    rw [h1]
    obtain ⟨R, its, h2, hlen, htypes⟩ :=
      ih { g with rngPos := R1, items := g.items ++ [(g.generateItem c).1] }
    refine ⟨R, (g.generateItem c).1 :: its, ?_, by simp [hlen], ?_⟩
    · rw [h2]
      simp
    · intro it hit
      rcases List.mem_cons.mp hit with h | h
      · exact ⟨_, by rw [h]; exact hty⟩
      · exact htypes it h

/-- The method `generateItems` replaces the field by `8 + level * 2` fresh items, each typed by
the chain of comparisons for the session's difficulty and level, and otherwise only advances
the random stream. -/
theorem Game.generateItems_spec (g : Game) :
    ∃ R its, g.generateItems = { g with rngPos := R, items := its } ∧
      its.length = 8 + g.level * 2 ∧
      ∀ it ∈ its, ∃ i, it.type = selectType (itemChances g.difficulty g.level) (g.rng i) := by
  unfold Game.generateItems
  obtain ⟨R, its, h, hlen, hty⟩ := Game.generateItemsLoop_spec
    (itemChances g.difficulty g.level) (8 + g.level * 2) { g with items := [] }
  exact ⟨R, its, by rw [h]; simp, hlen, hty⟩

theorem selectType_ne_other (c : ItemChances) (r : ℚ) : selectType c r ≠ ItemType.other := by
  unfold selectType
  split_ifs <;> decide

/-! ## C11: the presets applied by `startGame` -/

/-- What `startGame` leaves: the preset session with a fresh hook and a fresh field. -/
theorem Game.startGame_spec (g : Game) :
    ∃ R its, g.startGame =
      { ({ g with isPlaying := true, isPaused := false, score := 0, level := 1 } :
          Game).applyDifficultySettings with
        hook := some (Hook.new (canvasWidth / 2) 150
          ({ g with isPlaying := true, isPaused := false, score := 0, level := 1 } :
            Game).applyDifficultySettings.config)
        rngPos := R
        items := its } := by
  unfold Game.startGame Game.initializeGameObjects
  simp only
  obtain ⟨R, its, h, _, _⟩ := Game.generateItems_spec
    { ({ g with isPlaying := true, isPaused := false, score := 0, level := 1 } :
          Game).applyDifficultySettings with
      hook := some (Hook.new (canvasWidth / 2) 150
        ({ g with isPlaying := true, isPaused := false, score := 0, level := 1 } :
          Game).applyDifficultySettings.config) }
  exact ⟨R, its, h⟩

/-- C11: whatever the prior session state `p`, `startGame` with difficulty easy yields
`timeLeft = 90` and `targetScore = 300`, with normal 75 and 400, with hard 45 and 800; in all
three cases `score = 0`, `level = 1`, and `hookSpeed`, `hookPullSpeed`, `rotationSpeed` are
the preset of the difficulty (easy 4, 3, 0.03; normal 3.2, 2.3, 0.025; hard 2.5, 1.5, 0.015). -/
theorem startGame_presets (p : Game) :
    ((p.setDifficulty Difficulty.easy).startGame.timeLeft = 90 ∧
      (p.setDifficulty Difficulty.easy).startGame.targetScore = 300 ∧
      (p.setDifficulty Difficulty.easy).startGame.score = 0 ∧
      (p.setDifficulty Difficulty.easy).startGame.level = 1 ∧
      (p.setDifficulty Difficulty.easy).startGame.config.hookSpeed = 4 ∧
      (p.setDifficulty Difficulty.easy).startGame.config.hookPullSpeed = 3 ∧
      (p.setDifficulty Difficulty.easy).startGame.config.rotationSpeed = 3 / 100) ∧
    ((p.setDifficulty Difficulty.normal).startGame.timeLeft = 75 ∧
      (p.setDifficulty Difficulty.normal).startGame.targetScore = 400 ∧
      (p.setDifficulty Difficulty.normal).startGame.score = 0 ∧
      (p.setDifficulty Difficulty.normal).startGame.level = 1 ∧
      (p.setDifficulty Difficulty.normal).startGame.config.hookSpeed = 32 / 10 ∧
      (p.setDifficulty Difficulty.normal).startGame.config.hookPullSpeed = 23 / 10 ∧
      (p.setDifficulty Difficulty.normal).startGame.config.rotationSpeed = 25 / 1000) ∧
    ((p.setDifficulty Difficulty.hard).startGame.timeLeft = 45 ∧
      (p.setDifficulty Difficulty.hard).startGame.targetScore = 800 ∧
      (p.setDifficulty Difficulty.hard).startGame.score = 0 ∧
      (p.setDifficulty Difficulty.hard).startGame.level = 1 ∧
      (p.setDifficulty Difficulty.hard).startGame.config.hookSpeed = 25 / 10 ∧
      (p.setDifficulty Difficulty.hard).startGame.config.hookPullSpeed = 15 / 10 ∧
      (p.setDifficulty Difficulty.hard).startGame.config.rotationSpeed = 15 / 1000) ∧
    ∀ d, (p.setDifficulty d).startGame.isPlaying = true ∧
      (p.setDifficulty d).startGame.difficulty = d := by
  refine ⟨?_, ?_, ?_, ?_⟩
  · obtain ⟨R, its, h⟩ := Game.startGame_spec (p.setDifficulty Difficulty.easy)
    rw [h]
    exact ⟨rfl, rfl, rfl, rfl, rfl, rfl, rfl⟩
  · obtain ⟨R, its, h⟩ := Game.startGame_spec (p.setDifficulty Difficulty.normal)
    rw [h]
    exact ⟨rfl, rfl, rfl, rfl, rfl, rfl, rfl⟩
  · obtain ⟨R, its, h⟩ := Game.startGame_spec (p.setDifficulty Difficulty.hard)
    rw [h]
    exact ⟨rfl, rfl, rfl, rfl, rfl, rfl, rfl⟩
  · intro d
    obtain ⟨R, its, h⟩ := Game.startGame_spec (p.setDifficulty d)
    rw [h]
    cases d <;> exact ⟨rfl, rfl⟩

/-! ## C12: the size of a generated field -/

/-- C12: for every difficulty, level and random stream, `generateItems` leaves a field of
exactly `8 + 2 * level` items (10 at level 1, 14 at level 3), and the result does not depend on
what the field held before. -/
theorem generateItems_count (g : Game) :
    g.generateItems.items.length = 8 + 2 * g.level ∧
      (g.level = 1 → g.generateItems.items.length = 10) ∧
      (g.level = 3 → g.generateItems.items.length = 14) ∧
      ∀ old : List Item, ({ g with items := old } : Game).generateItems = g.generateItems := by
  obtain ⟨R, its, h, hlen, _⟩ := Game.generateItems_spec g
  have hl : g.generateItems.items.length = 8 + 2 * g.level := by
    rw [h]
    show its.length = _
    rw [hlen]
    ring
  refine ⟨hl, fun h1 => by rw [hl, h1], fun h3 => by rw [hl, h3], fun old => rfl⟩

/-! ## C13, C14, C19: the bands of the type selection -/

theorem selectType_bands (c : ItemChances) (r : ℚ) (hd : 0 ≤ c.diamond)
    (hb : 0 ≤ c.goldBlock) (hs : 0 ≤ c.smallStone) :
    (selectType c r = ItemType.gold ↔ r < c.gold) ∧
      (selectType c r = ItemType.diamond ↔ c.gold ≤ r ∧ r < c.gold + c.diamond) ∧
      (selectType c r = ItemType.goldBlock ↔
        c.gold + c.diamond ≤ r ∧ r < c.gold + c.diamond + c.goldBlock) ∧
      (selectType c r = ItemType.smallStone ↔
        c.gold + c.diamond + c.goldBlock ≤ r ∧
          r < c.gold + c.diamond + c.goldBlock + c.smallStone) ∧
      (selectType c r = ItemType.bigStone ↔
        c.gold + c.diamond + c.goldBlock + c.smallStone ≤ r) := by
  unfold selectType
  split_ifs with h1 h2 h3 h4
  · simp only [reduceCtorEq, true_iff, false_iff, not_and, not_lt, not_le]
    refine ⟨h1, ?_, ?_, ?_, ?_⟩
    · intro h; linarith
    · intro h; linarith
    · intro h; linarith
    · linarith
  · simp only [reduceCtorEq, true_iff, false_iff, not_and, not_lt, not_le]
    refine ⟨not_lt.mp h1, ⟨not_lt.mp h1, h2⟩, ?_, ?_, ?_⟩
    · intro h; linarith
    · intro h; linarith
    · linarith
  · simp only [reduceCtorEq, true_iff, false_iff, not_and, not_lt, not_le]
    refine ⟨not_lt.mp h1, ?_, ⟨not_lt.mp h2, h3⟩, ?_, ?_⟩
    · intro _; exact not_lt.mp h2
    · intro h; linarith
    · linarith
  · simp only [reduceCtorEq, true_iff, false_iff, not_and, not_lt, not_le]
    refine ⟨not_lt.mp h1, ?_, ?_, ⟨not_lt.mp h3, h4⟩, h4⟩
    · intro _; exact not_lt.mp h2
    · intro _; exact not_lt.mp h3
  · simp only [reduceCtorEq, true_iff, false_iff, not_and, not_lt, not_le]
    refine ⟨not_lt.mp h1, ?_, ?_, ?_, not_lt.mp h4⟩
    · intro _; exact not_lt.mp h2
    · intro _; exact not_lt.mp h3
    · intro _; exact not_lt.mp h4

theorem baseChances_nonneg (d : Difficulty) :
    0 ≤ (baseChances d).gold ∧ 0 ≤ (baseChances d).diamond ∧ 0 ≤ (baseChances d).goldBlock ∧
      0 ≤ (baseChances d).smallStone ∧ 0 ≤ (baseChances d).bigStone := by
  cases d <;> norm_num [baseChances]

theorem levelMultiplier_pos (level : ℕ) : 0 < levelMultiplier level := by
  unfold levelMultiplier
  have : (0 : ℚ) ≤ level := Nat.cast_nonneg level
  linarith

theorem itemChances_bands (d : Difficulty) (level : ℕ) (r : ℚ) :
    (selectType (itemChances d level) r = ItemType.gold ↔ r < (baseChances d).gold) ∧
      (selectType (itemChances d level) r = ItemType.diamond ↔
        (baseChances d).gold ≤ r ∧ r < (baseChances d).gold + (baseChances d).diamond) ∧
      (selectType (itemChances d level) r = ItemType.goldBlock ↔
        (baseChances d).gold + (baseChances d).diamond ≤ r ∧
          r < (baseChances d).gold + (baseChances d).diamond + (baseChances d).goldBlock) ∧
      (selectType (itemChances d level) r = ItemType.smallStone ↔
        (baseChances d).gold + (baseChances d).diamond + (baseChances d).goldBlock ≤ r ∧
          r < (baseChances d).gold + (baseChances d).diamond + (baseChances d).goldBlock +
          (baseChances d).smallStone * levelMultiplier level) ∧
      (selectType (itemChances d level) r = ItemType.bigStone ↔
        (baseChances d).gold + (baseChances d).diamond + (baseChances d).goldBlock +
          (baseChances d).smallStone * levelMultiplier level ≤ r) := by
  obtain ⟨_, hd, hb, hs, _⟩ := baseChances_nonneg d
  exact selectType_bands (itemChances d level) r hd hb
    (mul_nonneg hs (le_of_lt (levelMultiplier_pos level)))

/-- C13: the type selection of `generateItems` is the cumulative-band function.  With the base
chances `(g, d, b, s, B)` of the difficulty (easy 0.4, 0.25, 0.2, 0.1, 0.05; normal 0.35, 0.22,
0.18, 0.13, 0.12; hard 0.2, 0.15, 0.15, 0.25, 0.25) and `m = 1 + (level - 1) * 0.05`, a sample
`r` yields gold iff `r < g`, diamond iff `g ≤ r < g + d`, goldBlock iff `g + d ≤ r < g + d + b`,
smallStone iff `g + d + b ≤ r < g + d + b + s * m` and bigStone otherwise; the first three
cut-points do not mention the level.  Every item that `generateItems` creates has the type
selected for one of the samples read, and the weight of its type (gold 1, diamond 0.5,
goldBlock 1.5, smallStone 3, bigStone 5). -/
theorem type_selection_is_cumulative_bands (d : Difficulty) (level : ℕ) (r : ℚ) :
    (baseChances Difficulty.easy =
        { gold := 40 / 100, diamond := 25 / 100, goldBlock := 20 / 100,
          smallStone := 10 / 100, bigStone := 5 / 100 } ∧
      baseChances Difficulty.normal =
        { gold := 35 / 100, diamond := 22 / 100, goldBlock := 18 / 100,
          smallStone := 13 / 100, bigStone := 12 / 100 } ∧
      baseChances Difficulty.hard =
        { gold := 20 / 100, diamond := 15 / 100, goldBlock := 15 / 100,
          smallStone := 25 / 100, bigStone := 25 / 100 }) ∧
    levelMultiplier level = 1 + ((level : ℚ) - 1) * (5 / 100) ∧
    ((selectType (itemChances d level) r = ItemType.gold ↔ r < (baseChances d).gold) ∧
      (selectType (itemChances d level) r = ItemType.diamond ↔
        (baseChances d).gold ≤ r ∧ r < (baseChances d).gold + (baseChances d).diamond) ∧
      (selectType (itemChances d level) r = ItemType.goldBlock ↔
        (baseChances d).gold + (baseChances d).diamond ≤ r ∧
          r < (baseChances d).gold + (baseChances d).diamond + (baseChances d).goldBlock) ∧
      (selectType (itemChances d level) r = ItemType.smallStone ↔
        (baseChances d).gold + (baseChances d).diamond + (baseChances d).goldBlock ≤ r ∧
          r < (baseChances d).gold + (baseChances d).diamond + (baseChances d).goldBlock +
          (baseChances d).smallStone * levelMultiplier level) ∧
      (selectType (itemChances d level) r = ItemType.bigStone ↔
        (baseChances d).gold + (baseChances d).diamond + (baseChances d).goldBlock +
          (baseChances d).smallStone * levelMultiplier level ≤ r)) ∧
    ∀ g : Game, ∀ it ∈ g.generateItems.items,
      (∃ i, it.type = selectType (itemChances g.difficulty g.level) (g.rng i)) ∧
      ((it.type = ItemType.gold ∧ it.weight = 1) ∨
        (it.type = ItemType.diamond ∧ it.weight = 1 / 2) ∨
        (it.type = ItemType.goldBlock ∧ it.weight = 3 / 2) ∨
        (it.type = ItemType.smallStone ∧ it.weight = 3) ∨
        (it.type = ItemType.bigStone ∧ it.weight = 5)) := by
  refine ⟨⟨rfl, rfl, rfl⟩, rfl, itemChances_bands d level r, ?_⟩
  intro g it hit
  obtain ⟨R, its, h, _, hty⟩ := Game.generateItems_spec g
  rw [h] at hit
  obtain ⟨i, hi⟩ := hty it hit
  refine ⟨⟨i, hi⟩, ?_⟩
  have hne : it.type ≠ ItemType.other := by
    rw [hi]
    exact selectType_ne_other _ _
  unfold Item.weight Item.calculateWeight
  cases hty2 : it.type
  · exact Or.inl ⟨rfl, rfl⟩
  · exact Or.inr (Or.inl ⟨rfl, rfl⟩)
  · exact Or.inr (Or.inr (Or.inl ⟨rfl, rfl⟩))
  · exact Or.inr (Or.inr (Or.inr (Or.inl ⟨rfl, rfl⟩)))
  · exact Or.inr (Or.inr (Or.inr (Or.inr ⟨rfl, rfl⟩)))
  · exact absurd hty2 hne

/-- C14 fails on the code: whether a sample is mapped to a stone type does not depend on the
level.  For every difficulty, all levels `L`, `L2` and every sample `r`, the sample yields a
stone (smallStone or bigStone) at level `L` iff it does at level `L2`, namely iff
`r ≥ g + d + b`; on easy at levels 1 and 2 the stone samples are those with `r ≥ 0.85`. -/
theorem stone_share_same_at_all_levels :
    (∀ (d : Difficulty) (L L2 : ℕ) (r : ℚ),
      (selectType (itemChances d L) r).isStone = (selectType (itemChances d L2) r).isStone) ∧
    (∀ (d : Difficulty) (level : ℕ) (r : ℚ),
      (selectType (itemChances d level) r).isStone = true ↔
        (baseChances d).gold + (baseChances d).diamond + (baseChances d).goldBlock ≤ r) ∧
    (∀ r : ℚ, ((selectType (itemChances Difficulty.easy 1) r).isStone = true ↔ 85 / 100 ≤ r) ∧
      ((selectType (itemChances Difficulty.easy 2) r).isStone = true ↔ 85 / 100 ≤ r)) := by
  have key : ∀ (d : Difficulty) (level : ℕ) (r : ℚ),
      (selectType (itemChances d level) r).isStone = true ↔
        (baseChances d).gold + (baseChances d).diamond + (baseChances d).goldBlock ≤ r := by
    intro d level r
    obtain ⟨_, hd, hb, hs, _⟩ := baseChances_nonneg d
    have hm := mul_nonneg hs (le_of_lt (levelMultiplier_pos level))
    obtain ⟨h1, h2, h3, h4, h5⟩ := itemChances_bands d level r
    cases hsel : selectType (itemChances d level) r
    · have := h1.mp hsel
      simp only [ItemType.isStone, Bool.false_eq_true, false_iff, not_le]
      linarith
    · have := h2.mp hsel
      simp only [ItemType.isStone, Bool.false_eq_true, false_iff, not_le]
      linarith
    · have := h3.mp hsel
      simp only [ItemType.isStone, Bool.false_eq_true, false_iff, not_le]
      linarith
    · have := h4.mp hsel
      simp only [ItemType.isStone, true_iff]
      linarith
    · have := h5.mp hsel
      simp only [ItemType.isStone, true_iff]
      linarith
    · exact absurd hsel (selectType_ne_other _ _)
  refine ⟨?_, key, ?_⟩
  · intro d L L2 r
    rw [Bool.eq_iff_iff, key d L r, key d L2 r]
  · intro r
    have he : (baseChances Difficulty.easy).gold + (baseChances Difficulty.easy).diamond +
        (baseChances Difficulty.easy).goldBlock = 85 / 100 := by
      norm_num [baseChances]
    constructor
    · rw [key Difficulty.easy 1 r, he]
    · rw [key Difficulty.easy 2 r, he]

/-- C19: the stone multiplier is applied without renormalisation.  A sample yields bigStone iff
it is at least the cut-point `c = g + d + b + s * m`, so the samples of `[0, 1)` that yield
bigStone are exactly the interval `[c, 1)`, of length `max 0 (1 - c)`; the cut-point reaches 1
on hard at level 21 (`m = 2`), where no sample of `[0, 1)` yields bigStone, and exceeds 1 at
level 22. -/
theorem bigStone_band_saturates :
    (∀ (d : Difficulty) (level : ℕ),
      {r : ℚ | 0 ≤ r ∧ r < 1 ∧ selectType (itemChances d level) r = ItemType.bigStone} =
        Set.Ico ((baseChances d).gold + (baseChances d).diamond + (baseChances d).goldBlock +
          (baseChances d).smallStone * levelMultiplier level) 1) ∧
    (∀ (d : Difficulty) (level : ℕ),
      MeasureTheory.volume (Set.Ico
        ((((baseChances d).gold + (baseChances d).diamond + (baseChances d).goldBlock +
          (baseChances d).smallStone * levelMultiplier level : ℚ)) : ℝ) 1) =
        ENNReal.ofReal ((max 0 (1 - ((baseChances d).gold + (baseChances d).diamond + (baseChances d).goldBlock +
          (baseChances d).smallStone * levelMultiplier level)) : ℚ) : ℝ)) ∧
    levelMultiplier 21 = 2 ∧
    (baseChances Difficulty.hard).gold + (baseChances Difficulty.hard).diamond +
      (baseChances Difficulty.hard).goldBlock +
      (baseChances Difficulty.hard).smallStone * levelMultiplier 21 = 1 ∧
    (∀ r : ℚ, 0 ≤ r → r < 1 →
      selectType (itemChances Difficulty.hard 21) r ≠ ItemType.bigStone) ∧
    1 < (baseChances Difficulty.hard).gold + (baseChances Difficulty.hard).diamond +
      (baseChances Difficulty.hard).goldBlock +
      (baseChances Difficulty.hard).smallStone * levelMultiplier 22 := by
  have h21 : (baseChances Difficulty.hard).gold + (baseChances Difficulty.hard).diamond +
      (baseChances Difficulty.hard).goldBlock +
      (baseChances Difficulty.hard).smallStone * levelMultiplier 21 = 1 := by
    norm_num [baseChances, levelMultiplier]
  refine ⟨?_, ?_, by norm_num [levelMultiplier], h21, ?_,
    by norm_num [baseChances, levelMultiplier]⟩
  · intro d level
    obtain ⟨hg, hd, hb, hs, _⟩ := baseChances_nonneg d
    have hm := mul_nonneg hs (le_of_lt (levelMultiplier_pos level))
    ext r
    simp only [Set.mem_setOf_eq, Set.mem_Ico, (itemChances_bands d level r).2.2.2.2]
    constructor
    · rintro ⟨_, h1, hc⟩
      exact ⟨hc, h1⟩
    · rintro ⟨hc, h1⟩
      exact ⟨by linarith, h1, hc⟩
  · intro d level
    rw [Real.volume_Ico]
    rcases le_total (1 - ((baseChances d).gold + (baseChances d).diamond + (baseChances d).goldBlock +
          (baseChances d).smallStone * levelMultiplier level)) 0 with hle | hge
    · rw [max_eq_left hle]
      have hle2 : (1 : ℝ) - (((baseChances d).gold + (baseChances d).diamond + (baseChances d).goldBlock +
          (baseChances d).smallStone * levelMultiplier level : ℚ) : ℝ) ≤ 0 := by
        exact_mod_cast hle
      rw [ENNReal.ofReal_of_nonpos hle2]
      simp
    · rw [max_eq_right hge]
      push_cast
      rfl
  · intro r _ h1 hsel
    have hc := (itemChances_bands Difficulty.hard 21 r).2.2.2.2.mp hsel
    rw [h21] at hc
    linarith

/-! ## C15: level-up -/

theorem Game.playSound_frame (g : Game) (cue : String) :
    g.playSound cue = { g with sounds := (g.playSound cue).sounds } := by
  unfold Game.playSound
  split <;> rfl

theorem Game.levelUpEffectLoop_spec (n : ℕ) (ps : List Particle) (g : Game) :
    ∃ R ps2, Game.levelUpEffectLoop n ps g = (ps ++ ps2, { g with rngPos := R }) ∧
      ps2.length = n := by
  induction n generalizing ps g with
  | zero => exact ⟨g.rngPos, [], by simp [Game.levelUpEffectLoop], rfl⟩
  | succ n ih =>
    rw [Game.levelUpEffectLoop]
    simp only [Game.random]
    obtain ⟨R, ps2, h, hlen⟩ := ih
      (ps ++ [(Particle.new (canvasWidth / 2) (canvasHeight / 2)
        ((g.rng g.rngPos - 1 / 2) * 10) ((g.rng (g.rngPos + 1) - 1 / 2) * 10) "#FFD700")])
      { g with rngPos := g.rngPos + 1 + 1 }
    refine ⟨R, (Particle.new (canvasWidth / 2) (canvasHeight / 2)
        ((g.rng g.rngPos - 1 / 2) * 10) ((g.rng (g.rngPos + 1) - 1 / 2) * 10) "#FFD700") :: ps2, ?_, by simp [hlen]⟩
    rw [h]
    simp

/-- The level-up effect appends 20 particles, logs its cue and advances the random stream. -/
theorem Game.createLevelUpEffect_spec (g : Game) :
    ∃ R ps, g.createLevelUpEffect =
      { g with rngPos := R, particles := g.particles ++ ps,
               sounds := (g.playSound "levelup").sounds } ∧ ps.length = 20 := by
  unfold Game.createLevelUpEffect
  obtain ⟨R, ps, h, hlen⟩ := Game.levelUpEffectLoop_spec 20 [] g
  rw [h]
  refine ⟨R, ps, ?_, hlen⟩
  simp only [List.nil_append]
  rw [Game.playSound_frame]
  unfold Game.playSound
  split <;> rfl

/-- What `nextLevel` leaves. -/
theorem Game.nextLevel_spec (g : Game) :
    ∃ R its ps, g.nextLevel =
      { g with
        level := g.level + 1
        timeLeft := g.timeLeft + timeBonus g.difficulty
        targetScore := g.targetScore + targetIncrease g.difficulty
        config := { g.config with
          hookSpeed := g.config.hookSpeed + speedIncrease g.difficulty }
        rngPos := R
        items := its
        particles := g.particles ++ ps
        sounds := (g.playSound "levelup").sounds } ∧
      its.length = 8 + (g.level + 1) * 2 ∧ ps.length = 20 ∧
      ∀ it ∈ its, ∃ i,
        it.type = selectType (itemChances g.difficulty (g.level + 1)) (g.rng i) := by
  unfold Game.nextLevel
  simp only
  obtain ⟨R1, its, h1, hlen, hty⟩ := Game.generateItems_spec
    { g with
      level := g.level + 1
      timeLeft := g.timeLeft + timeBonus g.difficulty
      targetScore := g.targetScore + targetIncrease g.difficulty
      config := { g.config with
        hookSpeed := g.config.hookSpeed + speedIncrease g.difficulty } }
  rw [h1]
  obtain ⟨R2, ps, h2, hps⟩ := Game.createLevelUpEffect_spec
    { g with
      level := g.level + 1
      timeLeft := g.timeLeft + timeBonus g.difficulty
      targetScore := g.targetScore + targetIncrease g.difficulty
      config := { g.config with
        hookSpeed := g.config.hookSpeed + speedIncrease g.difficulty }
      rngPos := R1
      items := its }
  rw [h2]
  refine ⟨R2, its, ps, ?_, hlen, hps, hty⟩
  unfold Game.playSound
  split <;> rfl

/-- What `endGame` leaves: nothing changes, or the session stops, the cue is logged and the
summary is written. -/
theorem Game.endGame_frame (g : Game) (isWin : Bool) :
    g.endGame isWin = g ∨
      g.endGame isWin = { g with
        isPlaying := false
        sounds := (g.playSound "gameover").sounds
        summary := some { won := isWin, finalScore := g.score, finalLevel := g.level } } := by
  unfold Game.endGame
  split
  · exact Or.inl rfl
  · right
    cases hsm : g.soundManager <;> simp [Game.playSound, hsm]

/-- The fields that `endGame` never touches. -/
theorem Game.endGame_fields (g : Game) (isWin : Bool) :
    (g.endGame isWin).score = g.score ∧ (g.endGame isWin).targetScore = g.targetScore ∧
      (g.endGame isWin).level = g.level ∧ (g.endGame isWin).timeLeft = g.timeLeft ∧
      (g.endGame isWin).hook = g.hook ∧ (g.endGame isWin).items = g.items ∧
      (g.endGame isWin).difficulty = g.difficulty ∧ (g.endGame isWin).config = g.config := by
  rcases Game.endGame_frame g isWin with h | h <;> rw [h] <;>
    exact ⟨rfl, rfl, rfl, rfl, rfl, rfl, rfl, rfl⟩

/-- With the target reached, `checkGameStatus` runs `nextLevel` once, on the session as the
time check has left it. -/
theorem Game.checkGameStatus_levelUp (g : Game) (hsc : g.targetScore ≤ g.score) :
    g.checkGameStatus =
      some ((if g.timeLeft ≤ 0 then g.endGame false else g).nextLevel) := by
  have hf : (if g.timeLeft ≤ 0 then g.endGame false else g).score = g.score ∧
      (if g.timeLeft ≤ 0 then g.endGame false else g).targetScore = g.targetScore := by
    split
    · exact ⟨(Game.endGame_fields g false).1, (Game.endGame_fields g false).2.1⟩
    · exact ⟨rfl, rfl⟩
  unfold Game.checkGameStatus
  simp only
  have hge : (if g.timeLeft ≤ 0 then g.endGame false else g).score ≥
      (if g.timeLeft ≤ 0 then g.endGame false else g).targetScore := by
    rw [hf.1, hf.2]
    exact hsc
  rw [if_pos hge]
  obtain ⟨R, its, ps, h, hlen, _, _⟩ :=
    Game.nextLevel_spec (if g.timeLeft ≤ 0 then g.endGame false else g)
  have hne : ¬ ((if g.timeLeft ≤ 0 then g.endGame false else g).nextLevel.items.length = 0) := by
    rw [h]
    show ¬ (its.length = 0)
    rw [hlen]
    omega
  rw [if_neg hne]

/-- With the target not reached, `checkGameStatus` does not run `nextLevel`: the level, the
target, the time left, the config and the score stay. -/
theorem Game.checkGameStatus_noLevelUp (g g2 : Game) (hsc : g.score < g.targetScore)
    (hres : g.checkGameStatus = some g2) :
    g2.level = g.level ∧ g2.targetScore = g.targetScore ∧ g2.timeLeft = g.timeLeft ∧
      g2.config = g.config ∧ g2.score = g.score := by
  have hf := Game.endGame_fields g false
  have hfield : (if g.timeLeft ≤ 0 then g.endGame false else g).score = g.score ∧
      (if g.timeLeft ≤ 0 then g.endGame false else g).targetScore = g.targetScore ∧
      (if g.timeLeft ≤ 0 then g.endGame false else g).level = g.level ∧
      (if g.timeLeft ≤ 0 then g.endGame false else g).timeLeft = g.timeLeft ∧
      (if g.timeLeft ≤ 0 then g.endGame false else g).config = g.config := by
    split
    · exact ⟨hf.1, hf.2.1, hf.2.2.1, hf.2.2.2.1, hf.2.2.2.2.2.2.2⟩
    · exact ⟨rfl, rfl, rfl, rfl, rfl⟩
  unfold Game.checkGameStatus at hres
  simp only at hres
  have hlt : ¬ ((if g.timeLeft ≤ 0 then g.endGame false else g).score ≥
      (if g.timeLeft ≤ 0 then g.endGame false else g).targetScore) := by
    rw [hfield.1, hfield.2.1]
    exact not_le.mpr hsc
  rw [if_neg hlt] at hres
  generalize (if g.timeLeft ≤ 0 then g.endGame false else g) = g1 at hres hfield
  obtain ⟨R, its, hgen, _, _⟩ := Game.generateItems_spec g1
  split at hres
  · split at hres
    · cases hres
    · split at hres
      · cases hres
        rw [hgen]
        exact ⟨hfield.2.2.1, hfield.2.1, hfield.2.2.2.1, hfield.2.2.2.2, hfield.1⟩
      · cases hres
        exact ⟨hfield.2.2.1, hfield.2.1, hfield.2.2.2.1, hfield.2.2.2.2, hfield.1⟩
  · cases hres
    exact ⟨hfield.2.2.1, hfield.2.1, hfield.2.2.2.1, hfield.2.2.2.2, hfield.1⟩

/-- With a hook in place `checkGameStatus` returns. -/
theorem Game.checkGameStatus_total (g : Game) (h : Hook) (hh : g.hook = some h) :
    ∃ g2, g.checkGameStatus = some g2 := by
  by_cases hsc : g.targetScore ≤ g.score
  · exact ⟨_, Game.checkGameStatus_levelUp g hsc⟩
  · have hf := Game.endGame_fields g false
    have hfield : (if g.timeLeft ≤ 0 then g.endGame false else g).score = g.score ∧
        (if g.timeLeft ≤ 0 then g.endGame false else g).targetScore = g.targetScore ∧
        (if g.timeLeft ≤ 0 then g.endGame false else g).hook = some h := by
      split
      · exact ⟨hf.1, hf.2.1, by rw [hf.2.2.2.2.1, hh]⟩
      · exact ⟨rfl, rfl, hh⟩
    unfold Game.checkGameStatus
    simp only
    have hlt : ¬ ((if g.timeLeft ≤ 0 then g.endGame false else g).score ≥
        (if g.timeLeft ≤ 0 then g.endGame false else g).targetScore) := by
      rw [hfield.1, hfield.2.1]
      exact hsc
    rw [if_neg hlt]
    generalize (if g.timeLeft ≤ 0 then g.endGame false else g) = g1 at hfield
    rw [hfield.2.2]
    simp only
    split
    · split
      · exact ⟨_, rfl⟩
      · exact ⟨_, rfl⟩
    · exact ⟨_, rfl⟩

theorem Game.playSound_level (g : Game) (cue : String) : (g.playSound cue).level = g.level := by
  unfold Game.playSound
  split <;> rfl

theorem Hook.grabEffectLoop_level (tip : ℚ × ℚ) (c : String) (n : ℕ) (g : Game) :
    (Hook.grabEffectLoop tip c n g).level = g.level := by
  induction n generalizing g with
  | zero => rfl
  | succ n ih => simp only [Hook.grabEffectLoop, Game.random]; rw [ih]

theorem Hook.createGrabEffect_level (T : Trig) (h : Hook) (g : Game) :
    (h.createGrabEffect T g).level = g.level := by
  unfold Hook.createGrabEffect
  cases h.grabbedItem with
  | none => rfl
  | some it => exact Hook.grabEffectLoop_level _ _ _ _

theorem Hook.update_level (T : Trig) (h : Hook) (g : Game) :
    (h.update T g).2.level = g.level := by
  cases hs : h.state with
  | idle => rw [Hook.update_idle T h g hs]
  | shooting => rw [Hook.update_shooting T h g hs]
  | pulling =>
    by_cases hpos : 0 < h.length - h.pullSpeed g
    · rw [Hook.update_pulling_pos T h g hs hpos]
    · rw [Hook.update_pulling_done T h g hs (not_lt.mp hpos)]
      cases h.grabbedItem with
      | none => rfl
      | some it =>
        simp only [Hook.createGrabEffect_level]
        cases it.type <;> simp only [Game.playSound_level] <;> rfl

theorem Game.checkCollisions_level (T : Trig) (g g2 : Game) (h : Hook) (hh : g.hook = some h)
    (hres : g.checkCollisions T = some g2) : g2.level = g.level := by
  rcases Game.checkCollisions_cases T g h hh with ⟨_, heq⟩ | ⟨_, i, item, _, _, _, _, heq⟩
  · rw [heq] at hres
    cases hres
    rfl
  · rw [heq] at hres
    cases hres
    exact Game.playSound_level g "grab"

theorem Game.checkCollisions_hook (T : Trig) (g g2 : Game) (h : Hook) (hh : g.hook = some h)
    (hres : g.checkCollisions T = some g2) : ∃ h2, g2.hook = some h2 := by
  rcases Game.checkCollisions_cases T g h hh with ⟨_, heq⟩ | ⟨_, i, item, _, _, _, _, heq⟩
  · rw [heq] at hres
    cases hres
    exact ⟨h, hh⟩
  · rw [heq] at hres
    cases hres
    exact ⟨_, rfl⟩

theorem Game.checkCollisions_total (T : Trig) (g : Game) (h : Hook) (hh : g.hook = some h) :
    ∃ g2, g.checkCollisions T = some g2 := by
  rcases Game.checkCollisions_cases T g h hh with ⟨_, heq⟩ | ⟨_, i, item, _, _, _, _, heq⟩
  · exact ⟨_, heq⟩
  · exact ⟨_, heq⟩

theorem Game.updateParticles_fields (g : Game) :
    g.updateParticles.level = g.level ∧ g.updateParticles.hook = g.hook := by
  unfold Game.updateParticles
  simp only
  split <;> exact ⟨rfl, rfl⟩

theorem Game.update_some (T : Trig) (g : Game) (h : Hook) (hh : g.hook = some h) :
    g.update T =
      match (if (h.update T g).1.state = HookState.shooting ∨
            (h.update T g).1.state = HookState.pulling then
          ({ (h.update T g).2 with hook := some (h.update T g).1 } : Game).checkCollisions T
        else some { (h.update T g).2 with hook := some (h.update T g).1 }) with
      | none => none
      | some g3 => g3.updateParticles.checkGameStatus := by
  unfold Game.update
  rw [hh]

/-- One frame raises the level by one or leaves it. -/
theorem Game.frame_level (T : Trig) (g g2 : Game) (hres : g.update T = some g2) :
    g2.level = g.level ∨ g2.level = g.level + 1 := by
  cases hh : g.hook with
  | none =>
    unfold Game.update at hres
    rw [hh] at hres
    cases hres
  | some h =>
    rw [Game.update_some T g h hh] at hres
    have hl1 : ({ (h.update T g).2 with hook := some (h.update T g).1 } : Game).level
        = g.level := Hook.update_level T h g
    have key : ∀ g3 : Game, g3.level = g.level → g3.updateParticles.checkGameStatus = some g2 →
        g2.level = g.level ∨ g2.level = g.level + 1 := by
      intro g3 hl3 hst
      have hl4 : g3.updateParticles.level = g.level := by
        rw [(Game.updateParticles_fields g3).1, hl3]
      by_cases hsc : g3.updateParticles.targetScore ≤ g3.updateParticles.score
      · rw [Game.checkGameStatus_levelUp _ hsc] at hst
        cases hst
        obtain ⟨R, its, ps, hn, _, _, _⟩ := Game.nextLevel_spec
          (if g3.updateParticles.timeLeft ≤ 0 then g3.updateParticles.endGame false
            else g3.updateParticles)
        right
        rw [hn]
        show (if g3.updateParticles.timeLeft ≤ 0 then g3.updateParticles.endGame false
            else g3.updateParticles).level + 1 = g.level + 1
        split
        · rw [(Game.endGame_fields _ false).2.2.1, hl4]
        · rw [hl4]
      · left
        rw [(Game.checkGameStatus_noLevelUp _ g2 (not_le.mp hsc) hst).1, hl4]
    by_cases hc : (h.update T g).1.state = HookState.shooting ∨
        (h.update T g).1.state = HookState.pulling
    · rw [if_pos hc] at hres
      obtain ⟨g3, h3⟩ := Game.checkCollisions_total T
        ({ (h.update T g).2 with hook := some (h.update T g).1 } : Game) _ rfl
      rw [h3] at hres
      exact key g3 (by rw [Game.checkCollisions_level T _ g3 _ rfl h3]; exact hl1) hres
    · rw [if_neg hc] at hres
      exact key _ hl1 hres

/-- With a hook in place one frame returns. -/
theorem Game.update_total (T : Trig) (g : Game) (h : Hook) (hh : g.hook = some h) :
    ∃ g2, g.update T = some g2 := by
  rw [Game.update_some T g h hh]
  by_cases hc : (h.update T g).1.state = HookState.shooting ∨
      (h.update T g).1.state = HookState.pulling
  · rw [if_pos hc]
    obtain ⟨g3, h3⟩ := Game.checkCollisions_total T
      ({ (h.update T g).2 with hook := some (h.update T g).1 } : Game) _ rfl
    rw [h3]
    obtain ⟨h4, hh4⟩ := Game.checkCollisions_hook T _ g3 _ rfl h3
    exact Game.checkGameStatus_total _ h4
      (by rw [(Game.updateParticles_fields g3).2]; exact hh4)
  · rw [if_neg hc]
    exact Game.checkGameStatus_total _ (h.update T g).1
      (by rw [(Game.updateParticles_fields _).2])

/-- C15: `nextLevel` raises the level by exactly 1, adds the bonuses of the difficulty (easy:
`timeLeft + 15`, `targetScore + 150`, `hookSpeed + 0.6`; normal: `+10`, `+200`, `+0.5`; hard:
`+5`, `+250`, `+0.3`), leaves `score`, `hookPullSpeed`, `rotationSpeed`, `hookMaxLength` and
`difficulty` unchanged and regenerates the field with `8 + 2 * (new level)` items.
`checkGameStatus` runs it, once, whenever `score ≥ targetScore` and not otherwise, so one
frame raises the level by at most 1. -/
theorem nextLevel_effect (g : Game) :
    g.nextLevel.level = g.level + 1 ∧
      g.nextLevel.timeLeft = g.timeLeft + timeBonus g.difficulty ∧
      g.nextLevel.targetScore = g.targetScore + targetIncrease g.difficulty ∧
      g.nextLevel.config.hookSpeed = g.config.hookSpeed + speedIncrease g.difficulty ∧
      (timeBonus Difficulty.easy = 15 ∧ targetIncrease Difficulty.easy = 150 ∧
        speedIncrease Difficulty.easy = 6 / 10 ∧
        timeBonus Difficulty.normal = 10 ∧ targetIncrease Difficulty.normal = 200 ∧
        speedIncrease Difficulty.normal = 5 / 10 ∧
        timeBonus Difficulty.hard = 5 ∧ targetIncrease Difficulty.hard = 250 ∧
        speedIncrease Difficulty.hard = 3 / 10) ∧
      (g.nextLevel.score = g.score ∧
        g.nextLevel.config.hookPullSpeed = g.config.hookPullSpeed ∧
        g.nextLevel.config.rotationSpeed = g.config.rotationSpeed ∧
        g.nextLevel.config.hookMaxLength = g.config.hookMaxLength ∧
        g.nextLevel.difficulty = g.difficulty) ∧
      g.nextLevel.items.length = 8 + 2 * (g.level + 1) ∧
      (g.targetScore ≤ g.score →
        g.checkGameStatus =
          some ((if g.timeLeft ≤ 0 then g.endGame false else g).nextLevel)) ∧
      (g.score < g.targetScore → ∀ g2, g.checkGameStatus = some g2 →
        g2.level = g.level ∧ g2.targetScore = g.targetScore ∧ g2.timeLeft = g.timeLeft ∧
          g2.config = g.config) ∧
      (∀ h, g.hook = some h → ∃ g2, g.checkGameStatus = some g2) ∧
      (∀ (T : Trig) (h : Hook), g.hook = some h →
        ∃ g2, g.update T = some g2 ∧ (g2.level = g.level ∨ g2.level = g.level + 1)) := by
  obtain ⟨R, its, ps, h, hlen, _, _⟩ := Game.nextLevel_spec g
  refine ⟨by rw [h], by rw [h], by rw [h], by rw [h],
    ⟨rfl, rfl, rfl, rfl, rfl, rfl, rfl, rfl, rfl⟩,
    ⟨by rw [h], by rw [h], by rw [h], by rw [h], by rw [h]⟩, ?_,
    fun hsc => Game.checkGameStatus_levelUp g hsc, ?_,
    fun hk hh => Game.checkGameStatus_total g hk hh, ?_⟩
  · rw [h]
    show its.length = _
    rw [hlen]
    ring
  · intro hsc g2 hres
    obtain ⟨a, b, c, d, _⟩ := Game.checkGameStatus_noLevelUp g g2 hsc hres
    exact ⟨a, b, c, d⟩
  · intro T hk hh
    obtain ⟨g2, hg2⟩ := Game.update_total T g hk hh
    exact ⟨g2, hg2, Game.frame_level T g g2 hg2⟩

/-! ## C16: ending the session twice -/

theorem Game.endGame_isPlaying (g : Game) (isWin : Bool) :
    (g.endGame isWin).isPlaying = false := by
  unfold Game.endGame
  split
  · rename_i hc
    cases hp : g.isPlaying
    · rfl
    · rw [hp] at hc
      simp at hc
  · cases hsm : g.soundManager <;> simp [Game.playSound, hsm]

theorem Game.endGame_true (g : Game) :
    g.endGame true = { g with
      isPlaying := false
      sounds := (g.playSound "gameover").sounds
      summary := some { won := true, finalScore := g.score, finalLevel := g.level } } := by
  unfold Game.endGame
  cases hsm : g.soundManager <;> simp [Game.playSound, hsm]

/-- C16: the guard of `endGame`, commented as preventing repeated calls, does not stop a
repeated `endGame(true)`: in a session with a sound manager the second call is not a no-op, it
plays the `gameover` cue a second time. -/
theorem endGame_twice_win_not_noop :
    (samplePlaying.endGame true).sounds = ["gameover"] ∧
      ((samplePlaying.endGame true).endGame true).sounds = ["gameover", "gameover"] ∧
      (samplePlaying.endGame true).endGame true ≠ samplePlaying.endGame true := by
  have h1 : (samplePlaying.endGame true).sounds = ["gameover"] := by
    simp [Game.endGame, Game.playSound, samplePlaying, Game.new]
  have h2 : ((samplePlaying.endGame true).endGame true).sounds = ["gameover", "gameover"] := by
    simp [Game.endGame, Game.playSound, samplePlaying, Game.new]
  refine ⟨h1, h2, ?_⟩
  intro heq
  have := congrArg Game.sounds heq
  rw [h1, h2] at this
  simp at this

/-- How far the guard of `endGame` reaches: after any call of `endGame`, a further call with
`isWin = false` returns at the guard and changes nothing.  A further call with `isWin = true`
passes the guard: it leaves `isPlaying`, `score` and `level` as they are, plays the cue once
more and writes the summary of a win. -/
theorem endGame_repeat (g : Game) (isWin : Bool) :
    (g.endGame isWin).endGame false = g.endGame isWin ∧
      ((g.endGame isWin).endGame true).isPlaying = (g.endGame isWin).isPlaying ∧
      ((g.endGame isWin).endGame true).score = (g.endGame isWin).score ∧
      ((g.endGame isWin).endGame true).level = (g.endGame isWin).level ∧
      ((g.endGame isWin).endGame true).sounds =
        ((g.endGame isWin).playSound "gameover").sounds ∧
      ((g.endGame isWin).endGame true).summary =
        some { won := true, finalScore := g.score, finalLevel := g.level } := by
  have hp := Game.endGame_isPlaying g isWin
  have hf := Game.endGame_fields g isWin
  have ht := Game.endGame_true (g.endGame isWin)
  refine ⟨?_, ?_, ?_, ?_, ?_, ?_⟩
  · unfold Game.endGame at hp ⊢
    rw [hp]
    simp
  · rw [Game.endGame_isPlaying, hp]
  · rw [ht]
  · rw [ht]
  · rw [ht]
  · rw [ht]
    simp only [hf.1, hf.2.2.1]

/-! ## C17: the fire command -/

/-- C17: `handleCanvasClick` changes nothing while the session is not playing or is paused, and
nothing while the hook is not idle; with the session playing, unpaused and the hook idle it
sets the hook to shooting with length 0 and the angle of the click as seen from the miner
(and plays the `shoot` cue). -/
theorem handleCanvasClick_fire (T : Trig) (g : Game) (e : Click) :
    ((g.isPlaying = false ∨ g.isPaused = true) → g.handleCanvasClick T e = some g) ∧
      (∀ h, g.hook = some h → h.state ≠ HookState.idle →
        g.handleCanvasClick T e = some g) ∧
      (∀ h, g.hook = some h → g.isPlaying = true → g.isPaused = false →
        h.state = HookState.idle →
        g.handleCanvasClick T e = some (({ g with
          hook := some { h with
            angle := T.atan2 (e.clientY - e.rectTop - 150)
              (e.clientX - e.rectLeft - canvasWidth / 2)
            state := HookState.shooting
            length := 0 } } : Game).playSound "shoot")) := by
  refine ⟨?_, ?_, ?_⟩
  · intro hno
    unfold Game.handleCanvasClick
    rcases hno with hno | hno <;> simp [hno]
  · intro h hh hst
    unfold Game.handleCanvasClick
    split
    · rfl
    · simp [hh, hst]
  · intro h hh hp hpa hst
    unfold Game.handleCanvasClick
    have hc : ¬ ((!g.isPlaying || g.isPaused) = true) := by
      rw [hp, hpa]
      decide
    rw [if_neg hc]
    simp only [hh]
    rw [if_pos hst]
    rfl

/-- Witness for C17: a click in a session that is playing, unpaused, with the hook idle. -/
theorem handleCanvasClick_fire_witness :
    samplePlaying.handleCanvasClick trigZero sampleClick =
      some (({ samplePlaying with
        hook := some { Hook.new 400 150 defaultConfig with
          angle := trigZero.atan2 (sampleClick.clientY - sampleClick.rectTop - 150)
            (sampleClick.clientX - sampleClick.rectLeft - canvasWidth / 2)
          state := HookState.shooting
          length := 0 } } : Game).playSound "shoot") :=
  (handleCanvasClick_fire trigZero samplePlaying sampleClick).2.2
    (Hook.new 400 150 defaultConfig) rfl rfl rfl rfl

/-! ## C18: changing the difficulty during a session -/

/-- C18, as stated, fails: in a session that is playing at difficulty normal, `setDifficulty`
with hard changes the difficulty to hard, and the next level-up adds the time bonus of hard
(5), not of normal (10). -/
theorem setDifficulty_changes_playing_session :
    samplePlaying.isPlaying = true ∧ samplePlaying.difficulty = Difficulty.normal ∧
      (samplePlaying.setDifficulty Difficulty.hard).difficulty = Difficulty.hard ∧
      (samplePlaying.setDifficulty Difficulty.hard).difficulty ≠ samplePlaying.difficulty ∧
      (samplePlaying.setDifficulty Difficulty.hard).nextLevel.timeLeft
        = samplePlaying.timeLeft + 5 ∧
      samplePlaying.nextLevel.timeLeft = samplePlaying.timeLeft + 10 := by
  refine ⟨rfl, rfl, rfl, by decide, ?_, ?_⟩
  · obtain ⟨R, its, ps, h, _⟩ := Game.nextLevel_spec
      (samplePlaying.setDifficulty Difficulty.hard)
    rw [h]
    rfl
  · obtain ⟨R, its, ps, h, _⟩ := Game.nextLevel_spec samplePlaying
    rw [h]
    rfl

/-- C18 (amended): `setDifficulty` has no guard.  In every session state, playing or not, it
sets the difficulty to the value given and changes nothing else; the bonuses of a later
level-up and the bands of a later field generation are those of the value given. -/
theorem setDifficulty_unguarded (g : Game) (d : Difficulty) :
    g.setDifficulty d = { g with difficulty := d } ∧
      (g.setDifficulty d).difficulty = d ∧
      (g.setDifficulty d).isPlaying = g.isPlaying ∧
      (g.setDifficulty d).nextLevel.timeLeft = g.timeLeft + timeBonus d ∧
      (g.setDifficulty d).nextLevel.targetScore = g.targetScore + targetIncrease d ∧
      (g.setDifficulty d).nextLevel.config.hookSpeed = g.config.hookSpeed + speedIncrease d ∧
      ∀ it ∈ (g.setDifficulty d).generateItems.items,
        ∃ i, it.type = selectType (itemChances d g.level) (g.rng i) := by
  obtain ⟨R, its, ps, h, _⟩ := Game.nextLevel_spec (g.setDifficulty d)
  refine ⟨rfl, rfl, rfl, by rw [h]; rfl, by rw [h]; rfl, by rw [h]; rfl, ?_⟩
  intro it hit
  obtain ⟨R2, its2, h2, _, hty⟩ := Game.generateItems_spec (g.setDifficulty d)
  rw [h2] at hit
  exact hty it hit

/-! ## C20: the trajectory and the life of a particle -/

theorem Particle.updateN_succ_last (n : ℕ) (p : Particle) :
    Particle.updateN (n + 1) p = (Particle.updateN n p).update := by
  induction n generalizing p with
  | zero => rfl
  | succ n ih =>
    show Particle.updateN (n + 1) p.update = _
    rw [ih]
    rfl

/-- The state of a particle after `n` updates, in closed form. -/
theorem Particle.updateN_spec (n : ℕ) (p : Particle) :
    (Particle.updateN n p).x = p.x + n * p.vx ∧
      (Particle.updateN n p).vx = p.vx ∧
      (Particle.updateN n p).vy = p.vy + 1 / 10 * n ∧
      (Particle.updateN n p).y = p.y + n * p.vy + 1 / 10 * n * (n - 1) / 2 ∧
      (Particle.updateN n p).life = p.life - n * p.decay ∧
      (Particle.updateN n p).decay = p.decay := by
  induction n generalizing p with
  | zero => simp [Particle.updateN]
  | succ n ih =>
    obtain ⟨h1, h2, h3, h4, h5, h6⟩ := ih p.update
    have e1 : p.update.x = p.x + p.vx := rfl
    have e2 : p.update.vx = p.vx := rfl
    have e3 : p.update.vy = p.vy + 1 / 10 := rfl
    have e4 : p.update.y = p.y + p.vy := rfl
    have e5 : p.update.life = p.life - p.decay := rfl
    have e6 : p.update.decay = p.decay := rfl
    show (Particle.updateN n p.update).x = _ ∧ (Particle.updateN n p.update).vx = _ ∧
      (Particle.updateN n p.update).vy = _ ∧ (Particle.updateN n p.update).y = _ ∧
      (Particle.updateN n p.update).life = _ ∧ (Particle.updateN n p.update).decay = _
    rw [h1, h2, h3, h4, h5, h6, e1, e2, e3, e4, e5, e6]
    push_cast
    refine ⟨by ring, rfl, by ring, by ring, by ring, rfl⟩

/-- The list that `updateParticles` leaves: the survivors of the ageing, cut to the last 50. -/
theorem Game.updateParticles_particles (g : Game) :
    g.updateParticles.particles =
      if 50 < ((g.particles.map Particle.update).filter (fun p => decide (0 < p.life))).length then
        ((g.particles.map Particle.update).filter (fun p => decide (0 < p.life))).drop
          (((g.particles.map Particle.update).filter (fun p => decide (0 < p.life))).length - 50)
      else ((g.particles.map Particle.update).filter (fun p => decide (0 < p.life))) := by
  unfold Game.updateParticles
  simp only [updateParticlesLoop_eq, maxParticles]
  split <;> rfl

/-- With at most 50 particles, a particle is kept by `updateParticles`, in its updated state,
exactly when its life is still positive after the update. -/
theorem Game.updateParticles_keeps (g : Game) (hlen : g.particles.length ≤ 50)
    (q : Particle) (hq : q ∈ g.particles) :
    (0 < q.update.life → q.update ∈ g.updateParticles.particles) ∧
      (q.update.life ≤ 0 → q.update ∉ g.updateParticles.particles) := by
  have hsl : ((g.particles.map Particle.update).filter (fun p => decide (0 < p.life))).length ≤ 50 :=
    le_trans (List.length_filter_le _ _) (by rw [List.length_map]; exact hlen)
  rw [Game.updateParticles_particles, if_neg (not_lt.mpr hsl)]
  constructor
  · intro hpos
    rw [List.mem_filter]
    exact ⟨List.mem_map_of_mem _ hq, decide_eq_true hpos⟩
  · intro hle hmem
    rw [List.mem_filter, decide_eq_true_iff] at hmem
    exact absurd hmem.2 (not_lt.mpr hle)

theorem Particle.life_pos_iff (p : Particle) (n N : ℕ) (hl : p.life = 1)
    (hd : p.decay * N = 1) (hN : 0 < N) :
    0 < (Particle.updateN n p).life ↔ n < N := by
  rw [(Particle.updateN_spec n p).2.2.2.2.1, hl]
  have hNq : (0 : ℚ) < N := by exact_mod_cast hN
  have hdp : 0 < p.decay := by
    by_contra hcon
    have : p.decay * N ≤ 0 := mul_nonpos_of_nonpos_of_nonneg (not_lt.mp hcon) (le_of_lt hNq)
    linarith
  constructor
  · intro h
    by_contra hcon
    have hge : (N : ℚ) ≤ n := by exact_mod_cast not_lt.mp hcon
    have : p.decay * N ≤ n * p.decay := by
      rw [mul_comm]
      exact mul_le_mul_of_nonneg_right hge (le_of_lt hdp)
    linarith
  · intro h
    have hlt : (n : ℚ) < N := by exact_mod_cast h
    have : n * p.decay < p.decay * N := by
      rw [mul_comm]
      exact mul_lt_mul_of_pos_left hlt hdp
    linarith

/-- C20, as stated, fails when the list holds more than 50 particles: of 51 particles just
created all survive their first update, and the cap `slice(-50)` drops the oldest, a score
particle whose life is still `0.99`, on its first update and not on its 100th. -/
theorem score_particle_dropped_by_cap :
    Particle.updateN 0 (ScoreParticle.new 400 100 "+50" "#FFD700") ∈ sampleCrowded.particles ∧
      (Particle.updateN 1 (ScoreParticle.new 400 100 "+50" "#FFD700")).life = 99 / 100 ∧
      Particle.updateN 1 (ScoreParticle.new 400 100 "+50" "#FFD700") ∉
        sampleCrowded.updateParticles.particles ∧
      sampleCrowded.updateParticles.particles =
        List.replicate 50 (Particle.new 0 0 0 0 "#FFD700").update := by
  have hS : (0 : ℚ) < (ScoreParticle.new 400 100 "+50" "#FFD700").update.life := by
    norm_num [ScoreParticle.new, Particle.new, Particle.update]
  have hP : (0 : ℚ) < (Particle.new 0 0 0 0 "#FFD700").update.life := by
    norm_num [Particle.new, Particle.update]
  have hne : (ScoreParticle.new 400 100 "+50" "#FFD700").update ≠
      (Particle.new 0 0 0 0 "#FFD700").update := by
    intro h
    have := congrArg Particle.text h
    simp [ScoreParticle.new, Particle.new, Particle.update] at this
  have hres : sampleCrowded.updateParticles.particles =
      List.replicate 50 (Particle.new 0 0 0 0 "#FFD700").update := by
    rw [Game.updateParticles_particles]
    have hl : (sampleCrowded.particles.map Particle.update).filter
        (fun p => decide (0 < p.life)) =
        (ScoreParticle.new 400 100 "+50" "#FFD700").update ::
          List.replicate 50 (Particle.new 0 0 0 0 "#FFD700").update := by
      show ((ScoreParticle.new 400 100 "+50" "#FFD700" ::
        List.replicate 50 (Particle.new 0 0 0 0 "#FFD700")).map Particle.update).filter
          (fun p => decide (0 < p.life)) = _
      rw [List.map_cons, List.map_replicate, List.filter_cons_of_pos (by simpa using hS),
        List.filter_replicate]
      simp [hP]
    rw [hl]
    simp
  refine ⟨List.mem_cons_self _ _, ?_, ?_, hres⟩
  · show (ScoreParticle.new 400 100 "+50" "#FFD700").update.life = 99 / 100
    norm_num [ScoreParticle.new, Particle.new, Particle.update]
  · rw [hres]
    intro hmem
    exact hne (List.eq_of_mem_replicate hmem)

/-- C20 (amended): in exact arithmetic, after `n` updates a basic `Particle` created at
`(x0, y0)` with velocity `(vx, vy0)` has `x = x0 + n vx`, `vy = vy0 + 0.1 n`,
`y = y0 + n vy0 + 0.1 n (n - 1) / 2` and `life = 1 - 0.02 n`; a `ScoreParticle` (velocity
`(0, -2)`) follows the same law with `life = 1 - 0.01 n`.  So the life of a basic particle is
positive exactly through its first 49 updates and that of a score particle through its first
99, and `updateParticles` (with at most 50 particles in the list) keeps the particle through
those updates and removes it on its 50th, respectively 100th. -/
theorem particle_trajectory (x0 y0 vx vy0 : ℚ) (color text : String) (n : ℕ) :
    ((Particle.updateN n (Particle.new x0 y0 vx vy0 color)).x = x0 + n * vx ∧
      (Particle.updateN n (Particle.new x0 y0 vx vy0 color)).vy = vy0 + 1 / 10 * n ∧
      (Particle.updateN n (Particle.new x0 y0 vx vy0 color)).y = y0 + n * vy0 + 1 / 10 * n * (n - 1) / 2 ∧
      (Particle.updateN n (Particle.new x0 y0 vx vy0 color)).life = 1 - n * (2 / 100)) ∧
    ((Particle.updateN n (ScoreParticle.new x0 y0 text color)).x = x0 ∧
      (Particle.updateN n (ScoreParticle.new x0 y0 text color)).vy = -2 + 1 / 10 * n ∧
      (Particle.updateN n (ScoreParticle.new x0 y0 text color)).y = y0 + n * (-2) + 1 / 10 * n * (n - 1) / 2 ∧
      (Particle.updateN n (ScoreParticle.new x0 y0 text color)).life = 1 - n * (1 / 100)) ∧
    (0 < (Particle.updateN n (Particle.new x0 y0 vx vy0 color)).life ↔ n < 50) ∧
    (0 < (Particle.updateN n (ScoreParticle.new x0 y0 text color)).life ↔ n < 100) ∧
    (∀ g : Game, g.particles.length ≤ 50 →
      Particle.updateN n (Particle.new x0 y0 vx vy0 color) ∈ g.particles →
      (n + 1 < 50 → Particle.updateN (n + 1) (Particle.new x0 y0 vx vy0 color) ∈ g.updateParticles.particles) ∧
      (n + 1 = 50 → Particle.updateN (n + 1) (Particle.new x0 y0 vx vy0 color) ∉ g.updateParticles.particles)) ∧
    (∀ g : Game, g.particles.length ≤ 50 →
      Particle.updateN n (ScoreParticle.new x0 y0 text color) ∈ g.particles →
      (n + 1 < 100 → Particle.updateN (n + 1) (ScoreParticle.new x0 y0 text color) ∈ g.updateParticles.particles) ∧
      (n + 1 = 100 → Particle.updateN (n + 1) (ScoreParticle.new x0 y0 text color) ∉ g.updateParticles.particles)) := by
  have hP := Particle.updateN_spec n (Particle.new x0 y0 vx vy0 color)
  have hS := Particle.updateN_spec n (ScoreParticle.new x0 y0 text color)
  have lP : ∀ k, 0 < (Particle.updateN k (Particle.new x0 y0 vx vy0 color)).life ↔ k < 50 :=
    fun k => Particle.life_pos_iff _ k 50 rfl (by norm_num [Particle.new]) (by decide)
  have lS : ∀ k, 0 < (Particle.updateN k (ScoreParticle.new x0 y0 text color)).life ↔ k < 100 :=
    fun k => Particle.life_pos_iff _ k 100 rfl
      (by norm_num [ScoreParticle.new, Particle.new]) (by decide)
  refine ⟨⟨hP.1, hP.2.2.1, hP.2.2.2.1, hP.2.2.2.2.1⟩, ⟨?_, hS.2.2.1, hS.2.2.2.1, hS.2.2.2.2.1⟩,
    lP n, lS n, ?_, ?_⟩
  · rw [hS.1]
    show x0 + n * 0 = x0
    ring
  · intro g hlen hmem
    have hk := Game.updateParticles_keeps g hlen _ hmem
    rw [← Particle.updateN_succ_last] at hk
    constructor
    · intro hlt
      exact hk.1 ((lP (n + 1)).mpr hlt)
    · intro heq
      exact hk.2 (not_lt.mp (fun hpos => absurd ((lP (n + 1)).mp hpos) (by omega)))
  · intro g hlen hmem
    have hk := Game.updateParticles_keeps g hlen _ hmem
    rw [← Particle.updateN_succ_last] at hk
    constructor
    · intro hlt
      exact hk.1 ((lS (n + 1)).mpr hlt)
    · intro heq
      exact hk.2 (not_lt.mp (fun hpos => absurd ((lS (n + 1)).mp hpos) (by omega)))

/-- Witness for C20 (amended): alone in the list, a score particle that has been updated 99
times is removed by the next `updateParticles`, its 100th update. -/
theorem particle_trajectory_witness :
    sampleOldScore.particles.length ≤ 50 ∧
      Particle.updateN 100 (ScoreParticle.new 400 100 "+50" "#FFD700") ∉
        sampleOldScore.updateParticles.particles :=
  ⟨by decide,
    ((particle_trajectory 400 100 0 0 "#FFD700" "+50" 99).2.2.2.2.2 sampleOldScore (by decide)
      (List.mem_cons_self _ _)).2 rfl⟩

/-! ## C21: the pre-filter of the collision test -/

/-- With `size ≥ 0` the distance test implies the pre-filter. -/
theorem sqrtLt_imp_prefilter (a b size : ℚ) (hsz : 0 ≤ size)
    (hs : sqrtLt (|a| * |a| + |b| * |b|) (size / 2 + 5) = true) :
    |a| < size + 20 ∧ |b| < size + 20 := by
  unfold sqrtLt at hs
  rw [decide_eq_true_iff] at hs
  obtain ⟨ht, hq⟩ := hs
  have ha := abs_nonneg a
  have hb := abs_nonneg b
  have h1 : |a| < size / 2 + 5 := by
    by_contra hcon
    have hge := not_lt.mp hcon
    nlinarith [mul_nonneg hb hb]
  have h2 : |b| < size / 2 + 5 := by
    by_contra hcon
    have hge := not_lt.mp hcon
    nlinarith [mul_nonneg ha ha]
  constructor <;> linarith

/-- On a field of items with `size ≥ 0` the loop without the pre-filter is the code's loop. -/
theorem Game.checkCollisionsLoopNarrow_eq (hookTip : ℚ × ℚ) (h : Hook) (n : ℕ) (g : Game)
    (hsize : ∀ item ∈ g.items, 0 ≤ item.size) :
    Game.checkCollisionsLoopNarrow hookTip h n g = Game.checkCollisionsLoop hookTip h n g := by
  induction n with
  | zero => rfl
  | succ n ih =>
    rw [Game.checkCollisionsLoopNarrow, Game.checkCollisionsLoop]
    cases hget : g.items[n]? with
    | none => rfl
    | some item =>
      have hmem : item ∈ g.items := List.getElem?_mem hget
      have hsz := hsize item hmem
      simp only
      by_cases hs : sqrtLt (|hookTip.1 - item.x| * |hookTip.1 - item.x| +
          |hookTip.2 - item.y| * |hookTip.2 - item.y|) (item.size / 2 + 5) = true
      · have hpre := sqrtLt_imp_prefilter _ _ _ hsz hs
        rw [if_pos hs, if_pos hpre, if_pos hs]
      · rw [if_neg hs, ih]
        split <;> rfl

theorem Game.checkCollisionsNarrow_eq (T : Trig) (g : Game)
    (hsize : ∀ item ∈ g.items, 0 ≤ item.size) :
    g.checkCollisionsNarrow T = g.checkCollisions T := by
  unfold Game.checkCollisionsNarrow Game.checkCollisions
  cases g.hook with
  | none => rfl
  | some h =>
    simp only
    split
    · rfl
    · rw [Game.checkCollisionsLoopNarrow_eq _ _ _ _ hsize]

theorem hitSpec_iff_narrow (hookTip : ℚ × ℚ) (item : Item) (hsz : 0 ≤ item.size) :
    hitSpec hookTip item ↔
      Real.sqrt (((hookTip.1 : ℝ) - item.x) ^ 2 + ((hookTip.2 : ℝ) - item.y) ^ 2)
        < item.size / 2 + 5 := by
  unfold hitSpec
  constructor
  · intro h
    exact h.2.2
  · intro h
    have hszr : (0 : ℝ) ≤ (item.size : ℝ) := by exact_mod_cast hsz
    have hx : |(hookTip.1 : ℝ) - item.x| ≤
        Real.sqrt (((hookTip.1 : ℝ) - item.x) ^ 2 + ((hookTip.2 : ℝ) - item.y) ^ 2) :=
      Real.abs_le_sqrt (by nlinarith [sq_nonneg ((hookTip.2 : ℝ) - item.y)])
    have hy : |(hookTip.2 : ℝ) - item.y| ≤
        Real.sqrt (((hookTip.1 : ℝ) - item.x) ^ 2 + ((hookTip.2 : ℝ) - item.y) ^ 2) :=
      Real.abs_le_sqrt (by nlinarith [sq_nonneg ((hookTip.1 : ℝ) - item.x)])
    refine ⟨by linarith, by linarith, h⟩


/-- C21: the broad-phase pre-filter of `checkCollisions` never changes the outcome.  For every
tip position and every item with `size ≥ 0` the two-phase test holds iff the distance test
alone holds, and on a field of such items `checkCollisions` with the pre-filter removed returns
exactly what `checkCollisions` returns. -/
theorem prefilter_never_changes_outcome (T : Trig) (g : Game)
    (hsize : ∀ item ∈ g.items, 0 ≤ item.size) :
    (∀ (hookTip : ℚ × ℚ) (item : Item), 0 ≤ item.size →
      (hitSpec hookTip item ↔
        Real.sqrt (((hookTip.1 : ℝ) - item.x) ^ 2 + ((hookTip.2 : ℝ) - item.y) ^ 2)
          < item.size / 2 + 5)) ∧
      g.checkCollisionsNarrow T = g.checkCollisions T :=
  ⟨fun hookTip item hsz => hitSpec_iff_narrow hookTip item hsz,
    Game.checkCollisionsNarrow_eq T g hsize⟩

/-- Witness for C21: a shooting hook whose tip lies on the last item of a two-item field. -/
theorem prefilter_never_changes_outcome_witness :
    (∀ (hookTip : ℚ × ℚ) (item : Item), 0 ≤ item.size →
      (hitSpec hookTip item ↔
        Real.sqrt (((hookTip.1 : ℝ) - item.x) ^ 2 + ((hookTip.2 : ℝ) - item.y) ^ 2)
          < item.size / 2 + 5)) ∧
      sampleGame.checkCollisionsNarrow trigZero = sampleGame.checkCollisions trigZero :=
  prefilter_never_changes_outcome trigZero sampleGame (by
    intro item hmem
    have hm : item = sampleStone ∨ item = sampleItem := by
      simpa [sampleGame] using hmem
    rcases hm with hm | hm <;> rw [hm] <;> norm_num [sampleStone, sampleItem])

/-! ## C22: a second grab during a retraction -/

/-- The tick that completes a retraction with an item attached adds `⌊item.value⌋` to the
score, clears the attachment and leaves the hook idle. -/
theorem Hook.update_pulling_done_some (T : Trig) (h : Hook) (g : Game) (it : Item)
    (hs : h.state = HookState.pulling) (hle : h.length - h.pullSpeed g ≤ 0)
    (hit : h.grabbedItem = some it) :
    (h.update T g).2.score = g.score + ⌊it.value⌋ ∧ (h.update T g).1.grabbedItem = none ∧
      (h.update T g).1.state = HookState.idle := by
  have hupd := Hook.update_pulling_done T h g hs hle
  rw [hit] at hupd
  simp only at hupd
  rw [hupd]
  refine ⟨?_, rfl, rfl⟩
  show (Hook.createGrabEffect T _ _).score = _
  rw [Hook.createGrabEffect_score]
  cases it.type <;> simp only [Game.playSound_score, Game.addScore_score] <;> rfl

/-- Along a retraction with an item attached the score stays until the hook is home, and then
grows by `⌊item.value⌋`. -/
theorem ticks_retract_score (T : Trig) (h : Hook) (g : Game) (it : Item)
    (hs : h.state = HookState.pulling) (hL : 0 < h.length) (hv : 0 < h.pullSpeed g)
    (hit : h.grabbedItem = some it) :
    (∀ k : ℕ, k < ⌈h.length / h.pullSpeed g⌉₊ → (ticks T k (h, g)).2.score = g.score) ∧
      (ticks T ⌈h.length / h.pullSpeed g⌉₊ (h, g)).2.score = g.score + ⌊it.value⌋ ∧
      (ticks T ⌈h.length / h.pullSpeed g⌉₊ (h, g)).1.state = HookState.idle ∧
      (ticks T ⌈h.length / h.pullSpeed g⌉₊ (h, g)).1.grabbedItem = none := by
  have habove : ∀ k : ℕ, k < ⌈h.length / h.pullSpeed g⌉₊ →
      0 < h.length - k * h.pullSpeed g := by
    intro k hk
    rw [Nat.lt_ceil, lt_div_iff₀ hv] at hk
    linarith
  have hnpos : 0 < ⌈h.length / h.pullSpeed g⌉₊ := Nat.ceil_pos.mpr (div_pos hL hv)
  constructor
  · intro k hk
    rw [ticks_pulling T k h g hs (le_of_lt hv) (habove k hk)]
  · have hge : h.length ≤ (⌈h.length / h.pullSpeed g⌉₊ : ℚ) * h.pullSpeed g := by
      rw [← div_le_iff₀ hv]
      exact Nat.le_ceil _
    obtain ⟨m, hm⟩ := Nat.exists_eq_succ_of_ne_zero (Nat.pos_iff_ne_zero.mp hnpos)
    have hmlt : m < ⌈h.length / h.pullSpeed g⌉₊ := by omega
    rw [hm] at hge
    rw [hm, Nat.succ_eq_add_one, ticks_succ_last,
      ticks_pulling T m h g hs (le_of_lt hv) (habove m hmlt)]
    have hps : ({ h with length := h.length - m * h.pullSpeed g } : Hook).pullSpeed g
        = h.pullSpeed g := rfl
    have hle : ({ h with length := h.length - m * h.pullSpeed g } : Hook).length -
        ({ h with length := h.length - m * h.pullSpeed g } : Hook).pullSpeed g ≤ 0 := by
      rw [hps]
      show h.length - m * h.pullSpeed g - h.pullSpeed g ≤ 0
      push_cast at hge
      linarith
    obtain ⟨a, b, c⟩ := Hook.update_pulling_done_some T
      { h with length := h.length - m * h.pullSpeed g } g it hs hle hit
    exact ⟨a, c, b⟩

/-- A frame that starts with a pulling hook still away from home runs the collision check on
the shortened hook. -/
theorem Game.update_pulling (T : Trig) (g : Game) (h : Hook) (hh : g.hook = some h)
    (hs : h.state = HookState.pulling) (hpos : 0 < h.length - h.pullSpeed g) :
    g.update T =
      match ({ g with hook := some { h with length := h.length - h.pullSpeed g } } :
          Game).checkCollisions T with
      | none => none
      | some g3 => g3.updateParticles.checkGameStatus := by
  rw [Game.update_some T g h hh, Hook.update_pulling_pos T h g hs hpos]
  have hc : ({ h with length := h.length - h.pullSpeed g } : Hook).state = HookState.shooting ∨
      ({ h with length := h.length - h.pullSpeed g } : Hook).state = HookState.pulling :=
    Or.inr hs
  simp only
  rw [if_pos hc]

/-- C22: collision detection also runs while the hook is pulling with an item attached.  A
frame that starts with such a hook away from home runs `checkCollisions` on it; and when a
field item passes the hit test, `checkCollisions` removes that item from the field and makes it
the grabbed item in place of the one attached before, which is then not in the hook and (not
having been in the field) not in the field.  Along the retraction that follows the score stays,
and on its last tick it grows by `⌊value⌋` of the newly attached item only, whereas the
retraction without the second grab would have added `⌊value⌋` of the item attached before. -/
theorem regrab_overwrites_attached_item (T : Trig) (g : Game) (h : Hook) (old : Item)
    (hh : g.hook = some h) (hs : h.state = HookState.pulling)
    (hold : h.grabbedItem = some old) (hL : 0 < h.length)
    (hp : 0 < g.config.hookPullSpeed)
    (hhit : ∃ (j : ℕ) (item : Item), g.items[j]? = some item ∧
      hitSpec (h.getTipPosition T) item) :
    (ticks T ⌈h.length * old.weight / g.config.hookPullSpeed⌉₊ (h, g)).2.score
        = g.score + ⌊old.value⌋ ∧
      (0 < h.length - h.pullSpeed g →
        g.update T =
          match ({ g with
              hook := some { h with length := h.length - h.pullSpeed g } } :
              Game).checkCollisions T with
          | none => none
          | some g3 => g3.updateParticles.checkGameStatus) ∧
      ∃ (i : ℕ) (item : Item), g.items[i]? = some item ∧
        hitSpec (h.getTipPosition T) item ∧
        g.checkCollisions T = some { g.playSound "grab" with
              hook := some { h with grabbedItem := some item, state := HookState.pulling }
              items := g.items.eraseIdx i } ∧
        (old ∉ g.items → old ∉ g.items.eraseIdx i) ∧
        (∀ k : ℕ, k < ⌈h.length * item.weight / g.config.hookPullSpeed⌉₊ →
          (ticks T k (({ h with grabbedItem := some item, state := HookState.pulling } : Hook),
            ({ g.playSound "grab" with
              hook := some { h with grabbedItem := some item, state := HookState.pulling }
              items := g.items.eraseIdx i } : Game))).2.score = g.score) ∧
        (ticks T ⌈h.length * item.weight / g.config.hookPullSpeed⌉₊ (({ h with grabbedItem := some item, state := HookState.pulling } : Hook),
            ({ g.playSound "grab" with
              hook := some { h with grabbedItem := some item, state := HookState.pulling }
              items := g.items.eraseIdx i } : Game))).2.score = g.score + ⌊item.value⌋ ∧
        (ticks T ⌈h.length * item.weight / g.config.hookPullSpeed⌉₊ (({ h with grabbedItem := some item, state := HookState.pulling } : Hook),
            ({ g.playSound "grab" with
              hook := some { h with grabbedItem := some item, state := HookState.pulling }
              items := g.items.eraseIdx i } : Game))).1.state = HookState.idle ∧
        (ticks T ⌈h.length * item.weight / g.config.hookPullSpeed⌉₊ (({ h with grabbedItem := some item, state := HookState.pulling } : Hook),
            ({ g.playSound "grab" with
              hook := some { h with grabbedItem := some item, state := HookState.pulling }
              items := g.items.eraseIdx i } : Game))).1.grabbedItem = none := by
  have hvold : h.pullSpeed g = g.config.hookPullSpeed / old.weight :=
    Hook.pullSpeed_some h g old hold
  have hcontrast := (ticks_retract_score T h g old hs hL
    (by rw [hvold]; exact div_pos hp old.weight_pos) hold).2.1
  rw [hvold, div_div_eq_mul_div] at hcontrast
  refine ⟨hcontrast, fun hpos => Game.update_pulling T g h hh hs hpos, ?_⟩
  rcases Game.checkCollisions_cases T g h hh with
    ⟨hnone, _⟩ | ⟨_, i, item, _, hgi, hhitT, _, heq⟩
  · obtain ⟨j, item, hj, hsp⟩ := hhit
    rcases hnone with hidle | hall
    · rw [hs] at hidle
      cases hidle
    · have := hall j item hj
      rw [(Game.hitTest_iff_hitSpec _ _).mpr hsp] at this
      cases this
  · have hv : ({ h with grabbedItem := some item, state := HookState.pulling } : Hook).pullSpeed
        ({ g.playSound "grab" with
          hook := some { h with grabbedItem := some item, state := HookState.pulling }
          items := g.items.eraseIdx i } : Game) = g.config.hookPullSpeed / item.weight := by
      rw [Hook.pullSpeed_some _ _ item rfl]
      show (g.playSound "grab").config.hookPullSpeed / item.weight = _
      rw [Game.playSound_config]
    have hvpos : 0 < g.config.hookPullSpeed / item.weight := div_pos hp item.weight_pos
    have key := ticks_retract_score T
      ({ h with grabbedItem := some item, state := HookState.pulling } : Hook)
      ({ g.playSound "grab" with
        hook := some { h with grabbedItem := some item, state := HookState.pulling }
        items := g.items.eraseIdx i } : Game) item rfl hL (by rw [hv]; exact hvpos) rfl
    rw [hv] at key
    have hlen : ({ h with grabbedItem := some item, state := HookState.pulling } : Hook).length /
        (g.config.hookPullSpeed / item.weight) =
        h.length * item.weight / g.config.hookPullSpeed := by
      show h.length / (g.config.hookPullSpeed / item.weight) = _
      rw [div_div_eq_mul_div]
    rw [hlen] at key
    have hsc : ({ g.playSound "grab" with
        hook := some { h with grabbedItem := some item, state := HookState.pulling }
        items := g.items.eraseIdx i } : Game).score = g.score := Game.playSound_score g "grab"
    rw [hsc] at key
    refine ⟨i, item, hgi, (Game.hitTest_iff_hitSpec _ _).mp hhitT, heq, ?_, key.1, key.2.1,
      key.2.2.1, key.2.2.2⟩
    intro hnot hmem
    exact hnot ((List.eraseIdx_sublist _ _).subset hmem)

/-- Witness for C22: a hook pulling a diamond with its tip on a gold item of the field. -/
theorem regrab_overwrites_attached_item_witness :
    (ticks trigZero ⌈({ sampleHook with state := HookState.pulling, grabbedItem := some sampleDiamond } : Hook).length * sampleDiamond.weight / sampleRegrab.config.hookPullSpeed⌉₊ (({ sampleHook with state := HookState.pulling, grabbedItem := some sampleDiamond } : Hook), sampleRegrab)).2.score
        = sampleRegrab.score + ⌊sampleDiamond.value⌋ ∧
      (0 < ({ sampleHook with state := HookState.pulling, grabbedItem := some sampleDiamond } : Hook).length - ({ sampleHook with state := HookState.pulling, grabbedItem := some sampleDiamond } : Hook).pullSpeed sampleRegrab →
        sampleRegrab.update trigZero =
          match ({ sampleRegrab with
              hook := some { ({ sampleHook with state := HookState.pulling, grabbedItem := some sampleDiamond } : Hook) with length := ({ sampleHook with state := HookState.pulling, grabbedItem := some sampleDiamond } : Hook).length - ({ sampleHook with state := HookState.pulling, grabbedItem := some sampleDiamond } : Hook).pullSpeed sampleRegrab } } :
              Game).checkCollisions trigZero with
          | none => none
          | some g3 => g3.updateParticles.checkGameStatus) ∧
      ∃ (i : ℕ) (item : Item), sampleRegrab.items[i]? = some item ∧
        hitSpec (({ sampleHook with state := HookState.pulling, grabbedItem := some sampleDiamond } : Hook).getTipPosition trigZero) item ∧
        sampleRegrab.checkCollisions trigZero = some { sampleRegrab.playSound "grab" with
              hook := some { ({ sampleHook with state := HookState.pulling, grabbedItem := some sampleDiamond } : Hook) with grabbedItem := some item, state := HookState.pulling }
              items := sampleRegrab.items.eraseIdx i } ∧
        (sampleDiamond ∉ sampleRegrab.items → sampleDiamond ∉ sampleRegrab.items.eraseIdx i) ∧
        (∀ k : ℕ, k < ⌈({ sampleHook with state := HookState.pulling, grabbedItem := some sampleDiamond } : Hook).length * item.weight / sampleRegrab.config.hookPullSpeed⌉₊ →
          (ticks trigZero k (({ ({ sampleHook with state := HookState.pulling, grabbedItem := some sampleDiamond } : Hook) with grabbedItem := some item, state := HookState.pulling } : Hook),
            ({ sampleRegrab.playSound "grab" with
              hook := some { ({ sampleHook with state := HookState.pulling, grabbedItem := some sampleDiamond } : Hook) with grabbedItem := some item, state := HookState.pulling }
              items := sampleRegrab.items.eraseIdx i } : Game))).2.score = sampleRegrab.score) ∧
        (ticks trigZero ⌈({ sampleHook with state := HookState.pulling, grabbedItem := some sampleDiamond } : Hook).length * item.weight / sampleRegrab.config.hookPullSpeed⌉₊ (({ ({ sampleHook with state := HookState.pulling, grabbedItem := some sampleDiamond } : Hook) with grabbedItem := some item, state := HookState.pulling } : Hook),
            ({ sampleRegrab.playSound "grab" with
              hook := some { ({ sampleHook with state := HookState.pulling, grabbedItem := some sampleDiamond } : Hook) with grabbedItem := some item, state := HookState.pulling }
              items := sampleRegrab.items.eraseIdx i } : Game))).2.score = sampleRegrab.score + ⌊item.value⌋ ∧
        (ticks trigZero ⌈({ sampleHook with state := HookState.pulling, grabbedItem := some sampleDiamond } : Hook).length * item.weight / sampleRegrab.config.hookPullSpeed⌉₊ (({ ({ sampleHook with state := HookState.pulling, grabbedItem := some sampleDiamond } : Hook) with grabbedItem := some item, state := HookState.pulling } : Hook),
            ({ sampleRegrab.playSound "grab" with
              hook := some { ({ sampleHook with state := HookState.pulling, grabbedItem := some sampleDiamond } : Hook) with grabbedItem := some item, state := HookState.pulling }
              items := sampleRegrab.items.eraseIdx i } : Game))).1.state = HookState.idle ∧
        (ticks trigZero ⌈({ sampleHook with state := HookState.pulling, grabbedItem := some sampleDiamond } : Hook).length * item.weight / sampleRegrab.config.hookPullSpeed⌉₊ (({ ({ sampleHook with state := HookState.pulling, grabbedItem := some sampleDiamond } : Hook) with grabbedItem := some item, state := HookState.pulling } : Hook),
            ({ sampleRegrab.playSound "grab" with
              hook := some { ({ sampleHook with state := HookState.pulling, grabbedItem := some sampleDiamond } : Hook) with grabbedItem := some item, state := HookState.pulling }
              items := sampleRegrab.items.eraseIdx i } : Game))).1.grabbedItem = none :=
  regrab_overwrites_attached_item trigZero sampleRegrab
    ({ sampleHook with state := HookState.pulling, grabbedItem := some sampleDiamond } : Hook)
    sampleDiamond rfl rfl rfl (by norm_num [sampleHook])
    (by norm_num [sampleRegrab, sampleGame, Game.new, defaultConfig])
    ⟨1, sampleItem, rfl, by
      unfold hitSpec
      norm_num [Hook.getTipPosition, sampleHook, Hook.new, trigZero, sampleItem]⟩

/-! ## C23: the idle sweep after an out-of-range shot -/

/-- One idle tick from an angle whose successor is out of range: the angle moves one step and
the direction flips. -/
theorem Hook.update_idle_flip (T : Trig) (h : Hook) (g : Game)
    (hs : h.state = HookState.idle)
    (h2 : MathPI / 3 < |h.angle + g.config.rotationSpeed * h.rotationDirection|) :
    h.update T g =
      ({ h with
          angle := h.angle + g.config.rotationSpeed * h.rotationDirection
          rotationDirection := h.rotationDirection * (-1) }, g) := by
  rw [Hook.update_idle T h g hs, if_pos h2]

/-- Two idle ticks from an out-of-range angle whose successor is out of range too bring the
hook back to where it was. -/
theorem ticks_two_stuck (T : Trig) (h : Hook) (g : Game) (hs : h.state = HookState.idle)
    (h1 : MathPI / 3 < |h.angle|)
    (h2 : MathPI / 3 < |h.angle + g.config.rotationSpeed * h.rotationDirection|) :
    ticks T 2 (h, g) = (h, g) := by
  show (((h.update T g).1.update T (h.update T g).2)) = (h, g)
  rw [Hook.update_idle_flip T h g hs h2]
  have h3 : MathPI / 3 < |({ h with
      angle := h.angle + g.config.rotationSpeed * h.rotationDirection
      rotationDirection := h.rotationDirection * (-1) } : Hook).angle +
      g.config.rotationSpeed * ({ h with
        angle := h.angle + g.config.rotationSpeed * h.rotationDirection
        rotationDirection := h.rotationDirection * (-1) } : Hook).rotationDirection| := by
    show MathPI / 3 < |h.angle + g.config.rotationSpeed * h.rotationDirection +
      g.config.rotationSpeed * (h.rotationDirection * (-1))|
    have : h.angle + g.config.rotationSpeed * h.rotationDirection +
        g.config.rotationSpeed * (h.rotationDirection * (-1)) = h.angle := by ring
    rw [this]
    exact h1
  show Hook.update T ({ h with
      angle := h.angle + g.config.rotationSpeed * h.rotationDirection
      rotationDirection := h.rotationDirection * (-1) } : Hook) g = (h, g)
  rw [Hook.update_idle_flip T ({ h with
      angle := h.angle + g.config.rotationSpeed * h.rotationDirection
      rotationDirection := h.rotationDirection * (-1) } : Hook) g hs h3]
  have ea : h.angle + g.config.rotationSpeed * h.rotationDirection +
      g.config.rotationSpeed * (h.rotationDirection * (-1)) = h.angle := by ring
  have ed : h.rotationDirection * (-1) * (-1) = h.rotationDirection := by ring
  simp only [ea, ed]

theorem ticks_even_stuck (T : Trig) (h : Hook) (g : Game) (hs : h.state = HookState.idle)
    (h1 : MathPI / 3 < |h.angle|)
    (h2 : MathPI / 3 < |h.angle + g.config.rotationSpeed * h.rotationDirection|) (k : ℕ) :
    ticks T (2 * k) (h, g) = (h, g) := by
  induction k with
  | zero => rfl
  | succ k ih =>
    rw [show 2 * (k + 1) = 2 * k + 2 from by ring, ticks_add, ih]
    exact ticks_two_stuck T h g hs h1 h2

theorem ticks_odd_stuck (T : Trig) (h : Hook) (g : Game) (hs : h.state = HookState.idle)
    (h1 : MathPI / 3 < |h.angle|)
    (h2 : MathPI / 3 < |h.angle + g.config.rotationSpeed * h.rotationDirection|) (k : ℕ) :
    ticks T (2 * k + 1) (h, g) =
      ({ h with
          angle := h.angle + g.config.rotationSpeed * h.rotationDirection
          rotationDirection := h.rotationDirection * (-1) }, g) := by
  rw [ticks_add, ticks_even_stuck T h g hs h1 h2 k]
  exact Hook.update_idle_flip T h g hs h2

/-- C23: the idle sweep does not recover from an out-of-range angle.  If the hook is idle with
angle `a` and direction `d` such that `|a| > π/3` and `|a + d * rotationSpeed| > π/3`, then
after every number `n` of idle ticks it is still idle, its angle is `a` for even `n` and
`a + d * rotationSpeed` for odd `n`, its direction is `d` for even `n` and `-d` for odd `n`, the
angle is outside `[-π/3, π/3]`, and the next tick flips the direction.  The condition holds
whenever `d = ±1`, `rotationSpeed ≥ 0` and `|a| > π/3 + rotationSpeed`. -/
theorem idle_sweep_stuck_out_of_range (T : Trig) (h : Hook) (g : Game) (n : ℕ)
    (hs : h.state = HookState.idle) (h1 : MathPI / 3 < |h.angle|)
    (h2 : MathPI / 3 < |h.angle + g.config.rotationSpeed * h.rotationDirection|) :
    (ticks T n (h, g)).1.state = HookState.idle ∧
      (ticks T n (h, g)).1.angle =
        (if n % 2 = 0 then h.angle
          else h.angle + g.config.rotationSpeed * h.rotationDirection) ∧
      (ticks T n (h, g)).1.rotationDirection =
        (if n % 2 = 0 then h.rotationDirection else -h.rotationDirection) ∧
      MathPI / 3 < |(ticks T n (h, g)).1.angle| ∧
      (ticks T (n + 1) (h, g)).1.rotationDirection =
        -(ticks T n (h, g)).1.rotationDirection ∧
      ((h.rotationDirection = 1 ∨ h.rotationDirection = -1) →
        0 ≤ g.config.rotationSpeed →
        MathPI / 3 + g.config.rotationSpeed < |h.angle| →
        MathPI / 3 < |h.angle| ∧
          MathPI / 3 < |h.angle + g.config.rotationSpeed * h.rotationDirection|) := by
  have hstate : ∀ m, (ticks T m (h, g)).1.state = HookState.idle ∧
      (ticks T m (h, g)).1.angle =
        (if m % 2 = 0 then h.angle
          else h.angle + g.config.rotationSpeed * h.rotationDirection) ∧
      (ticks T m (h, g)).1.rotationDirection =
        (if m % 2 = 0 then h.rotationDirection else -h.rotationDirection) := by
    intro m
    rcases Nat.even_or_odd' m with ⟨k, hk | hk⟩
    · rw [hk, ticks_even_stuck T h g hs h1 h2 k]
      have : 2 * k % 2 = 0 := by omega
      rw [if_pos this, if_pos this]
      exact ⟨hs, rfl, rfl⟩
    · rw [hk, ticks_odd_stuck T h g hs h1 h2 k]
      have : (2 * k + 1) % 2 ≠ 0 := by omega
      rw [if_neg this, if_neg this]
      refine ⟨hs, rfl, ?_⟩
      show h.rotationDirection * (-1) = -h.rotationDirection
      ring
  obtain ⟨a, b, c⟩ := hstate n
  obtain ⟨_, _, c2⟩ := hstate (n + 1)
  refine ⟨a, b, c, ?_, ?_, ?_⟩
  · rw [b]
    split
    · exact h1
    · exact h2
  · rw [c2, c]
    by_cases hpar : n % 2 = 0
    · have : (n + 1) % 2 ≠ 0 := by omega
      rw [if_neg this, if_pos hpar]
    · have : (n + 1) % 2 = 0 := by omega
      rw [if_pos this, if_neg hpar]
      ring
  · intro hd hrs hfar
    have hB := MathPI_third_pos
    rw [lt_abs] at hfar ⊢
    constructor
    · rcases hfar with hf | hf
      · left; linarith
      · right; linarith
    · rw [lt_abs]
      rcases hd with hd | hd <;> rw [hd] <;> rcases hfar with hf | hf
      · left; linarith
      · right; linarith
      · left; linarith
      · right; linarith

/-- Witness for C23: the constructor's config and an idle hook left at angle `1.5`. -/
theorem idle_sweep_stuck_out_of_range_witness :
    (ticks trigZero 7 (sampleStuck, (Game.new (fun _ => 0) false))).1.state = HookState.idle ∧
      (ticks trigZero 7 (sampleStuck, (Game.new (fun _ => 0) false))).1.angle =
        (if 7 % 2 = 0 then sampleStuck.angle
          else sampleStuck.angle + (Game.new (fun _ => 0) false).config.rotationSpeed * sampleStuck.rotationDirection) ∧
      (ticks trigZero 7 (sampleStuck, (Game.new (fun _ => 0) false))).1.rotationDirection =
        (if 7 % 2 = 0 then sampleStuck.rotationDirection else -sampleStuck.rotationDirection) ∧
      MathPI / 3 < |(ticks trigZero 7 (sampleStuck, (Game.new (fun _ => 0) false))).1.angle| ∧
      (ticks trigZero (7 + 1) (sampleStuck, (Game.new (fun _ => 0) false))).1.rotationDirection =
        -(ticks trigZero 7 (sampleStuck, (Game.new (fun _ => 0) false))).1.rotationDirection ∧
      ((sampleStuck.rotationDirection = 1 ∨ sampleStuck.rotationDirection = -1) →
        0 ≤ (Game.new (fun _ => 0) false).config.rotationSpeed →
        MathPI / 3 + (Game.new (fun _ => 0) false).config.rotationSpeed < |sampleStuck.angle| →
        MathPI / 3 < |sampleStuck.angle| ∧
          MathPI / 3 < |sampleStuck.angle + (Game.new (fun _ => 0) false).config.rotationSpeed * sampleStuck.rotationDirection|) :=
  idle_sweep_stuck_out_of_range trigZero sampleStuck (Game.new (fun _ => 0) false) 7 rfl
    (by norm_num [sampleStuck, Hook.new, MathPI, abs_of_pos])
    (by norm_num [sampleStuck, Hook.new, Game.new, defaultConfig, MathPI, abs_of_pos])

/-! ## C24: extension beyond `maxLength` -/

/-- C24: extension is not clamped at `maxLength`.  From a freshly constructed hook with
`hookSpeed = s > 0`, `hookPullSpeed > 0` (and `maxLength > 0`, which is 400 in every config the
code builds), after every sequence of ticks, fire commands and grabs the length satisfies
`0 ≤ length < maxLength + s`; and the part of the range above `maxLength` is attained: with
`s = 3` and `maxLength = 400` a missed shot is still shooting after tick 133 and has length
`402` on tick 134, the tick on which it switches to pulling. -/
theorem extension_not_clamped (T : Trig) (g : Game) (x y : ℚ) (es : List HookEvent)
    (hspd : 0 < g.config.hookSpeed) (hp : 0 < g.config.hookPullSpeed)
    (hM : 0 < g.config.hookMaxLength) :
    (0 ≤ (runEvents T es (Hook.new x y g.config, g)).1.length ∧
      (runEvents T es (Hook.new x y g.config, g)).1.length <
        g.config.hookMaxLength + g.config.hookSpeed) ∧
    ((runEvents trigZero (HookEvent.fire 0 :: List.replicate 133 HookEvent.tick)
        (Hook.new 400 150 defaultConfig, Game.new (fun _ => 0) false)).1.state
        = HookState.shooting ∧
      (runEvents trigZero (HookEvent.fire 0 :: List.replicate 134 HookEvent.tick)
        (Hook.new 400 150 defaultConfig, Game.new (fun _ => 0) false)).1.state
        = HookState.pulling ∧
      (runEvents trigZero (HookEvent.fire 0 :: List.replicate 134 HookEvent.tick)
        (Hook.new 400 150 defaultConfig, Game.new (fun _ => 0) false)).1.length = 402 ∧
      (runEvents trigZero (HookEvent.fire 0 :: List.replicate 134 HookEvent.tick)
        (Hook.new 400 150 defaultConfig, Game.new (fun _ => 0) false)).1.maxLength = 400 ∧
      (Game.new (fun _ => 0) false).config.hookSpeed = 3) := by
  obtain ⟨a, _, c⟩ := runEvents_length_inv T g.config es (Hook.new x y g.config, g) hspd hp hM
    rfl rfl (le_refl _) (fun _ => hM) (by show (0 : ℚ) < _; linarith)
  refine ⟨⟨a, c⟩, ?_, ?_⟩
  · rw [runEvents_cons, runEvents_replicate_tick, apply_fire_fresh,
      ticks_shooting trigZero 133 _ _ rfl (by norm_num [Game.new, defaultConfig])
        (by norm_num [Hook.shoot, Hook.new, Game.new, defaultConfig])]
    rfl
  · rw [runEvents_cons, runEvents_replicate_tick, apply_fire_fresh, ticks_default_miss]
    exact ⟨rfl, rfl, rfl, rfl⟩

/-- Witness for C24: the constructor's config, a fire and two ticks. -/
theorem extension_not_clamped_witness :
    (0 ≤ (runEvents trigZero [HookEvent.fire 0, HookEvent.tick, HookEvent.tick] (Hook.new 400 150 (Game.new (fun _ => 0) false).config, (Game.new (fun _ => 0) false))).1.length ∧
      (runEvents trigZero [HookEvent.fire 0, HookEvent.tick, HookEvent.tick] (Hook.new 400 150 (Game.new (fun _ => 0) false).config, (Game.new (fun _ => 0) false))).1.length <
        (Game.new (fun _ => 0) false).config.hookMaxLength + (Game.new (fun _ => 0) false).config.hookSpeed) ∧
    ((runEvents trigZero (HookEvent.fire 0 :: List.replicate 133 HookEvent.tick)
        (Hook.new 400 150 defaultConfig, Game.new (fun _ => 0) false)).1.state
        = HookState.shooting ∧
      (runEvents trigZero (HookEvent.fire 0 :: List.replicate 134 HookEvent.tick)
        (Hook.new 400 150 defaultConfig, Game.new (fun _ => 0) false)).1.state
        = HookState.pulling ∧
      (runEvents trigZero (HookEvent.fire 0 :: List.replicate 134 HookEvent.tick)
        (Hook.new 400 150 defaultConfig, Game.new (fun _ => 0) false)).1.length = 402 ∧
      (runEvents trigZero (HookEvent.fire 0 :: List.replicate 134 HookEvent.tick)
        (Hook.new 400 150 defaultConfig, Game.new (fun _ => 0) false)).1.maxLength = 400 ∧
      (Game.new (fun _ => 0) false).config.hookSpeed = 3) :=
  extension_not_clamped trigZero (Game.new (fun _ => 0) false) 400 150
    [HookEvent.fire 0, HookEvent.tick, HookEvent.tick]
    (by norm_num [Game.new, defaultConfig]) (by norm_num [Game.new, defaultConfig])
    (by norm_num [Game.new, defaultConfig])

end GoldMiner
